import Mathlib

/-!
# Audio pipeline (host engine): event queue, chain assembly and lifecycle

A shallow embedding of `src/src/audio_pipeline.c` and
`src/include/audio_pipeline/audio_pipeline.h`, followed by the gain filter of
the kernel subsystem (`src/subsys/audio/pipeline/nodes/gain_filter_node.c`)
and the generator source and capturing sink of `src/tests/test_pipeline.c`.

Conventions of the embedding

* A C pointer that the code tests against `NULL` is an `Option`; `none` is `NULL`.
* `size_t` values are natural numbers; increments and decrements wrap modulo
  `2 ^ 64` exactly as the unsigned C arithmetic does.
* The message buffer of a queue is addressed by slot: slot `i` stands for the
  `msg_size` bytes at `buffer + i * msg_size`, the unit `memcpy` moves.
* A return of `pthread_cond_wait` / `pthread_cond_timedwait` is an input of the
  model (a `Wakeup`): its return code and the queue as the other threads left
  it when the lock was re-acquired.  A call that is still blocked when the
  supplied wake-ups are used up has no result (`none`).
* Node records live in a memory indexed by address.  The operations of a node
  act on a world `W` (node contexts, frame samples); they do not write to node
  records or to the pipeline record.  Every call made through an operation
  table is appended to a ghost trace together with the value it returned.
* A call through a null pointer has no result (`none`).
-/

namespace AudioPipeline

/-! ## Constants of `errno.h` and of the header -/

/-- Linux `EIO`. -/
def EIO : Int := 5

/-- Linux `EAGAIN`. -/
def EAGAIN : Int := 11

/-- Linux `EINVAL`. -/
def EINVAL : Int := 22

/-- Linux `ETIMEDOUT`. -/
def ETIMEDOUT : Int := 110

/-- The header's `K_NO_WAIT`. -/
def K_NO_WAIT : Int := 0

/-- The header's `K_FOREVER`. -/
def K_FOREVER : Int := -1

/-- Number of values of a `size_t`. -/
def SIZE_MOD : Nat := 2 ^ 64

/-- The header's `AUDIO_PIPELINE_CHANNELS`. -/
def AUDIO_PIPELINE_CHANNELS : Nat := 2

/-- The header's `AUDIO_PIPELINE_EVENT_QUEUE_LEN`. -/
def AUDIO_PIPELINE_EVENT_QUEUE_LEN : Nat := 8

/-! ## The message queue `struct k_msgq` -/

/-- The fields of `struct k_msgq` other than the lock and the condition
variable.  `buffer i` is the message held in slot `i`. -/
structure k_msgq (α : Type) where
  buffer : Nat → α
  msg_size : Nat
  max_msgs : Nat
  read_idx : Nat
  write_idx : Nat
  count : Nat

/-- One return of `pthread_cond_wait` or `pthread_cond_timedwait` on the
queue's condition variable: the return code and the queue found once the lock
is held again. -/
structure Wakeup (α : Type) where
  ret : Int
  q : k_msgq α

/-- Embedding of `k_msgq_init`; `q` is the record the pointer refers to before
the call.  The `memset` clears the indices and the count. -/
def k_msgq_init {α : Type} (q : Option (k_msgq α)) (buffer : Option (Nat → α))
    (msg_size max_msgs : Nat) : Int × Option (k_msgq α) :=
  match q, buffer with
  | some _, some b =>
    if msg_size = 0 ∨ max_msgs = 0 then (-EINVAL, q)
    else (0, some { buffer := b, msg_size := msg_size, max_msgs := max_msgs,
                    read_idx := 0, write_idx := 0, count := 0 })
  | _, _ => (-EINVAL, q)

/-- The loop condition of `k_msgq_wait_common`:
`(for_put && count == max_msgs) || (!for_put && count == 0)`. -/
def k_msgq_must_wait {α : Type} (q : k_msgq α) (for_put : Bool) : Bool :=
  (for_put && q.count == q.max_msgs) || (!for_put && q.count == 0)

/-- The `K_FOREVER` loop of `k_msgq_wait_common`: wait on the condition
variable while the queue is full (put) or empty (get). -/
def k_msgq_wait_forever {α : Type} (for_put : Bool) :
    k_msgq α → List (Wakeup α) → Option (Int × k_msgq α)
  | q, [] => if k_msgq_must_wait q for_put then none else some (0, q)
  | q, w :: ws =>
    if k_msgq_must_wait q for_put then k_msgq_wait_forever for_put w.q ws
    else some (0, q)

/-- The timed loop of `k_msgq_wait_common`: a timed wait that returns
`ETIMEDOUT` ends the call with `-EAGAIN`. -/
def k_msgq_wait_timed {α : Type} (for_put : Bool) :
    k_msgq α → List (Wakeup α) → Option (Int × k_msgq α)
  | q, [] => if k_msgq_must_wait q for_put then none else some (0, q)
  | q, w :: ws =>
    if k_msgq_must_wait q for_put then
      if w.ret = ETIMEDOUT then some (-EAGAIN, w.q)
      else k_msgq_wait_timed for_put w.q ws
    else some (0, q)

/-- Embedding of `k_msgq_wait_common`. -/
def k_msgq_wait_common {α : Type} (q : k_msgq α) (for_put : Bool) (timeout : Int)
    (waits : List (Wakeup α)) : Option (Int × k_msgq α) :=
  if timeout = K_NO_WAIT then some (-EAGAIN, q)
  else if timeout = K_FOREVER then k_msgq_wait_forever for_put q waits
  else k_msgq_wait_timed for_put q waits

/-- Embedding of `k_msgq_put`.  The result is the return code and the queue
after the call. -/
def k_msgq_put {α : Type} (q : Option (k_msgq α)) (data : Option α) (timeout : Int)
    (waits : List (Wakeup α)) : Option (Int × Option (k_msgq α)) :=
  match q, data with
  | some q0, some d =>
    let waited : Option (Int × k_msgq α) :=
      if q0.count = q0.max_msgs then k_msgq_wait_common q0 true timeout waits
      else some (0, q0)
    match waited with
    | none => none
    | some (ret, q1) =>
      if ret < 0 then some (ret, some q1)
      else some (ret, some { q1 with
        buffer := fun i => if i = q1.write_idx then d else q1.buffer i,
        write_idx := ((q1.write_idx + 1) % SIZE_MOD) % q1.max_msgs,
        count := (q1.count + 1) % SIZE_MOD })
  | _, _ => some (-EINVAL, q)

/-- Embedding of `k_msgq_get`; `data` is the output record before the call.
The result is the return code, the queue and the output record after the
call. -/
def k_msgq_get {α : Type} (q : Option (k_msgq α)) (data : Option α) (timeout : Int)
    (waits : List (Wakeup α)) : Option (Int × Option (k_msgq α) × Option α) :=
  match q, data with
  | some q0, some _ =>
    let waited : Option (Int × k_msgq α) :=
      if q0.count = 0 then k_msgq_wait_common q0 false timeout waits
      else some (0, q0)
    match waited with
    | none => none
    | some (ret, q1) =>
      if ret < 0 then some (ret, some q1, data)
      else some (ret, some { q1 with
        read_idx := ((q1.read_idx + 1) % SIZE_MOD) % q1.max_msgs,
        count := (q1.count + SIZE_MOD - 1) % SIZE_MOD }, some (q1.buffer q1.read_idx))
  | _, _ => some (-EINVAL, q, data)

/-! ## Formats, events, nodes and the pipeline record -/

/-- The header's `enum audio_sample_format`. -/
inductive audio_sample_format where
  | AUDIO_SAMPLE_FORMAT_S32_LE
  deriving DecidableEq, Repr

/-- The header's `struct audio_format`. -/
structure audio_format where
  sample_rate : Nat
  channels : Nat
  valid_bits_per_sample : Nat
  format : audio_sample_format
  deriving DecidableEq, Repr

/-- The header's `enum audio_node_role`. -/
inductive audio_node_role where
  | AUDIO_NODE_ROLE_SOURCE
  | AUDIO_NODE_ROLE_FILTER
  | AUDIO_NODE_ROLE_SINK
  deriving DecidableEq, Repr

/-- The header's `enum audio_pipeline_event_type`. -/
inductive audio_pipeline_event_type where
  | AUDIO_PIPELINE_EVENT_EOF
  | AUDIO_PIPELINE_EVENT_ERROR
  | AUDIO_PIPELINE_EVENT_RECONFIG
  deriving DecidableEq, Repr

/-- The header's `struct audio_pipeline_event`. -/
structure audio_pipeline_event where
  type : audio_pipeline_event_type
  error : Int
  deriving DecidableEq, Repr

/-- The value of `sizeof(struct audio_pipeline_event)`: an enum and an int. -/
def SIZEOF_EVENT : Nat := 8

/-- A recorded call through a node's operation table: which node was passed
and what the operation returned.  The list of these calls is a ghost variable
of the model; the code does not read it. -/
inductive NodeCall where
  | opened (node : Nat) (ret : Int)
  | processed (node : Nat) (ret : Int) (out_size : Nat)
  | closed (node : Nat) (ret : Int)
  deriving DecidableEq, Repr

/-- The header's `struct audio_node_ops`.  A node operation gets the address
of its node and acts on the world `W`: the node contexts, the frame buffer's
samples and whatever else the operations own.  `process_fn node capacity
out_size w` gets the frame capacity and the value `*out_size` has before the
call and gives the return value, the value of `*out_size` after the call and
the world. -/
structure audio_node_ops (W : Type) where
  open_fn : Option (Nat → W → Int × W)
  process_fn : Option (Nat → Nat → Nat → W → Int × Nat × W)
  close_fn : Option (Nat → W → Int × W)

/-- The header's `struct audio_node`; the `context` pointer's target is part
of the world `W`.  `ops` is the table the pointer refers to. -/
structure audio_node (W : Type) where
  role : audio_node_role
  ops : Option (audio_node_ops W)
  upstream : Option Nat

/-- The header's `struct audio_pipeline` without the thread handle, the stack
and the lock.  Node pointers are addresses into `Mem.nodes`; `filters` is the
array the pointer refers to, `filters i` being `filters[i]`. -/
structure audio_pipeline where
  source : Option Nat
  sink : Option Nat
  filters : Option (Nat → Option Nat)
  filter_count : Nat
  format : audio_format
  frame_capacity : Nat
  event_queue : Option (k_msgq audio_pipeline_event)
  event_buffer : Option (Nat → audio_pipeline_event)
  event_queue_len : Nat
  initialized : Bool
  thread_started : Bool
  running : Bool
  playing : Bool
  stop_request : Bool

/-- The memory outside the pipeline record: the node records by address, the
world the node operations act on, and two ghost variables: the calls made
through operation tables so far and the number of worker threads
`pthread_create` has started. -/
structure Mem (W : Type) where
  nodes : Nat → audio_node W
  world : W
  trace : List NodeCall
  threads : Nat

/-- The store `node->upstream = up`. -/
def set_upstream {W : Type} (m : Mem W) (node : Nat) (up : Option Nat) : Mem W :=
  { m with nodes := fun a => if a = node then { m.nodes a with upstream := up } else m.nodes a }

/-! ## `audio_pipeline_init` and `audio_pipeline_set_nodes` -/

/-- Embedding of `audio_pipeline_init`. -/
def audio_pipeline_init (pl : Option audio_pipeline) : Int × Option audio_pipeline :=
  match pl with
  | none => (-EINVAL, pl)
  | some p =>
    if p.initialized then (-EINVAL, pl)
    else
      let r := k_msgq_init p.event_queue p.event_buffer SIZEOF_EVENT p.event_queue_len
      if r.1 < 0 then (r.1, some { p with event_queue := r.2 })
      else (0, some { p with
        event_queue := r.2,
        format := { sample_rate := 0, channels := AUDIO_PIPELINE_CHANNELS,
                    valid_bits_per_sample := 0,
                    format := audio_sample_format.AUDIO_SAMPLE_FORMAT_S32_LE },
        initialized := true, thread_started := false, running := false,
        playing := false, stop_request := false })

/-- The loop of `audio_pipeline_set_nodes` from index `i` on, with `n`
iterations left (`i + n = filter_count`). -/
def set_nodes_loop {W : Type} (source : Option Nat) (filters : Nat → Option Nat) :
    Nat → Nat → Mem W → Int × Mem W
  | _, 0, m => (0, m)
  | i, n + 1, m =>
    let up := if i = 0 then source else filters (i - 1)
    match filters i with
    | none => (-EINVAL, m)
    | some node => set_nodes_loop source filters (i + 1) n (set_upstream m node up)

/-- Embedding of `audio_pipeline_set_nodes`.  The result is the return code,
the pipeline record and the memory after the call; there is no result when
the code reads `filters[i]` through a null `filters`. -/
def audio_pipeline_set_nodes {W : Type} (pl : Option audio_pipeline) (m : Mem W)
    (source : Option Nat) (filters : Option (Nat → Option Nat)) (filter_count : Nat)
    (sink : Option Nat) : Option (Int × Option audio_pipeline × Mem W) :=
  match pl, source, sink with
  | some p, some _, some snk =>
    let p1 := { p with source := source, filters := filters,
                       filter_count := filter_count, sink := sink }
    match filters with
    | none =>
      if filter_count = 0 then some (0, some p1, set_upstream m snk source)
      else none
    | some f =>
      let r := set_nodes_loop source f 0 filter_count m
      if r.1 < 0 then some (r.1, some p1, r.2)
      else some (0, some p1,
        set_upstream r.2 snk (if 0 < filter_count then f (filter_count - 1) else source))
  | _, _, _ => some (-EINVAL, pl, m)

/-- The address reached from pointer `p` after `j` reads of `upstream`. -/
def follow_upstream {W : Type} (m : Mem W) : Nat → Option Nat → Option Nat
  | 0, p => p
  | j + 1, p =>
    match p with
    | none => none
    | some a => follow_upstream m j (m.nodes a).upstream

/-! ## Opening and closing the nodes -/

/-- The guarded call `if (node && node->ops && node->ops->open) ret =
node->ops->open(node)`.  When the guard fails no call is made and the caller
goes on, as it does after a call that returned a non-negative value; the
result code is then `0`. -/
def invoke_open {W : Type} (m : Mem W) (node : Option Nat) : Int × Mem W :=
  match node with
  | none => (0, m)
  | some a =>
    match (m.nodes a).ops with
    | none => (0, m)
    | some ops =>
      match ops.open_fn with
      | none => (0, m)
      | some f =>
        let r := f a m.world
        (r.1, { m with world := r.2, trace := m.trace ++ [NodeCall.opened a r.1] })

/-- The guarded call `if (node && node->ops && node->ops->close)
node->ops->close(node)`; the code drops the value returned. -/
def invoke_close {W : Type} (m : Mem W) (node : Option Nat) : Mem W :=
  match node with
  | none => m
  | some a =>
    match (m.nodes a).ops with
    | none => m
    | some ops =>
      match ops.close_fn with
      | none => m
      | some f =>
        let r := f a m.world
        { m with world := r.2, trace := m.trace ++ [NodeCall.closed a r.1] }

/-- The filter loop of `audio_pipeline_open_nodes` from index `i` on, with `n`
iterations left. -/
def open_filters_loop {W : Type} (filters : Nat → Option Nat) :
    Nat → Nat → Mem W → Int × Mem W
  | _, 0, m => (0, m)
  | i, n + 1, m =>
    let r := invoke_open m (filters i)
    if r.1 < 0 then r else open_filters_loop filters (i + 1) n r.2

/-- Embedding of `audio_pipeline_open_nodes`. -/
def audio_pipeline_open_nodes {W : Type} (p : audio_pipeline) (m : Mem W) : Int × Mem W :=
  let r1 := invoke_open m p.source
  if r1.1 < 0 then r1
  else
    let r2 := match p.filters with
      | none => (0, r1.2)
      | some f => open_filters_loop f 0 p.filter_count r1.2
    if r2.1 < 0 then r2
    else
      let r3 := invoke_open r2.2 p.sink
      if r3.1 < 0 then r3 else (0, r3.2)

/-- The filter loop of `audio_pipeline_close_nodes` from index `i` on, with
`n` iterations left. -/
def close_filters_loop {W : Type} (filters : Nat → Option Nat) : Nat → Nat → Mem W → Mem W
  | _, 0, m => m
  | i, n + 1, m => close_filters_loop filters (i + 1) n (invoke_close m (filters i))

/-- Embedding of `audio_pipeline_close_nodes`. -/
def audio_pipeline_close_nodes {W : Type} (p : audio_pipeline) (m : Mem W) : Mem W :=
  let m1 := invoke_close m p.sink
  let m2 := match p.filters with
    | none => m1
    | some f => close_filters_loop f 0 p.filter_count m1
  invoke_close m2 p.source

/-! ## The worker's pull and the lifecycle calls -/

/-- The conversion `(int)ret` of an `ssize_t`: the value modulo `2 ^ 32` in
the range of an `int`. -/
def int_cast (x : Int) : Int := (x + 2 ^ 31) % 2 ^ 32 - 2 ^ 31

/-- Embedding of `audio_pipeline_enqueue_event`. -/
def audio_pipeline_enqueue_event (p : audio_pipeline) (type : audio_pipeline_event_type)
    (err : Int) : Option (Int × audio_pipeline) :=
  match k_msgq_put p.event_queue (some { type := type, error := err }) K_NO_WAIT [] with
  | none => none
  | some (ret, q) => some (ret, { p with event_queue := q })

/-- Embedding of `audio_pipeline_step`.  There is no result when the code
calls through a null `sink`, `ops` or `process`. -/
def audio_pipeline_step {W : Type} (p : audio_pipeline) (m : Mem W) :
    Option (Int × audio_pipeline × Mem W) :=
  match p.sink with
  | none => none
  | some s =>
    match (m.nodes s).ops with
    | none => none
    | some ops =>
      match ops.process_fn with
      | none => none
      | some f =>
        let r := f s p.frame_capacity 0 m.world
        let m1 : Mem W := { m with world := r.2.2,
                                   trace := m.trace ++ [NodeCall.processed s r.1 r.2.1] }
        if r.1 < 0 then
          match audio_pipeline_enqueue_event p
              audio_pipeline_event_type.AUDIO_PIPELINE_EVENT_ERROR (int_cast r.1) with
          | none => none
          | some (_, p1) => some (-1, p1, m1)
        else if r.2.1 = 0 then
          match audio_pipeline_enqueue_event p
              audio_pipeline_event_type.AUDIO_PIPELINE_EVENT_EOF 0 with
          | none => none
          | some (_, p1) => some (1, p1, m1)
        else some (0, p, m1)

/-- Where the worker thread is when the controller sets `stop_request`: in
the wait for `playing`, or inside `audio_pipeline_step` with the state lock
released. -/
inductive worker_position where
  | waiting
  | in_step
  deriving DecidableEq, Repr

/-- What is left of `audio_pipeline_thread` once `stop_request` is set: a
worker inside a pull finishes it and clears `playing` on a non-zero outcome;
then the loop ends and `running` is cleared. -/
def audio_pipeline_thread_exit {W : Type} (p : audio_pipeline) (m : Mem W)
    (pos : worker_position) : Option (audio_pipeline × Mem W) :=
  match pos with
  | worker_position.waiting => some ({ p with running := false }, m)
  | worker_position.in_step =>
    match audio_pipeline_step p m with
    | none => none
    | some (step, p1, m1) =>
      some ({ p1 with playing := if step ≠ 0 then false else p1.playing,
                      running := false }, m1)

/-- Embedding of `audio_pipeline_start`; `create_ret` is what `pthread_create`
returns if it is called. -/
def audio_pipeline_start {W : Type} (pl : Option audio_pipeline) (m : Mem W)
    (create_ret : Int) : Int × Option audio_pipeline × Mem W :=
  match pl with
  | none => (-EINVAL, pl, m)
  | some p =>
    if !p.initialized then (-EINVAL, pl, m)
    else if p.source.isNone || p.sink.isNone then (-EINVAL, pl, m)
    else
      let r := audio_pipeline_open_nodes p m
      if r.1 < 0 then (r.1, pl, r.2)
      else if p.thread_started then (0, pl, r.2)
      else if create_ret ≠ 0 then
        (- EIO, some { p with stop_request := false, running := false }, r.2)
      else
        (0, some { p with stop_request := false, running := true, thread_started := true },
          { r.2 with threads := r.2.threads + 1 })

/-- Embedding of `audio_pipeline_join`; `pos` is where the worker is when
`stop_request` is set.  `pthread_join` returns once the worker has run
`audio_pipeline_thread` to its end. -/
def audio_pipeline_join {W : Type} (pl : Option audio_pipeline) (m : Mem W)
    (pos : worker_position) : Option (Int × Option audio_pipeline × Mem W) :=
  match pl with
  | none => some (-EINVAL, pl, m)
  | some p =>
    if !p.thread_started then some (-EINVAL, pl, m)
    else
      let p1 := { p with stop_request := true }
      let joined := if p1.running then audio_pipeline_thread_exit p1 m pos else some (p1, m)
      match joined with
      | none => none
      | some (p2, m2) =>
        some (0, some { p2 with thread_started := false }, audio_pipeline_close_nodes p2 m2)

/-! ## The queue seen through a sequence of no-wait calls -/

/-- One no-wait call on a queue: a put of the message `d`, or a get into an
output record that holds `out` before the call. -/
inductive QueueOp (α : Type) where
  | put (d : α)
  | get (out : α)

/-- The call `op` made on the queue `q` with `K_NO_WAIT`, through `k_msgq_put`
or `k_msgq_get`: the return code, the output record after a get, and the
queue after the call. -/
def queue_call {α : Type} (q : k_msgq α) : QueueOp α → Option ((Int × Option α) × k_msgq α)
  | QueueOp.put d =>
    match k_msgq_put (some q) (some d) K_NO_WAIT [] with
    | some (ret, some q1) => some ((ret, none), q1)
    | _ => none
  | QueueOp.get out =>
    match k_msgq_get (some q) (some out) K_NO_WAIT [] with
    | some (ret, some q1, o) => some ((ret, o), q1)
    | _ => none

/-- The results of a sequence of no-wait calls made one after the other on the
queue `q`. -/
def run_queue {α : Type} : k_msgq α → List (QueueOp α) → Option (List (Int × Option α))
  | _, [] => some []
  | q, op :: ops =>
    match queue_call q op with
    | none => none
    | some (obs, q1) => (run_queue q1 ops).map (fun rest => obs :: rest)

/-- The bounded FIFO of the specification, of capacity `N`: the list holds the
messages put and not yet retrieved, oldest first.  A put on `N` messages and a
get on none fail with `-EAGAIN` and change nothing; a put appends at the end,
a get removes the head and hands it out. -/
def fifo_call {α : Type} (N : Nat) (l : List α) : QueueOp α → (Int × Option α) × List α
  | QueueOp.put d => if l.length = N then ((-EAGAIN, none), l) else ((0, none), l ++ [d])
  | QueueOp.get out =>
    match l with
    | [] => ((-EAGAIN, some out), [])
    | x :: t => ((0, some x), t)

/-- The results of a sequence of calls on the bounded FIFO of the
specification. -/
def run_fifo {α : Type} (N : Nat) : List α → List (QueueOp α) → List (Int × Option α)
  | _, [] => []
  | l, op :: ops => (fifo_call N l op).1 :: run_fifo N (fifo_call N l op).2 ops

/-- The ring `q` of capacity `N` holds exactly the messages `l`, oldest first,
in the slots from `read_idx` on, cyclically. -/
def queue_holds {α : Type} (N : Nat) (q : k_msgq α) (l : List α) : Prop :=
  q.max_msgs = N ∧ q.count = l.length ∧ l.length ≤ N ∧ q.read_idx < N ∧
  q.write_idx = (q.read_idx + l.length) % N ∧
  ∀ k, k < l.length → l[k]? = some (q.buffer ((q.read_idx + k) % N))

/-- The invariant of the specification: `count` is in `[0, capacity]`. -/
def count_in_range {α : Type} (q : k_msgq α) : Prop := q.count ≤ q.max_msgs

instance count_in_range_decidable {α : Type} (q : k_msgq α) : Decidable (count_in_range q) :=
  inferInstanceAs (Decidable (q.count ≤ q.max_msgs))

/-! ## Chain order and concrete instances -/

/-- The nodes of a pipeline from the top of the chain down: the source, the
filters by ascending index, the sink. -/
def chain_top_down (p : audio_pipeline) : List (Option Nat) :=
  p.source :: ((match p.filters with
    | none => []
    | some f => (List.range p.filter_count).map f) ++ [p.sink])

/-- Whether a node pointer passes the guard in front of an `open` call. -/
def has_open {W : Type} (m : Mem W) (node : Option Nat) : Bool :=
  match node with
  | none => false
  | some a =>
    match (m.nodes a).ops with
    | none => false
    | some ops => ops.open_fn.isSome

/-- Whether a node pointer passes the guard in front of a `close` call. -/
def has_close {W : Type} (m : Mem W) (node : Option Nat) : Bool :=
  match node with
  | none => false
  | some a =>
    match (m.nodes a).ops with
    | none => false
    | some ops => ops.close_fn.isSome

/-- The record the header's `AUDIO_PIPELINE_DEFINE(name, frame_samples, ..)`
declares: static storage is zeroed, the frame capacity and the event queue
length are set.  The buffer field of the not yet initialised queue is never
read. -/
def AUDIO_PIPELINE_DEFINE (frame_samples : Nat) : audio_pipeline :=
  { source := none, sink := none, filters := none, filter_count := 0,
    format := { sample_rate := 0, channels := 0, valid_bits_per_sample := 0,
                format := audio_sample_format.AUDIO_SAMPLE_FORMAT_S32_LE },
    frame_capacity := frame_samples * AUDIO_PIPELINE_CHANNELS,
    event_queue := some { buffer := fun _ => ⟨audio_pipeline_event_type.AUDIO_PIPELINE_EVENT_EOF, 0⟩,
                          msg_size := 0, max_msgs := 0, read_idx := 0, write_idx := 0,
                          count := 0 },
    event_buffer := some (fun _ => ⟨audio_pipeline_event_type.AUDIO_PIPELINE_EVENT_EOF, 0⟩),
    event_queue_len := AUDIO_PIPELINE_EVENT_QUEUE_LEN,
    initialized := false, thread_started := false, running := false, playing := false,
    stop_request := false }

/-- An operation table whose `open` returns `o` and whose `close` returns `c`,
both counting their calls in the world; there is no `process`. -/
def counting_ops (o c : Int) : audio_node_ops Nat :=
  { open_fn := some (fun _ w => (o, w + 1)),
    process_fn := none,
    close_fn := some (fun _ w => (c, w + 1)) }

/-- A memory with four nodes that have `open` and `close` operations
returning `0`: node 0 a source, nodes 1 and 2 filters, node 3 a sink; no call
made yet and no worker started. -/
def four_nodes : Mem Nat :=
  { nodes := fun a =>
      { role := if a = 0 then audio_node_role.AUDIO_NODE_ROLE_SOURCE
                else if a = 3 then audio_node_role.AUDIO_NODE_ROLE_SINK
                else audio_node_role.AUDIO_NODE_ROLE_FILTER,
        ops := some (counting_ops 0 0), upstream := none },
    world := 0, trace := [], threads := 0 }

/-- The filter array `{ &node1, &node2 }`. -/
def two_filters : Nat → Option Nat := fun i => some (i + 1)

/-- Opening a list of nodes in the order of the list, as the specification
words it: each node that passes the guard is opened, and the first negative
return ends the sequence and is the result. -/
def open_in_order {W : Type} : List (Option Nat) → Mem W → Int × Mem W
  | [], m => (0, m)
  | node :: rest, m =>
    let r := invoke_open m node
    if r.1 < 0 then r else open_in_order rest r.2

/-- The memory `four_nodes` with the `open` of node `bad` returning `code`. -/
def four_nodes_failing (bad : Nat) (code : Int) : Mem Nat :=
  { four_nodes with
    nodes := fun a =>
      if a = bad then { four_nodes.nodes a with ops := some (counting_ops code 0) }
      else four_nodes.nodes a }

/-- The pipeline and memory after `audio_pipeline_init` and
`audio_pipeline_set_nodes(&pl, &node0, { &node1, &node2 }, 2, &node3)` on the
record `AUDIO_PIPELINE_DEFINE` declares, over the memory `m`. -/
def assembled (m : Mem Nat) : Option audio_pipeline × Mem Nat :=
  match audio_pipeline_set_nodes (audio_pipeline_init (some (AUDIO_PIPELINE_DEFINE 4))).2 m
      (some 0) (some two_filters) 2 (some 3) with
  | some (_, pl, m1) => (pl, m1)
  | none => (none, m)

/-- The pipeline and memory after a further `audio_pipeline_start` in which
`pthread_create` succeeds. -/
def started (m : Mem Nat) : Option audio_pipeline × Mem Nat :=
  (audio_pipeline_start (assembled m).1 (assembled m).2 0).2

/-! ## Play, stop and the worker loop -/

/-- Embedding of `audio_pipeline_play`. -/
def audio_pipeline_play (pl : Option audio_pipeline) : Int × Option audio_pipeline :=
  match pl with
  | none => (-EINVAL, pl)
  | some p =>
    if !p.thread_started then (-EINVAL, pl)
    else (0, some { p with playing := true })

/-- Embedding of `audio_pipeline_stop`. -/
def audio_pipeline_stop (pl : Option audio_pipeline) : Int × Option audio_pipeline :=
  match pl with
  | none => (-EINVAL, pl)
  | some p =>
    if !p.thread_started then (-EINVAL, pl)
    else (0, some { p with playing := false })

/-- What one pass of the worker through the loop of `audio_pipeline_thread`
did: it left the loop, it stayed in the wait of `audio_pipeline_wait_for_play`,
or it made one pull whose outcome `audio_pipeline_step` returned. -/
inductive worker_outcome where
  | exited
  | idle
  | pulled (step : Int)
  deriving DecidableEq, Repr

/-- One pass of the worker through the loop of `audio_pipeline_thread`, taken
with the state lock held at the loop head: with `stop_request` set the loop
ends and `running` is cleared; with `playing` clear the worker stays in
`audio_pipeline_wait_for_play`, which changes nothing; otherwise one pull is
made and a non-zero outcome clears `playing`. -/
def audio_pipeline_thread_iteration {W : Type} (p : audio_pipeline) (m : Mem W) :
    Option (worker_outcome × audio_pipeline × Mem W) :=
  if p.stop_request then some (worker_outcome.exited, { p with running := false }, m)
  else if !p.playing then some (worker_outcome.idle, p, m)
  else
    match audio_pipeline_step p m with
    | none => none
    | some (step, p1, m1) =>
      some (worker_outcome.pulled step,
        { p1 with playing := if step ≠ 0 then false else p1.playing }, m1)

/-- What happens to a pipeline that is not being played: a pass of the worker
through its loop, or a call of `audio_pipeline_stop` by the controller. -/
inductive quiet_action where
  | worker
  | stop
  deriving DecidableEq, Repr

/-- A sequence of worker passes and `audio_pipeline_stop` calls, in the order
given. -/
def run_quiet {W : Type} : List quiet_action → audio_pipeline → Mem W →
    Option (audio_pipeline × Mem W)
  | [], p, m => some (p, m)
  | quiet_action.worker :: rest, p, m =>
    match audio_pipeline_thread_iteration p m with
    | none => none
    | some (_, p1, m1) => run_quiet rest p1 m1
  | quiet_action.stop :: rest, p, m =>
    match (audio_pipeline_stop (some p)).2 with
    | none => none
    | some p1 => run_quiet rest p1 m

/-- A call of the controller that is `audio_pipeline_play` or
`audio_pipeline_stop`. -/
inductive play_stop where
  | play
  | stop
  deriving DecidableEq, Repr

/-- A sequence of `audio_pipeline_play` and `audio_pipeline_stop` calls made
one after the other: the return codes and the pipeline afterwards. -/
def run_play_stop : List play_stop → Option audio_pipeline → List Int × Option audio_pipeline
  | [], pl => ([], pl)
  | play_stop.play :: rest, pl =>
    ((audio_pipeline_play pl).1 :: (run_play_stop rest (audio_pipeline_play pl).2).1,
      (run_play_stop rest (audio_pipeline_play pl).2).2)
  | play_stop.stop :: rest, pl =>
    ((audio_pipeline_stop pl).1 :: (run_play_stop rest (audio_pipeline_stop pl).2).1,
      (run_play_stop rest (audio_pipeline_stop pl).2).2)

/-- The nodes of a pipeline in the order `audio_pipeline_close_nodes` visits
them: the sink, the filters by ascending index, the source. -/
def chain_close_order (p : audio_pipeline) : List (Option Nat) :=
  p.sink :: ((match p.filters with
    | none => []
    | some f => (List.range p.filter_count).map f) ++ [p.source])

/-- Closing a list of nodes in the order of the list: each node that passes
the guard is closed, whatever the earlier calls returned. -/
def close_in_order {W : Type} : List (Option Nat) → Mem W → Mem W
  | [], m => m
  | node :: rest, m => close_in_order rest (invoke_close m node)

/-- The memory `four_nodes` with the `close` of node `bad` returning `code`. -/
def four_nodes_close_failing (bad : Nat) (code : Int) : Mem Nat :=
  { four_nodes with
    nodes := fun a =>
      if a = bad then { four_nodes.nodes a with ops := some (counting_ops 0 code) }
      else four_nodes.nodes a }

/-- An operation table like `counting_ops 0 0` with a `process` that returns
`ret`, sets `*out_size` to `out` and counts its call in the world. -/
def pulling_ops (ret : Int) (out : Nat) : audio_node_ops Nat :=
  { open_fn := some (fun _ w => (0, w + 1)),
    process_fn := some (fun _ _ _ w => (ret, out, w + 1)),
    close_fn := some (fun _ w => (0, w + 1)) }

/-- The memory `four_nodes` with a sink (node 3) whose `process` returns `ret`
and reports `out` samples. -/
def four_nodes_pulling (ret : Int) (out : Nat) : Mem Nat :=
  { four_nodes with
    nodes := fun a =>
      if a = 3 then { four_nodes.nodes a with ops := some (pulling_ops ret out) }
      else four_nodes.nodes a }

/-- The pipeline after a further `audio_pipeline_play` on the started
pipeline. -/
def played (m : Mem Nat) : Option audio_pipeline × Mem Nat :=
  ((audio_pipeline_play (started m).1).2, (started m).2)

/-- Embedding of `audio_pipeline_get_event`; `evt` is the output record before
the call. -/
def audio_pipeline_get_event (pl : Option audio_pipeline) (evt : Option audio_pipeline_event)
    (timeout : Int) (waits : List (Wakeup audio_pipeline_event)) :
    Option (Int × Option audio_pipeline × Option audio_pipeline_event) :=
  match pl, evt with
  | some p, some _ =>
    match k_msgq_get p.event_queue evt timeout waits with
    | none => none
    | some (ret, q, e) => some (ret, some { p with event_queue := q }, e)
  | _, _ => some (-EINVAL, pl, evt)

/-- The event a worker pass leaves for the controller: the result of a
no-wait `audio_pipeline_get_event` on the pipeline after the pass. -/
def event_after_pass (r : Option (worker_outcome × audio_pipeline × Mem Nat)) :
    Option (Int × Option audio_pipeline_event) :=
  match r with
  | none => none
  | some (_, p1, _) =>
    match audio_pipeline_get_event (some p1)
        (some ⟨audio_pipeline_event_type.AUDIO_PIPELINE_EVENT_RECONFIG, 0⟩) K_NO_WAIT [] with
    | none => none
    | some (ret, _, e) => some (ret, e)

/-- An event queue of capacity 8 that holds 8 events. -/
def full_event_queue : k_msgq audio_pipeline_event :=
  { buffer := fun _ => ⟨audio_pipeline_event_type.AUDIO_PIPELINE_EVENT_ERROR, -5⟩,
    msg_size := SIZEOF_EVENT, max_msgs := 8, read_idx := 0, write_idx := 0, count := 8 }

/-- The playing pipeline over `m` with its event queue full. -/
def played_full (m : Mem Nat) : audio_pipeline :=
  { ((played m).1.getD (AUDIO_PIPELINE_DEFINE 4)) with event_queue := some full_event_queue }

/-- The playing pipeline over `m` after `audio_pipeline_join`, the worker
being at the loop head, and a further `audio_pipeline_start` in which
`pthread_create` succeeds: the two return codes, the pipeline and the
memory. -/
def restarted (m : Mem Nat) : Option (Int × Int × Option audio_pipeline × Mem Nat) :=
  match audio_pipeline_join (played m).1 (played m).2 worker_position.waiting with
  | none => none
  | some (r, pl, m1) =>
    some (r, (audio_pipeline_start pl m1 0).1, (audio_pipeline_start pl m1 0).2.1,
      (audio_pipeline_start pl m1 0).2.2)

/-- The value the specification gives `playing` after a sequence of play and
stop calls: true exactly when the last call was a play; the value before when
no call was made. -/
def playing_after (calls : List play_stop) (before : Bool) : Bool :=
  match calls.getLast? with
  | none => before
  | some c => decide (c = play_stop.play)

/-! ## The kernel-subsystem node interface and the gain filter

A shallow embedding of `src/subsys/audio/pipeline/audio_node_core.c`
(`audio_node_process`) and `src/subsys/audio/pipeline/nodes/gain_filter_node.c`
over `src/include/zephyr/audio/audio_node.h`.  The subsystem declares its own
`struct audio_node`; its records are kept apart from the host engine's in the
namespace `Subsys`. -/

/-- Linux `ENOSYS`. -/
def ENOSYS : Int := 38

/-- Linux `ENOTSUP`. -/
def ENOTSUP : Int := 95

/-- The conversion to `int64_t`: the value modulo `2 ^ 64` in the range of an
`int64_t`. -/
def int64_cast (x : Int) : Int := (x + 2 ^ 63) % 2 ^ 64 - 2 ^ 63

namespace Subsys

/-- The subsystem's `struct audio_buffer_view`; `data i` is the sample
`data[i]`. -/
structure audio_buffer_view where
  data : Nat → Int
  capacity : Nat
  size : Nat

/-- The subsystem's `struct audio_node_ops`.  An operation acts on its own
node; `process_fn buf out_size w` gets `*buf` and `*out_size` as they are
before the call and gives the return value, `*buf`, `*out_size` and the world
after it. -/
structure audio_node_ops (W : Type) where
  open_fn : Option (W → Int × W)
  process_fn : Option (audio_buffer_view → Nat → W → Int × audio_buffer_view × Nat × W)
  close_fn : Option (W → Int × W)

/-- The subsystem's `struct audio_node`, the record a node pointer refers
to; the target of `state` is kept by the operations. -/
structure audio_node (W : Type) where
  role : audio_node_role
  ops : Option (audio_node_ops W)

/-- The subsystem's `struct gain_filter_state`. -/
structure gain_filter_state where
  gain_q15 : Int
  deriving DecidableEq, Repr

/-- Embedding of `audio_node_process`: the return value, `*buf`, `*out_size`
and the world after the call. -/
def audio_node_process {W : Type} (node : Option (audio_node W))
    (buf : Option audio_buffer_view) (out_size : Option Nat) (w : W) :
    Int × Option audio_buffer_view × Option Nat × W :=
  match node with
  | none => (-ENOSYS, buf, out_size, w)
  | some nd =>
    match nd.ops with
    | none => (-ENOSYS, buf, out_size, w)
    | some ops =>
      match ops.process_fn with
      | none => (-ENOSYS, buf, out_size, w)
      | some f =>
        match buf, out_size with
        | some b, some o =>
          let r := f b o w
          (r.1, some r.2.1, some r.2.2.1, r.2.2.2)
        | _, _ => (-EINVAL, buf, out_size, w)

/-- Embedding of `gain_filter_open`; `state` is the record `node->state`
refers to. -/
def gain_filter_open (state : Option gain_filter_state) : Int × Option gain_filter_state :=
  match state with
  | none => (-EINVAL, state)
  | some st =>
    if st.gain_q15 = 0 then (0, some { st with gain_q15 := 32768 })
    else (0, state)

/-- The body of the loop of `gain_filter_process` for one sample: the 64-bit
product with the gain, shifted right by 15 and converted to `int32_t`. -/
def gain_scale (gain_q15 : Int) (sample : Int) : Int :=
  int_cast (Int.shiftRight (int64_cast (int64_cast sample * gain_q15)) 15)

/-- The loop of `gain_filter_process` from index `i` on, with `n` iterations
left. -/
def gain_filter_loop (gain_q15 : Int) : Nat → Nat → (Nat → Int) → (Nat → Int)
  | _, 0, data => data
  | i, n + 1, data =>
    gain_filter_loop gain_q15 (i + 1) n
      (fun k => if k = i then gain_scale gain_q15 (data i) else data k)

/-- Embedding of `gain_filter_process`; `state` is the record `node->state`
refers to and `upstream` the record `node->upstream` refers to. -/
def gain_filter_process {W : Type} (state : Option gain_filter_state)
    (upstream : Option (audio_node W)) (buf : Option audio_buffer_view)
    (out_size : Option Nat) (w : W) : Int × Option audio_buffer_view × Option Nat × W :=
  match state, buf, out_size with
  | some st, some _, some _ =>
    match upstream with
    | none => (-ENOTSUP, buf, out_size, w)
    | some _ =>
      let r := audio_node_process upstream buf out_size w
      match r.2.1, r.2.2.1 with
      | some b1, some n =>
        if r.1 < 0 ∨ n = 0 then r
        else (0, some { b1 with data := gain_filter_loop st.gain_q15 0 n b1.data }, some n,
          r.2.2.2)
      | _, _ => r
  | _, _, _ => (-EINVAL, buf, out_size, w)

/-- An upstream node whose `process` fills the buffer with the samples `d`
and reports `n` of them. -/
def fixed_source (d : Nat → Int) (n : Nat) : audio_node Unit :=
  { role := audio_node_role.AUDIO_NODE_ROLE_SOURCE,
    ops := some { open_fn := none,
                  process_fn := some (fun b _ w => (0, { b with data := d }, n, w)),
                  close_fn := none } }

/-- A buffer view of capacity 4 over zeroed samples. -/
def empty_view : audio_buffer_view := { data := fun _ => 0, capacity := 4, size := 0 }

/-- The samples a gain filter configured with `g` hands down after
`gain_filter_open` and one `gain_filter_process` over the upstream samples
`d`, `n` of them reported. -/
def gain_output (g : Int) (d : Nat → Int) (n : Nat) : Option (Int × (Nat → Int)) :=
  match (gain_filter_process (gain_filter_open (some ⟨g⟩)).2 (some (fixed_source d n))
      (some empty_view) (some 0) ()).1,
    (gain_filter_process (gain_filter_open (some ⟨g⟩)).2 (some (fixed_source d n))
      (some empty_view) (some 0) ()).2.1 with
  | ret, some b => some (ret, b.data)
  | _, none => none

end Subsys

/-- The value the specification gives a sample `s` under the Q15 gain `g`:
the floor of `(s * g) / 32768`. -/
def q15_floor (s g : Int) : Int := ⌊((s * g : Int) : ℚ) / 32768⌋

/-- The upstream samples `INT32_MIN, 5, 7, 7, ..`. -/
def three_samples : Nat → Int := fun i => if i = 0 then -2147483648 else if i = 1 then 5 else 7

/-! ## The generator source and the capturing sink of `tests/test_pipeline.c` -/

/-- Linux `ENOMEM`. -/
def ENOMEM : Int := 12

/-- The conversion `(ssize_t)n` of a `size_t`. -/
def ssize_cast (n : Nat) : Int := int64_cast (n : Int)

/-- The test's `struct generator_ctx`; `data i` is `data[i]`. -/
structure generator_ctx where
  data : Nat → Int
  samples : Nat
  offset : Nat

/-- The test's `struct sink_ctx`; `dest i` is `dest[i]`. -/
structure sink_ctx where
  dest : Nat → Int
  capacity : Nat
  written : Nat
  fail_on_first : Bool

/-- What the operations of the test's two nodes act on: the samples of the
pipeline's frame buffer (`frame i` is `buf[i]`) and the two contexts. -/
structure test_world where
  frame : Nat → Int
  gen : generator_ctx
  sink : sink_ctx

/-- Embedding of `generator_open`. -/
def generator_open (_node : Nat) (w : test_world) : Int × test_world :=
  (0, { w with gen := { w.gen with offset := 0 } })

/-- Embedding of `generator_process`: the return value, `*out_size` and the
world after the call. -/
def generator_process (_node : Nat) (capacity : Nat) (_out_size : Nat) (w : test_world) :
    Int × Nat × test_world :=
  if w.gen.offset ≥ w.gen.samples then (0, 0, w)
  else
    let remaining := w.gen.samples - w.gen.offset
    let to_copy := if remaining > capacity then capacity else remaining
    (ssize_cast to_copy, to_copy,
      { w with
        frame := fun i => if i < to_copy then w.gen.data (w.gen.offset + i) else w.frame i,
        gen := { w.gen with offset := (w.gen.offset + to_copy) % SIZE_MOD } })

/-- Embedding of `generator_close`. -/
def generator_close (_node : Nat) (w : test_world) : Int × test_world := (0, w)

/-- Embedding of `sink_open`. -/
def sink_open (_node : Nat) (w : test_world) : Int × test_world :=
  (0, { w with sink := { w.sink with written := 0 } })

/-- Embedding of `sink_process`; `upstream` is the call
`node->upstream->ops->process(node->upstream, ..)`. -/
def sink_process (upstream : Nat → Nat → test_world → Int × Nat × test_world)
    (_node : Nat) (capacity : Nat) (out_size : Nat) (w : test_world) :
    Int × Nat × test_world :=
  if w.sink.fail_on_first && w.sink.written == 0 then (- EIO, out_size, w)
  else
    let r := upstream capacity out_size w
    if r.1 < 0 then r
    else if r.2.1 = 0 then (0, r.2.1, r.2.2)
    else if (r.2.2.sink.written + r.2.1) % SIZE_MOD > r.2.2.sink.capacity then
      (-ENOMEM, r.2.1, r.2.2)
    else
      (r.1, r.2.1,
        { r.2.2 with
          sink := { r.2.2.sink with
            dest := fun i =>
              if r.2.2.sink.written ≤ i ∧ i < r.2.2.sink.written + r.2.1
              then r.2.2.frame (i - r.2.2.sink.written) else r.2.2.sink.dest i,
            written := (r.2.2.sink.written + r.2.1) % SIZE_MOD } })

/-- Embedding of `sink_close`. -/
def sink_close (_node : Nat) (w : test_world) : Int × test_world := (0, w)

/-- The test's `generator_ops`. -/
def generator_ops : audio_node_ops test_world :=
  { open_fn := some generator_open,
    process_fn := some generator_process,
    close_fn := some generator_close }

/-- The test's `sink_ops` for a sink whose upstream is the node `up` with the
operations `generator_ops`, as `audio_pipeline_set_nodes` without filters
links it. -/
def sink_ops (up : Nat) : audio_node_ops test_world :=
  { open_fn := some sink_open,
    process_fn := some (sink_process (generator_process up)),
    close_fn := some sink_close }

/-- Pulling through `audio_pipeline_step` until a pull ends with a non-zero
outcome, at most `fuel` times: the number of pulls made, the last outcome, the
pipeline and the memory. -/
def pull_until_end {W : Type} : Nat → audio_pipeline → Mem W →
    Option (Nat × Int × audio_pipeline × Mem W)
  | 0, _, _ => none
  | fuel + 1, p, m =>
    match audio_pipeline_step p m with
    | none => none
    | some (step, p1, m1) =>
      if step ≠ 0 then some (1, step, p1, m1)
      else (pull_until_end fuel p1 m1).map (fun r => (r.1 + 1, r.2))

/-- The number of frames of capacity `c` that `L` samples fill: the ceiling
of `L / c`. -/
def ceil_div (L c : Nat) : Nat := (L + c - 1) / c

/-- The memory of `test_sink_reports_eof` after `set_nodes` and the two
`open` calls: node 0 the generator source over `data` with `L` samples, node
1 the capturing sink of capacity `K` with upstream node 0. -/
def test_mem (data : Nat → Int) (L K : Nat) : Mem test_world :=
  { nodes := fun a =>
      if a = 0 then { role := audio_node_role.AUDIO_NODE_ROLE_SOURCE,
                      ops := some generator_ops, upstream := none }
      else { role := audio_node_role.AUDIO_NODE_ROLE_SINK,
             ops := some (sink_ops 0), upstream := some 0 },
    world := (sink_open 1 (generator_open 0
      { frame := fun _ => 0,
        gen := { data := data, samples := L, offset := 0 },
        sink := { dest := fun _ => 0, capacity := K, written := 0,
                  fail_on_first := false } }).2).2,
    trace := [], threads := 0 }

/-- The pipeline of `test_sink_reports_eof` with frame capacity `c`,
initialised and with source node 0 and sink node 1 set. -/
def test_pipeline (c : Nat) : audio_pipeline :=
  { ((audio_pipeline_init (some (AUDIO_PIPELINE_DEFINE 4))).2.getD (AUDIO_PIPELINE_DEFINE 4)) with
    source := some 0, sink := some 1, filters := none, filter_count := 0,
    frame_capacity := c }

/-- The samples `1, 2, .., 8` of `test_sink_reports_eof`. -/
def eight_samples : Nat → Int := fun i => (i : Int) + 1

/-! ## `audio_pipeline_set_format` and the kernel-subsystem engine

The engine of `src/subsys/audio/pipeline/audio_pipeline_core.c` with
`audio_pipeline_config.c`, `audio_pipeline_events.c` and the remaining
functions of `audio_node_core.c`. -/

/-- Embedding of `audio_pipeline_set_format`. -/
def audio_pipeline_set_format (pl : Option audio_pipeline) (fmt : Option audio_format) :
    Int × Option audio_pipeline :=
  match pl, fmt with
  | some p, some f => (0, some { p with format := f })
  | _, _ => (-EINVAL, pl)

/-- Linux `EPIPE`. -/
def EPIPE : Int := 32

namespace Subsys

/-- Embedding of the subsystem's `audio_node_open`. -/
def audio_node_open {W : Type} (node : Option (audio_node W)) (w : W) : Int × W :=
  match node with
  | none => (0, w)
  | some nd =>
    match nd.ops with
    | none => (0, w)
    | some ops =>
      match ops.open_fn with
      | none => (0, w)
      | some f => f w

/-- Embedding of the subsystem's `audio_node_close`. -/
def audio_node_close {W : Type} (node : Option (audio_node W)) (w : W) : Int × W :=
  match node with
  | none => (0, w)
  | some nd =>
    match nd.ops with
    | none => (0, w)
    | some ops =>
      match ops.close_fn with
      | none => (0, w)
      | some f => f w

/-- The subsystem's `struct audio_stream_config`. -/
structure audio_stream_config where
  sample_rate_hz : Nat
  channels : Nat
  valid_bits_per_sample : Nat
  format : audio_sample_format
  deriving DecidableEq, Repr

/-- The subsystem's `struct audio_pipeline_event`. -/
structure audio_pipeline_event where
  type : audio_pipeline_event_type
  err : Int
  deriving DecidableEq, Repr

/-- The subsystem's `struct audio_pipeline_config`; the callback acts on the
world, which holds what `event_user_data` refers to. -/
structure audio_pipeline_config (W : Type) where
  stream : audio_stream_config
  frame_samples : Nat
  event_cb : Option (audio_pipeline_event → W → W)

/-- The subsystem's `struct audio_pipeline`; `config` and `sink` are the
records the pointers refer to. -/
structure audio_pipeline (W : Type) where
  config : Option (audio_pipeline_config W)
  sink : Option (audio_node W)
  running : Bool

/-- Embedding of `audio_pipeline_config_is_valid`; `max_frame_samples` is the
build-time constant `AUDIO_PIPELINE_MAX_FRAME_SAMPLES`
(`CONFIG_AUDIO_PIPELINE_FRAME_SAMPLES`). -/
def audio_pipeline_config_is_valid {W : Type} (max_frame_samples : Nat)
    (config : Option (audio_pipeline_config W)) : Bool :=
  match config with
  | none => false
  | some cfg =>
    if cfg.frame_samples = 0 ∨ cfg.frame_samples > max_frame_samples then false
    else if cfg.stream.sample_rate_hz = 0 ∨ cfg.stream.channels = 0 then false
    else true

/-- Embedding of `audio_pipeline_publish_event`. -/
def audio_pipeline_publish_event {W : Type} (pipeline : Option (audio_pipeline W))
    (type : audio_pipeline_event_type) (err : Int) (w : W) : W :=
  match pipeline with
  | none => w
  | some pl =>
    match pl.config with
    | none => w
    | some cfg =>
      match cfg.event_cb with
      | none => w
      | some cb => cb { type := type, err := err } w

/-- Embedding of `audio_pipeline_process_frame`; `frame_buf` holds the
samples of the function's static buffer.  The result is the return value, the
static buffer and the world after the call. -/
def audio_pipeline_process_frame {W : Type} (max_frame_samples : Nat)
    (pipeline : Option (audio_pipeline W)) (frame_buf : Nat → Int) (w : W) :
    Int × (Nat → Int) × W :=
  match pipeline with
  | none => (-EINVAL, frame_buf, w)
  | some pl =>
    match pl.sink with
    | none => (-EINVAL, frame_buf, w)
    | some snk =>
      match snk.ops with
      | none => (-ENOSYS, frame_buf, w)
      | some ops =>
        if ops.process_fn.isNone then (-ENOSYS, frame_buf, w)
        else
          let r := audio_node_process pl.sink
            (some { data := frame_buf, capacity := max_frame_samples, size := 0 }) (some 0) w
          let buf1 := match r.2.1 with
            | some b => b.data
            | none => frame_buf
          if r.1 < 0 then (r.1, buf1, r.2.2.2)
          else if r.2.2.1 = some 0 then (-EPIPE, buf1, r.2.2.2)
          else (0, buf1, r.2.2.2)

/-- The loop of `pipeline_thread`, at most `fuel` passes: the pipeline, the
static frame buffer, the world and the number of frame pulls made when the
loop has ended; no result when it has not ended within `fuel` passes. -/
def pipeline_thread_loop {W : Type} (max_frame_samples : Nat) :
    Nat → audio_pipeline W → (Nat → Int) → W → Option (audio_pipeline W × (Nat → Int) × W × Nat)
  | 0, pl, frame_buf, w => if pl.running then none else some (pl, frame_buf, w, 0)
  | fuel + 1, pl, frame_buf, w =>
    if pl.running then
      let r := audio_pipeline_process_frame max_frame_samples (some pl) frame_buf w
      let next : audio_pipeline W × W :=
        if r.1 = -EPIPE then
          ({ pl with running := false },
            audio_pipeline_publish_event (some pl)
              audio_pipeline_event_type.AUDIO_PIPELINE_EVENT_EOF 0 r.2.2)
        else if r.1 < 0 then
          ({ pl with running := false },
            audio_pipeline_publish_event (some pl)
              audio_pipeline_event_type.AUDIO_PIPELINE_EVENT_ERROR r.1 r.2.2)
        else (pl, r.2.2)
      (pipeline_thread_loop max_frame_samples fuel next.1 r.2.1 next.2).map
        (fun res => (res.1, res.2.1, res.2.2.1, res.2.2.2 + 1))
    else some (pl, frame_buf, w, 0)

/-- Embedding of `pipeline_thread`: nothing is done for a null pipeline or a
null sink; otherwise the loop runs. -/
def pipeline_thread {W : Type} (max_frame_samples : Nat) (fuel : Nat)
    (pipeline : Option (audio_pipeline W)) (frame_buf : Nat → Int) (w : W) :
    Option (Option (audio_pipeline W) × (Nat → Int) × W × Nat) :=
  match pipeline with
  | none => some (none, frame_buf, w, 0)
  | some pl =>
    match pl.sink with
    | none => some (some pl, frame_buf, w, 0)
    | some _ =>
      (pipeline_thread_loop max_frame_samples fuel pl frame_buf w).map
        (fun res => (some res.1, res.2))

/-- A configuration whose callback appends the event to the world, a list of
events. -/
def logging_config : audio_pipeline_config (List audio_pipeline_event) :=
  { stream := { sample_rate_hz := 48000, channels := 2, valid_bits_per_sample := 24,
                format := audio_sample_format.AUDIO_SAMPLE_FORMAT_S32_LE },
    frame_samples := 4,
    event_cb := some (fun e w => w ++ [e]) }

/-- A running pipeline whose sink has an operation table with `open` and
`close` but no `process`. -/
def sink_without_process : audio_pipeline (List audio_pipeline_event) :=
  { config := some logging_config,
    sink := some { role := audio_node_role.AUDIO_NODE_ROLE_SINK,
                   ops := some { open_fn := some (fun w => (0, w)), process_fn := none,
                                 close_fn := some (fun w => (0, w)) } },
    running := true }

end Subsys

/-- The started and playing pipeline record over the memory `m`. -/
def played_pipeline (m : Mem Nat) : audio_pipeline :=
  (played m).1.getD (AUDIO_PIPELINE_DEFINE 4)

/-- The chain fields of the pipeline record: `source`, `sink`, `filters` and
`filter_count`. -/
def chain_fields (p : audio_pipeline) :
    Option Nat × Option Nat × Option (Nat → Option Nat) × Nat :=
  (p.source, p.sink, p.filters, p.filter_count)

/-- The initialised and assembled pipeline record over the memory `m`. -/
def assembled_pipeline (m : Mem Nat) : audio_pipeline :=
  (assembled m).1.getD (AUDIO_PIPELINE_DEFINE 4)

/-- The filter array `{ &node1, NULL }`. -/
def one_filter_then_null : Nat → Option Nat := fun i => if i = 0 then some 1 else none

/-- The filter array `{ &node1, &node1, NULL }`. -/
def duplicate_filter_then_null : Nat → Option Nat := fun i => if i < 2 then some 1 else none

/-! ## Theorems: the message queue -/

theorem mod_ne_of_lt_of_lt_add {a b N : Nat} (hab : a < b) (hb : b < a + N) :
    a % N ≠ b % N := by
  intro h
  have h0 : (b - a) % N = 0 := Nat.sub_mod_eq_zero_of_mod_eq h.symm
  have hd : N ∣ b - a := Nat.dvd_of_mod_eq_zero h0
  have hle : N ≤ b - a := Nat.le_of_dvd (by omega) hd
  omega

theorem queue_holds_init {α : Type} (b : Nat → α) (msg_size N : Nat) (hN : 1 ≤ N) :
    queue_holds N { buffer := b, msg_size := msg_size, max_msgs := N,
                    read_idx := 0, write_idx := 0, count := 0 } [] := by
  refine ⟨rfl, rfl, Nat.zero_le _, hN, ?_, ?_⟩
  · simp
  · intro k hk
    simp at hk

theorem queue_call_put_refines {α : Type} (N : Nat) (hN : N < 2 ^ 64) (q : k_msgq α)
    (l : List α) (d : α) (h : queue_holds N q l) :
    ∃ q1, queue_call q (QueueOp.put d) = some ((fifo_call N l (QueueOp.put d)).1, q1) ∧
      queue_holds N q1 (fifo_call N l (QueueOp.put d)).2 := by
  obtain ⟨hmax, hcount, hlen, hr, hw, hbuf⟩ := h
  by_cases hfull : l.length = N
  · refine ⟨q, ?_, ?_⟩
    · have hc : q.count = q.max_msgs := by omega
      simp [queue_call, k_msgq_put, k_msgq_wait_common, fifo_call, hfull, hc, K_NO_WAIT, EAGAIN]
    · simpa [fifo_call, hfull] using
        (show queue_holds N q l from ⟨hmax, hcount, hlen, hr, hw, hbuf⟩)
  · have hc : q.count ≠ q.max_msgs := by omega
    have hlt : l.length < N := by omega
    have hNpos : 0 < N := by omega
    have hwlt : q.write_idx < N := by rw [hw]; exact Nat.mod_lt _ hNpos
    refine ⟨{ q with
        buffer := fun i => if i = q.write_idx then d else q.buffer i,
        write_idx := ((q.write_idx + 1) % SIZE_MOD) % q.max_msgs,
        count := (q.count + 1) % SIZE_MOD }, ?_, ?_⟩
    · simp [queue_call, k_msgq_put, fifo_call, hfull, hc]
    · simp only [fifo_call, hfull, if_false]
      refine ⟨hmax, ?_, ?_, hr, ?_, ?_⟩
      · show (q.count + 1) % SIZE_MOD = (l ++ [d]).length
        have : q.count + 1 < SIZE_MOD := by simp only [SIZE_MOD]; omega
        rw [Nat.mod_eq_of_lt this]; simp [hcount]
      · simp; omega
      · show ((q.write_idx + 1) % SIZE_MOD) % q.max_msgs = (q.read_idx + (l ++ [d]).length) % N
        have : q.write_idx + 1 < SIZE_MOD := by simp only [SIZE_MOD]; omega
        rw [Nat.mod_eq_of_lt this, hmax, hw, Nat.mod_add_mod]
        simp [Nat.add_assoc]
      · intro k hk
        show (l ++ [d])[k]? = some (if (q.read_idx + k) % N = q.write_idx then d
          else q.buffer ((q.read_idx + k) % N))
        simp at hk
        by_cases hkl : k < l.length
        · have hne : (q.read_idx + k) % N ≠ q.write_idx := by
            rw [hw]
            exact mod_ne_of_lt_of_lt_add (by omega) (by omega)
          rw [if_neg hne, List.getElem?_append_left hkl]
          exact hbuf k hkl
        · have hk' : k = l.length := by omega
          subst hk'
          rw [if_pos hw.symm]
          simp

theorem queue_call_get_refines {α : Type} (N : Nat) (hN : N < 2 ^ 64) (q : k_msgq α)
    (l : List α) (out : α) (h : queue_holds N q l) :
    ∃ q1, queue_call q (QueueOp.get out) = some ((fifo_call N l (QueueOp.get out)).1, q1) ∧
      queue_holds N q1 (fifo_call N l (QueueOp.get out)).2 := by
  obtain ⟨hmax, hcount, hlen, hr, hw, hbuf⟩ := h
  cases l with
  | nil =>
    refine ⟨q, ?_, ?_⟩
    · have hc : q.count = 0 := by simpa using hcount
      simp [queue_call, k_msgq_get, k_msgq_wait_common, fifo_call, hc, K_NO_WAIT, EAGAIN]
    · exact ⟨hmax, hcount, hlen, hr, hw, hbuf⟩
  | cons x t =>
    have hc : q.count = t.length + 1 := by simpa using hcount
    have hc0 : q.count ≠ 0 := by omega
    have hlen' : t.length + 1 ≤ N := by simpa using hlen
    have hx : x = q.buffer q.read_idx := by
      have := hbuf 0 (by simp)
      simpa [Nat.mod_eq_of_lt hr] using this
    refine ⟨{ q with
        read_idx := ((q.read_idx + 1) % SIZE_MOD) % q.max_msgs,
        count := (q.count + SIZE_MOD - 1) % SIZE_MOD }, ?_, ?_⟩
    · simp [queue_call, k_msgq_get, fifo_call, hc0, hx]
    · simp only [fifo_call]
      refine ⟨hmax, ?_, by omega, ?_, ?_, ?_⟩
      · show (q.count + SIZE_MOD - 1) % SIZE_MOD = t.length
        have h1 : q.count + SIZE_MOD - 1 = t.length + SIZE_MOD := by omega
        have h2 : t.length < SIZE_MOD := by simp only [SIZE_MOD]; omega
        rw [h1, Nat.add_mod_right, Nat.mod_eq_of_lt h2]
      · show ((q.read_idx + 1) % SIZE_MOD) % q.max_msgs < N
        rw [hmax]; exact Nat.mod_lt _ (by omega)
      · show q.write_idx = (((q.read_idx + 1) % SIZE_MOD) % q.max_msgs + t.length) % N
        have : q.read_idx + 1 < SIZE_MOD := by simp only [SIZE_MOD]; omega
        rw [Nat.mod_eq_of_lt this, hmax, Nat.mod_add_mod, hw]
        simp [Nat.add_assoc, Nat.add_comm 1]
      · intro k hk
        show t[k]? = some (q.buffer ((((q.read_idx + 1) % SIZE_MOD) % q.max_msgs + k) % N))
        have : q.read_idx + 1 < SIZE_MOD := by simp only [SIZE_MOD]; omega
        rw [Nat.mod_eq_of_lt this, hmax, Nat.mod_add_mod]
        have := hbuf (k + 1) (by simpa using hk)
        simpa [Nat.add_assoc, Nat.add_comm 1] using this

theorem run_queue_refines {α : Type} (N : Nat) (hN : N < 2 ^ 64) (ops : List (QueueOp α)) :
    ∀ (q : k_msgq α) (l : List α), queue_holds N q l →
      run_queue q ops = some (run_fifo N l ops) := by
  induction ops with
  | nil => intro q l _; rfl
  | cons op ops ih =>
    intro q l h
    have hstep : ∃ q1, queue_call q op = some ((fifo_call N l op).1, q1) ∧
        queue_holds N q1 (fifo_call N l op).2 := by
      cases op with
      | put d => exact queue_call_put_refines N hN q l d h
      | get out => exact queue_call_get_refines N hN q l out h
    obtain ⟨q1, hq1, hh⟩ := hstep
    simp [run_queue, run_fifo, hq1, ih q1 _ hh]

/-- C1: an initialised queue of capacity `N >= 1` answers every sequence of
no-wait puts and gets exactly as the bounded FIFO of capacity `N` does: every
successful get hands out the oldest message put and not yet retrieved, however
often the indices have wrapped. -/
theorem k_msgq_no_wait_is_bounded_fifo {α : Type} (q : k_msgq α) (b : Nat → α)
    (msg_size N : Nat) (hm : msg_size ≠ 0) (hN : 1 ≤ N) (hN64 : N < 2 ^ 64)
    (ops : List (QueueOp α)) :
    ∃ q0, k_msgq_init (some q) (some b) msg_size N = (0, some q0) ∧
      run_queue q0 ops = some (run_fifo N [] ops) := by
  refine ⟨{ buffer := b, msg_size := msg_size, max_msgs := N,
            read_idx := 0, write_idx := 0, count := 0 }, ?_, ?_⟩
  · have hN0 : N ≠ 0 := by omega
    simp [k_msgq_init, hm, hN0]
  · exact run_queue_refines N hN64 ops _ _ (queue_holds_init b msg_size N hN)

/-- Witness of C1 on a queue of capacity 2: the third put is refused, the
fourth lands in slot 0 again, and the gets hand out 1, 2, 4 in that order. -/
theorem k_msgq_no_wait_is_bounded_fifo_witness :
    (∃ q0, k_msgq_init (some ⟨fun _ => (0 : Nat), 0, 0, 0, 0, 0⟩) (some (fun _ => 0)) 1 2
        = (0, some q0) ∧
      run_queue q0 [QueueOp.put 1, QueueOp.put 2, QueueOp.put 3, QueueOp.get 0,
          QueueOp.put 4, QueueOp.get 0, QueueOp.get 0, QueueOp.get 9]
        = some (run_fifo 2 [] [QueueOp.put 1, QueueOp.put 2, QueueOp.put 3, QueueOp.get 0,
          QueueOp.put 4, QueueOp.get 0, QueueOp.get 0, QueueOp.get 9])) ∧
    run_fifo 2 [] [QueueOp.put (1 : Nat), QueueOp.put 2, QueueOp.put 3, QueueOp.get 0,
          QueueOp.put 4, QueueOp.get 0, QueueOp.get 0, QueueOp.get 9]
      = [(0, none), (0, none), (-11, none), (0, some 1), (0, none), (0, some 2),
         (0, some 4), (-11, some 9)] :=
  ⟨k_msgq_no_wait_is_bounded_fifo _ _ 1 2 (by decide) (by decide) (by decide) _, by decide⟩

/-- C2: with `K_NO_WAIT`, a put on a full queue returns `-EAGAIN` and leaves
the buffer, both indices and the count as they were; a get on an empty queue
returns `-EAGAIN` and leaves the queue and the output record as they were. -/
theorem k_msgq_no_wait_would_block {α : Type} (q : k_msgq α) (d out : α)
    (waits : List (Wakeup α)) :
    (q.count = q.max_msgs →
      k_msgq_put (some q) (some d) K_NO_WAIT waits = some (-EAGAIN, some q)) ∧
    (q.count = 0 →
      k_msgq_get (some q) (some out) K_NO_WAIT waits = some (-EAGAIN, some q, some out)) := by
  constructor
  · intro h
    simp [k_msgq_put, k_msgq_wait_common, h, EAGAIN]
  · intro h
    simp [k_msgq_get, k_msgq_wait_common, h, EAGAIN]

/-- Witness of C2: a full queue of capacity 2 and an empty one. -/
theorem k_msgq_no_wait_would_block_witness :
    k_msgq_put (some ⟨fun i => i + 5, 8, 2, 1, 1, 2⟩) (some 7) K_NO_WAIT []
      = some (-EAGAIN, some ⟨fun i => i + 5, 8, 2, 1, 1, 2⟩) ∧
    k_msgq_get (some ⟨fun i => i + 5, 8, 2, 1, 1, 0⟩) (some 7) K_NO_WAIT []
      = some (-EAGAIN, some ⟨fun i => i + 5, 8, 2, 1, 1, 0⟩, some 7) :=
  ⟨(k_msgq_no_wait_would_block ⟨fun i => i + 5, 8, 2, 1, 1, 2⟩ 7 7 []).1 rfl,
   (k_msgq_no_wait_would_block ⟨fun i => i + 5, 8, 2, 1, 1, 0⟩ 7 7 []).2 rfl⟩

/-- C3 as stated fails: on a full queue a put whose timed wait of 5 ms expires
returns `-EAGAIN`, the very code the no-wait put returns, and likewise for a
get on an empty queue; no distinct timeout code exists. -/
theorem k_msgq_timeout_code_counterexample :
    (k_msgq_put (some ⟨fun _ => (0 : Nat), 8, 1, 0, 0, 1⟩) (some 7) 5
        [⟨ETIMEDOUT, ⟨fun _ => 0, 8, 1, 0, 0, 1⟩⟩]).map Prod.fst = some (-EAGAIN) ∧
    (k_msgq_put (some ⟨fun _ => (0 : Nat), 8, 1, 0, 0, 1⟩) (some 7) K_NO_WAIT
        []).map Prod.fst = some (-EAGAIN) ∧
    (k_msgq_get (some ⟨fun _ => (0 : Nat), 8, 1, 0, 0, 0⟩) (some 7) 5
        [⟨ETIMEDOUT, ⟨fun _ => 0, 8, 1, 0, 0, 0⟩⟩]).map Prod.fst = some (-EAGAIN) ∧
    (k_msgq_get (some ⟨fun _ => (0 : Nat), 8, 1, 0, 0, 0⟩) (some 7) K_NO_WAIT
        []).map Prod.fst = some (-EAGAIN) := by
  refine ⟨?_, ?_, ?_, ?_⟩ <;> decide

/-- C3 amended: on a full queue a put with a finite positive timeout whose
timed wait expires with the queue as it was returns `-EAGAIN`, the code of the
no-wait put, and leaves the queue unchanged; a get on an empty queue likewise,
leaving the output record unchanged too. -/
theorem k_msgq_timeout_returns_eagain {α : Type} (q : k_msgq α) (d out : α) (timeout : Int)
    (ht : 0 < timeout) (rest : List (Wakeup α)) :
    (q.count = q.max_msgs →
      k_msgq_put (some q) (some d) timeout (⟨ETIMEDOUT, q⟩ :: rest) = some (-EAGAIN, some q) ∧
      k_msgq_put (some q) (some d) K_NO_WAIT [] = some (-EAGAIN, some q)) ∧
    (q.count = 0 →
      k_msgq_get (some q) (some out) timeout (⟨ETIMEDOUT, q⟩ :: rest)
        = some (-EAGAIN, some q, some out) ∧
      k_msgq_get (some q) (some out) K_NO_WAIT [] = some (-EAGAIN, some q, some out)) := by
  have h0 : timeout ≠ K_NO_WAIT := by simp only [K_NO_WAIT]; omega
  have h1 : timeout ≠ K_FOREVER := by simp only [K_FOREVER]; omega
  constructor
  · intro h
    simp [k_msgq_put, k_msgq_wait_common, k_msgq_wait_timed, k_msgq_must_wait, h, h0, h1,
      EAGAIN]
  · intro h
    simp [k_msgq_get, k_msgq_wait_common, k_msgq_wait_timed, k_msgq_must_wait, h, h0, h1,
      EAGAIN]

/-- Witness of the amended C3: a timeout of 5 ms on a full queue of
capacity 1. -/
theorem k_msgq_timeout_returns_eagain_witness :
    k_msgq_put (some ⟨fun _ => (0 : Nat), 8, 1, 0, 0, 1⟩) (some 7) 5
        [⟨ETIMEDOUT, ⟨fun _ => 0, 8, 1, 0, 0, 1⟩⟩]
      = some (-EAGAIN, some ⟨fun _ => 0, 8, 1, 0, 0, 1⟩) ∧
    k_msgq_put (some ⟨fun _ => (0 : Nat), 8, 1, 0, 0, 1⟩) (some 7) K_NO_WAIT []
      = some (-EAGAIN, some ⟨fun _ => 0, 8, 1, 0, 0, 1⟩) :=
  (k_msgq_timeout_returns_eagain ⟨fun _ => (0 : Nat), 8, 1, 0, 0, 1⟩ 7 7 5 (by decide) []).1 rfl

theorem k_msgq_wait_forever_result {α : Type} (for_put : Bool) (ws : List (Wakeup α)) :
    ∀ (q : k_msgq α) (r : Int) (q1 : k_msgq α),
      k_msgq_wait_forever for_put q ws = some (r, q1) →
      (r = 0 ∧ k_msgq_must_wait q1 for_put = false) ∧ (q1 = q ∨ ∃ w ∈ ws, q1 = w.q) := by
  induction ws with
  | nil =>
    intro q r q1 h
    by_cases hb : k_msgq_must_wait q for_put = true
    · simp [k_msgq_wait_forever, hb] at h
    · simp [k_msgq_wait_forever, hb] at h
      obtain ⟨rfl, rfl⟩ := h
      simp at hb
      exact ⟨⟨rfl, hb⟩, Or.inl rfl⟩
  | cons w ws ih =>
    intro q r q1 h
    by_cases hb : k_msgq_must_wait q for_put = true
    · simp only [k_msgq_wait_forever, hb, if_true] at h
      obtain ⟨h1, h2⟩ := ih w.q r q1 h
      refine ⟨h1, Or.inr ?_⟩
      rcases h2 with h2 | ⟨w1, hw1, h2⟩
      · exact ⟨w, List.mem_cons_self _ _, h2⟩
      · exact ⟨w1, List.mem_cons_of_mem _ hw1, h2⟩
    · simp [k_msgq_wait_forever, hb] at h
      obtain ⟨rfl, rfl⟩ := h
      simp at hb
      exact ⟨⟨rfl, hb⟩, Or.inl rfl⟩

theorem k_msgq_wait_timed_result {α : Type} (for_put : Bool) (ws : List (Wakeup α)) :
    ∀ (q : k_msgq α) (r : Int) (q1 : k_msgq α),
      k_msgq_wait_timed for_put q ws = some (r, q1) →
      ((r = 0 ∧ k_msgq_must_wait q1 for_put = false) ∨ r = -EAGAIN) ∧
      (q1 = q ∨ ∃ w ∈ ws, q1 = w.q) := by
  induction ws with
  | nil =>
    intro q r q1 h
    by_cases hb : k_msgq_must_wait q for_put = true
    · simp [k_msgq_wait_timed, hb] at h
    · simp [k_msgq_wait_timed, hb] at h
      obtain ⟨rfl, rfl⟩ := h
      simp at hb
      exact ⟨Or.inl ⟨rfl, hb⟩, Or.inl rfl⟩
  | cons w ws ih =>
    intro q r q1 h
    by_cases hb : k_msgq_must_wait q for_put = true
    · by_cases ht : w.ret = ETIMEDOUT
      · simp [k_msgq_wait_timed, hb, ht] at h
        obtain ⟨rfl, rfl⟩ := h
        exact ⟨Or.inr rfl, Or.inr ⟨w, List.mem_cons_self _ _, rfl⟩⟩
      · simp only [k_msgq_wait_timed, hb, ht, if_true, if_false] at h
        obtain ⟨h1, h2⟩ := ih w.q r q1 h
        refine ⟨h1, Or.inr ?_⟩
        rcases h2 with h2 | ⟨w1, hw1, h2⟩
        · exact ⟨w, List.mem_cons_self _ _, h2⟩
        · exact ⟨w1, List.mem_cons_of_mem _ hw1, h2⟩
    · simp [k_msgq_wait_timed, hb] at h
      obtain ⟨rfl, rfl⟩ := h
      simp at hb
      exact ⟨Or.inl ⟨rfl, hb⟩, Or.inl rfl⟩

theorem k_msgq_wait_common_result {α : Type} (for_put : Bool) (timeout : Int)
    (ws : List (Wakeup α)) (q : k_msgq α) (r : Int) (q1 : k_msgq α)
    (h : k_msgq_wait_common q for_put timeout ws = some (r, q1)) :
    ((r = 0 ∧ k_msgq_must_wait q1 for_put = false) ∨ r = -EAGAIN) ∧
    (q1 = q ∨ ∃ w ∈ ws, q1 = w.q) := by
  unfold k_msgq_wait_common at h
  split at h
  · simp at h
    obtain ⟨rfl, rfl⟩ := h
    exact ⟨Or.inr rfl, Or.inl rfl⟩
  · split at h
    · obtain ⟨h1, h2⟩ := k_msgq_wait_forever_result for_put ws q r q1 h
      exact ⟨Or.inl h1, h2⟩
    · exact k_msgq_wait_timed_result for_put ws q r q1 h

theorem k_msgq_put_count_in_range {α : Type} (q : k_msgq α) (data : Option α) (timeout : Int)
    (ws : List (Wakeup α)) (hq : count_in_range q) (hws : ∀ w ∈ ws, count_in_range w.q)
    (r : Int) (q1 : k_msgq α)
    (h : k_msgq_put (some q) data timeout ws = some (r, some q1)) : count_in_range q1 := by
  cases data with
  | none =>
    simp [k_msgq_put] at h
    obtain ⟨_, rfl⟩ := h
    exact hq
  | some d =>
    simp only [k_msgq_put] at h
    by_cases hfull : q.count = q.max_msgs
    · rw [if_pos hfull] at h
      cases hw : k_msgq_wait_common q true timeout ws with
      | none => rw [hw] at h; simp at h
      | some res =>
        obtain ⟨ret, q2⟩ := res
        rw [hw] at h
        obtain ⟨hres, hmem⟩ := k_msgq_wait_common_result true timeout ws q ret q2 hw
        have hq2 : count_in_range q2 := by
          rcases hmem with rfl | ⟨w, hwm, rfl⟩
          · exact hq
          · exact hws w hwm
        by_cases hneg : ret < 0
        · simp [hneg] at h
          obtain ⟨_, rfl⟩ := h
          exact hq2
        · simp [hneg] at h
          obtain ⟨_, rfl⟩ := h
          rcases hres with ⟨_, hnb⟩ | hre
          · simp [k_msgq_must_wait] at hnb
            simp only [count_in_range] at hq2 ⊢
            show (q2.count + 1) % SIZE_MOD ≤ q2.max_msgs
            have := Nat.mod_le (q2.count + 1) SIZE_MOD
            omega
          · simp [hre, EAGAIN] at hneg
    · rw [if_neg hfull] at h
      simp at h
      obtain ⟨_, rfl⟩ := h
      simp only [count_in_range] at hq ⊢
      show (q.count + 1) % SIZE_MOD ≤ q.max_msgs
      have := Nat.mod_le (q.count + 1) SIZE_MOD
      omega

theorem size_dec_le {c m : Nat} (h0 : c ≠ 0) (hc : c ≤ m) :
    (c + SIZE_MOD - 1) % SIZE_MOD ≤ m := by
  have h1 : c + SIZE_MOD - 1 = (c - 1) + SIZE_MOD := by omega
  rw [h1, Nat.add_mod_right]
  have := Nat.mod_le (c - 1) SIZE_MOD
  omega

theorem k_msgq_get_count_in_range {α : Type} (q : k_msgq α) (data : Option α) (timeout : Int)
    (ws : List (Wakeup α)) (hq : count_in_range q) (hws : ∀ w ∈ ws, count_in_range w.q)
    (r : Int) (q1 : k_msgq α) (o : Option α)
    (h : k_msgq_get (some q) data timeout ws = some (r, some q1, o)) : count_in_range q1 := by
  cases data with
  | none =>
    simp [k_msgq_get] at h
    obtain ⟨_, rfl, _⟩ := h
    exact hq
  | some d =>
    simp only [k_msgq_get] at h
    by_cases hempty : q.count = 0
    · rw [if_pos hempty] at h
      cases hw : k_msgq_wait_common q false timeout ws with
      | none => rw [hw] at h; simp at h
      | some res =>
        obtain ⟨ret, q2⟩ := res
        rw [hw] at h
        obtain ⟨hres, hmem⟩ := k_msgq_wait_common_result false timeout ws q ret q2 hw
        have hq2 : count_in_range q2 := by
          rcases hmem with rfl | ⟨w, hwm, rfl⟩
          · exact hq
          · exact hws w hwm
        by_cases hneg : ret < 0
        · simp [hneg] at h
          obtain ⟨_, rfl, _⟩ := h
          exact hq2
        · simp [hneg] at h
          obtain ⟨_, rfl, _⟩ := h
          rcases hres with ⟨_, hnb⟩ | hre
          · simp [k_msgq_must_wait] at hnb
            exact size_dec_le hnb hq2
          · simp [hre, EAGAIN] at hneg
    · rw [if_neg hempty] at h
      simp at h
      obtain ⟨_, rfl, _⟩ := h
      exact size_dec_le hempty hq

/-- C4: `count <= max_msgs` holds after every successful `k_msgq_init` (which
succeeds for every capacity `N >= 1`), and every `k_msgq_put` and `k_msgq_get`
that returns, with success or with an error and whatever the timeout, leaves
it true, provided the other threads met during a wait keep it too; a no-wait
call always returns. -/
theorem k_msgq_count_stays_in_range {α : Type} :
    (∀ (q : Option (k_msgq α)) (b : Option (Nat → α)) (msg_size N : Nat) (q0 : k_msgq α),
      k_msgq_init q b msg_size N = (0, some q0) →
        count_in_range q0 ∧ q0.count = 0 ∧ q0.max_msgs = N) ∧
    (∀ (q : k_msgq α) (b : Nat → α) (msg_size N : Nat), msg_size ≠ 0 → 1 ≤ N →
      ∃ q0, k_msgq_init (some q) (some b) msg_size N = (0, some q0)) ∧
    (∀ (q : k_msgq α) (data : Option α) (timeout : Int) (ws : List (Wakeup α)),
      count_in_range q → (∀ w ∈ ws, count_in_range w.q) →
      ∀ (r : Int) (q1 : k_msgq α),
        k_msgq_put (some q) data timeout ws = some (r, some q1) → count_in_range q1) ∧
    (∀ (q : k_msgq α) (data : Option α) (timeout : Int) (ws : List (Wakeup α)),
      count_in_range q → (∀ w ∈ ws, count_in_range w.q) →
      ∀ (r : Int) (q1 : k_msgq α) (o : Option α),
        k_msgq_get (some q) data timeout ws = some (r, some q1, o) → count_in_range q1) ∧
    (∀ (q : k_msgq α) (data : Option α) (ws : List (Wakeup α)),
      (∃ r q1, k_msgq_put (some q) data K_NO_WAIT ws = some (r, some q1)) ∧
      (∃ r q1 o, k_msgq_get (some q) data K_NO_WAIT ws = some (r, some q1, o))) := by
  refine ⟨?_, ?_, ?_, ?_, ?_⟩
  · intro q b msg_size N q0 h
    cases q with
    | none => simp [k_msgq_init, EINVAL] at h
    | some q' =>
      cases b with
      | none => simp [k_msgq_init, EINVAL] at h
      | some b' =>
        by_cases hz : msg_size = 0 ∨ N = 0
        · simp [k_msgq_init, hz, EINVAL] at h
        · simp [k_msgq_init, hz] at h
          subst h
          exact ⟨Nat.zero_le _, rfl, rfl⟩
  · intro q b msg_size N hm hN
    have hN0 : N ≠ 0 := by omega
    simp [k_msgq_init, hm, hN0]
  · intro q data timeout ws hq hws r q1 h
    exact k_msgq_put_count_in_range q data timeout ws hq hws r q1 h
  · intro q data timeout ws hq hws r q1 o h
    exact k_msgq_get_count_in_range q data timeout ws hq hws r q1 o h
  · intro q data ws
    constructor
    · cases data with
      | none => simp [k_msgq_put]
      | some d =>
        by_cases hfull : q.count = q.max_msgs
        · simp [k_msgq_put, k_msgq_wait_common, hfull, EAGAIN]
        · simp [k_msgq_put, hfull]
    · cases data with
      | none => simp [k_msgq_get]
      | some d =>
        by_cases hempty : q.count = 0
        · simp [k_msgq_get, k_msgq_wait_common, hempty, EAGAIN]
        · simp [k_msgq_get, hempty]

/-- Witness of C4: a put with `K_FOREVER` on a full queue of capacity 2 that
is woken once spuriously and once after another thread took a message; the
count is 2 again afterwards. -/
theorem k_msgq_count_stays_in_range_witness :
    k_msgq_put (some ⟨fun _ => (0 : Nat), 8, 2, 0, 0, 2⟩) (some 7) K_FOREVER
        [⟨0, ⟨fun _ => 0, 8, 2, 0, 0, 2⟩⟩, ⟨0, ⟨fun _ => 0, 8, 2, 1, 0, 1⟩⟩]
      = some (0, some ⟨fun i => if i = 0 then 7 else 0, 8, 2, 1, 1, 2⟩) ∧
    count_in_range (⟨fun i => if i = 0 then 7 else 0, 8, 2, 1, 1, 2⟩ : k_msgq Nat) :=
  ⟨rfl, k_msgq_count_stays_in_range.2.2.1 ⟨fun _ => (0 : Nat), 8, 2, 0, 0, 2⟩ (some 7)
    K_FOREVER [⟨0, ⟨fun _ => 0, 8, 2, 0, 0, 2⟩⟩, ⟨0, ⟨fun _ => 0, 8, 2, 1, 0, 1⟩⟩]
    (by decide) (by decide) 0 _ rfl⟩

/-! ## Theorems: chain assembly and initialisation -/

theorem set_upstream_frame {W : Type} (m : Mem W) (node : Nat) (up : Option Nat) :
    (set_upstream m node up).world = m.world ∧ (set_upstream m node up).trace = m.trace ∧
    (set_upstream m node up).threads = m.threads ∧
    ((set_upstream m node up).nodes node).upstream = up ∧
    ∀ a, a ≠ node → (set_upstream m node up).nodes a = m.nodes a := by
  refine ⟨rfl, rfl, rfl, ?_, ?_⟩
  · simp [set_upstream]
  · intro a ha
    simp [set_upstream, ha]

theorem set_nodes_loop_code {W : Type} (source : Option Nat) (f : Nat → Option Nat) (n : Nat) :
    ∀ (i : Nat) (m : Mem W),
      ((set_nodes_loop source f i n m).1 = 0 ∨ (set_nodes_loop source f i n m).1 = -EINVAL) ∧
      ((set_nodes_loop source f i n m).1 = -EINVAL ↔ ∃ j, i ≤ j ∧ j < i + n ∧ f j = none) := by
  induction n with
  | zero =>
    intro i m
    refine ⟨Or.inl rfl, ?_⟩
    constructor
    · intro h
      simp [set_nodes_loop, EINVAL] at h
    · rintro ⟨j, hj1, hj2, _⟩
      omega
  | succ n ih =>
    intro i m
    cases hfi : f i with
    | none =>
      have hv : (set_nodes_loop source f i (n + 1) m).1 = -EINVAL := by
        simp only [set_nodes_loop, hfi]
      refine ⟨Or.inr hv, ?_⟩
      constructor
      · intro _
        exact ⟨i, Nat.le_refl _, by omega, hfi⟩
      · intro _
        exact hv
    | some node =>
      simp only [set_nodes_loop, hfi]
      obtain ⟨h1, h2⟩ := ih (i + 1) (set_upstream m node (if i = 0 then source else f (i - 1)))
      refine ⟨h1, ?_⟩
      rw [h2]
      constructor
      · rintro ⟨j, hj1, hj2, hj3⟩
        exact ⟨j, by omega, by omega, hj3⟩
      · rintro ⟨j, hj1, hj2, hj3⟩
        have hne : j ≠ i := by
          intro h
          subst h
          rw [hfi] at hj3
          cases hj3
        exact ⟨j, by omega, by omega, hj3⟩

theorem set_nodes_loop_upstream {W : Type} (source : Option Nat) (f : Nat → Option Nat)
    (n : Nat) :
    ∀ (i : Nat) (m : Mem W),
      (∀ j, i ≤ j → j < i + n → f j ≠ none) →
      (∀ j k, i ≤ j → j < i + n → i ≤ k → k < i + n → f j = f k → j = k) →
      (set_nodes_loop source f i n m).1 = 0 ∧
      (∀ j a, i ≤ j → j < i + n → f j = some a →
        ((set_nodes_loop source f i n m).2.nodes a).upstream
          = if j = 0 then source else f (j - 1)) ∧
      (∀ a, (∀ j, i ≤ j → j < i + n → f j ≠ some a) →
        (set_nodes_loop source f i n m).2.nodes a = m.nodes a) ∧
      (set_nodes_loop source f i n m).2.world = m.world ∧
      (set_nodes_loop source f i n m).2.trace = m.trace ∧
      (set_nodes_loop source f i n m).2.threads = m.threads := by
  induction n with
  | zero =>
    intro i m _ _
    refine ⟨rfl, ?_, ?_, rfl, rfl, rfl⟩
    · intro j a h1 h2
      omega
    · intro a _
      rfl
  | succ n ih =>
    intro i m hnn hinj
    cases hfi : f i with
    | none => exact absurd hfi (hnn i (Nat.le_refl _) (by omega))
    | some node =>
      simp only [set_nodes_loop, hfi]
      obtain ⟨hw, htr, hth, hup, hother⟩ :=
        set_upstream_frame m node (if i = 0 then source else f (i - 1))
      obtain ⟨h0, h1, h2, h3, h4, h5⟩ :=
        ih (i + 1) (set_upstream m node (if i = 0 then source else f (i - 1)))
          (fun j hj1 hj2 => hnn j (by omega) (by omega))
          (fun j k hj1 hj2 hk1 hk2 h => hinj j k (by omega) (by omega) (by omega) (by omega) h)
      refine ⟨h0, ?_, ?_, by rw [h3, hw], by rw [h4, htr], by rw [h5, hth]⟩
      · intro j a hj1 hj2 hja
        by_cases hji : j = i
        · subst hji
          have ha : a = node := by
            rw [hfi] at hja
            exact (Option.some.inj hja).symm
          subst ha
          rw [h2 a, hup]
          intro k hk1 hk2 hk3
          have := hinj k j (by omega) (by omega) (Nat.le_refl _) (by omega) (by rw [hk3, hfi])
          omega
        · exact h1 j a (by omega) (by omega) hja
      · intro a ha
        rw [h2 a (fun j hj1 hj2 => ha j (by omega) (by omega))]
        apply hother
        intro h
        subst h
        exact ha i (Nat.le_refl _) (by omega) hfi

theorem follow_upstream_succ {W : Type} (m : Mem W) (j : Nat) :
    ∀ (p : Option Nat), follow_upstream m (j + 1) p =
      match follow_upstream m j p with
      | none => none
      | some a => (m.nodes a).upstream := by
  induction j with
  | zero =>
    intro p
    cases p <;> rfl
  | succ j ih =>
    intro p
    cases p with
    | none => simp [follow_upstream]
    | some a =>
      show follow_upstream m (j + 1) (m.nodes a).upstream = _
      rw [ih]
      rfl

/-- C5 as stated fails when the sink is also a filter: with the one filter
`filters[0] = node 1`, source node 0 and sink node 1, the call succeeds, the
filter array is non-null and pairwise distinct, and `filters[0].upstream` is
node 1 itself, not the source. -/
theorem set_nodes_sink_alias_counterexample :
    (∀ i, i < 1 → two_filters i ≠ none) ∧
    (∀ i j, i < 1 → j < 1 → two_filters i = two_filters j → i = j) ∧
    (audio_pipeline_set_nodes (some (AUDIO_PIPELINE_DEFINE 4)) four_nodes (some 0)
        (some two_filters) 1 (some 1)).map
      (fun r => (r.1, (r.2.2.nodes 1).upstream)) = some (0, some 1) ∧
    two_filters 0 = some 1 ∧ (some 1 : Option Nat) ≠ some 0 := by
  refine ⟨by decide, ?_, by decide, rfl, by decide⟩
  intro i j hi hj _
  omega

/-- C5 amended: for every source, every sink and every array of `n >= 0`
non-null pairwise distinct filters none of which is the sink,
`audio_pipeline_set_nodes` succeeds, stores its arguments in the pipeline, and
afterwards `filters[0].upstream` is the source, `filters[i].upstream` is
`filters[i-1]` for `0 < i < n`, the sink's upstream is `filters[n-1]` (the
source if `n = 0`); `j` hops from the sink reach `filters[n-j]` for
`1 <= j <= n` and `n + 1` hops reach the source. -/
theorem set_nodes_wires_chain {W : Type} (p : audio_pipeline) (m : Mem W) (src snk : Nat)
    (filters : Option (Nat → Option Nat)) (f : Nat → Option Nat) (n : Nat)
    (harr : filters = some f ∨ (filters = none ∧ n = 0))
    (hnn : ∀ i, i < n → f i ≠ none)
    (hinj : ∀ i j, i < n → j < n → f i = f j → i = j)
    (hsink : ∀ i, i < n → f i ≠ some snk) :
    ∃ p1 m1, audio_pipeline_set_nodes (some p) m (some src) filters n (some snk)
        = some (0, some p1, m1) ∧
      (p1.source = some src ∧ p1.sink = some snk ∧ p1.filters = filters ∧
        p1.filter_count = n) ∧
      (∀ a, 0 < n → f 0 = some a → (m1.nodes a).upstream = some src) ∧
      (∀ i a, 0 < i → i < n → f i = some a → (m1.nodes a).upstream = f (i - 1)) ∧
      (m1.nodes snk).upstream = (if 0 < n then f (n - 1) else some src) ∧
      (∀ j, 1 ≤ j → j ≤ n → follow_upstream m1 j (some snk) = f (n - j)) ∧
      follow_upstream m1 (n + 1) (some snk) = some src := by
  -- the wiring facts, from which the hops follow
  have key : ∃ p1 m1, audio_pipeline_set_nodes (some p) m (some src) filters n (some snk)
        = some (0, some p1, m1) ∧
      (p1.source = some src ∧ p1.sink = some snk ∧ p1.filters = filters ∧
        p1.filter_count = n) ∧
      (∀ i a, i < n → f i = some a →
        (m1.nodes a).upstream = if i = 0 then some src else f (i - 1)) ∧
      (m1.nodes snk).upstream = (if 0 < n then f (n - 1) else some src) := by
    rcases harr with hf | ⟨hf, hn0⟩
    · subst hf
      obtain ⟨h0, h1, _, _, _, _⟩ := set_nodes_loop_upstream (some src) f n 0 m
        (fun j _ hj => hnn j (by omega))
        (fun j k _ hj _ hk h => hinj j k (by omega) (by omega) h)
      obtain ⟨_, _, _, hup, hother⟩ := set_upstream_frame
        (set_nodes_loop (some src) f 0 n m).2 snk (if 0 < n then f (n - 1) else some src)
      refine ⟨{ p with source := some src, filters := some f, filter_count := n,
                       sink := some snk },
        set_upstream (set_nodes_loop (some src) f 0 n m).2 snk
          (if 0 < n then f (n - 1) else some src), ?_, ⟨rfl, rfl, rfl, rfl⟩, ?_, ?_⟩
      · simp only [audio_pipeline_set_nodes, h0]
        rfl
      · intro i a hi hia
        have hne : a ≠ snk := by
          intro h
          subst h
          exact hsink i hi hia
        rw [hother a hne]
        exact h1 i a (Nat.zero_le _) (by omega) hia
      · exact hup
    · subst hf
      subst hn0
      obtain ⟨_, _, _, hup, _⟩ := set_upstream_frame m snk (some src)
      refine ⟨{ p with source := some src, filters := none, filter_count := 0,
                       sink := some snk },
        set_upstream m snk (some src), ?_, ⟨rfl, rfl, rfl, rfl⟩, ?_, ?_⟩
      · simp only [audio_pipeline_set_nodes]
        rfl
      · intro i a hi
        omega
      · simpa using hup
  obtain ⟨p1, m1, hres, hfields, hfil, hsnk⟩ := key
  have hops : ∀ j, 1 ≤ j → j ≤ n → follow_upstream m1 j (some snk) = f (n - j) := by
    intro j
    induction j with
    | zero => intro h; omega
    | succ j ih =>
      intro _ hj
      by_cases hj0 : j = 0
      · subst hj0
        show (m1.nodes snk).upstream = f (n - 1)
        rw [hsnk, if_pos (by omega)]
      · rw [follow_upstream_succ, ih (by omega) (by omega)]
        cases hfa : f (n - j) with
        | none => exact absurd hfa (hnn (n - j) (by omega))
        | some a =>
          show (m1.nodes a).upstream = f (n - (j + 1))
          rw [hfil (n - j) a (by omega) hfa, if_neg (by omega)]
          congr 1
  refine ⟨p1, m1, hres, hfields, ?_, ?_, hsnk, hops, ?_⟩
  · intro a hn ha
    rw [hfil 0 a hn ha, if_pos rfl]
  · intro i a hi0 hi hia
    rw [hfil i a hi hia, if_neg (by omega)]
  · by_cases hn : n = 0
    · subst hn
      show (m1.nodes snk).upstream = some src
      rw [hsnk, if_neg (by omega)]
    · rw [follow_upstream_succ, hops n (by omega) (Nat.le_refl _)]
      rw [Nat.sub_self]
      cases hfa : f 0 with
      | none => exact absurd hfa (hnn 0 (by omega))
      | some a =>
        show (m1.nodes a).upstream = some src
        rw [hfil 0 a (by omega) hfa, if_pos rfl]

/-- Witness of the amended C5: source node 0, filters nodes 1 and 2, sink
node 3. -/
theorem set_nodes_wires_chain_witness :
    ∃ p1 m1, audio_pipeline_set_nodes (some (AUDIO_PIPELINE_DEFINE 4)) four_nodes (some 0)
        (some two_filters) 2 (some 3) = some (0, some p1, m1) ∧
      (p1.source = some 0 ∧ p1.sink = some 3 ∧ p1.filters = some two_filters ∧
        p1.filter_count = 2) ∧
      (∀ a, 0 < 2 → two_filters 0 = some a → (m1.nodes a).upstream = some 0) ∧
      (∀ i a, 0 < i → i < 2 → two_filters i = some a →
        (m1.nodes a).upstream = two_filters (i - 1)) ∧
      (m1.nodes 3).upstream = (if 0 < 2 then two_filters (2 - 1) else some 0) ∧
      (∀ j, 1 ≤ j → j ≤ 2 → follow_upstream m1 j (some 3) = two_filters (2 - j)) ∧
      follow_upstream m1 (2 + 1) (some 3) = some 0 :=
  set_nodes_wires_chain (AUDIO_PIPELINE_DEFINE 4) four_nodes 0 3 (some two_filters)
    two_filters 2 (Or.inl rfl)
    (by intro i _; simp [two_filters])
    (by intro i j _ _ h; simpa [two_filters] using h)
    (by intro i hi; simp [two_filters]; omega)

theorem set_nodes_code_of_array {W : Type} (pl : Option audio_pipeline) (m : Mem W)
    (source : Option Nat) (filters : Option (Nat → Option Nat)) (filter_count : Nat)
    (sink : Option Nat) (harr : filters ≠ none ∨ filter_count = 0) :
    ∃ r pl1 m1, audio_pipeline_set_nodes pl m source filters filter_count sink
        = some (r, pl1, m1) ∧
      (r = -EINVAL ∨ r = 0) ∧
      (r = -EINVAL ↔ (pl = none ∨ source = none ∨ sink = none ∨
        ∃ f i, filters = some f ∧ i < filter_count ∧ f i = none)) := by
  cases pl with
  | none => exact ⟨-EINVAL, none, m, by simp [audio_pipeline_set_nodes], Or.inl rfl, by simp⟩
  | some p =>
    cases source with
    | none =>
      exact ⟨-EINVAL, some p, m, by simp [audio_pipeline_set_nodes], Or.inl rfl, by simp⟩
    | some src =>
      cases sink with
      | none =>
        exact ⟨-EINVAL, some p, m, by simp [audio_pipeline_set_nodes], Or.inl rfl, by simp⟩
      | some snk =>
        cases filters with
        | none =>
          have hn : filter_count = 0 := by
            rcases harr with h | h
            · exact absurd rfl h
            · exact h
          subst hn
          exact ⟨0, some { p with source := some src, filters := none, filter_count := 0,
                                  sink := some snk },
            set_upstream m snk (some src), rfl, Or.inr rfl, by simp [EINVAL]⟩
        | some f =>
          obtain ⟨hcode, hiff⟩ := set_nodes_loop_code (some src) f filter_count 0 m
          rcases hcode with h0 | hE
          · refine ⟨0, some { p with source := some src, filters := some f,
                                       filter_count := filter_count, sink := some snk },
              set_upstream (set_nodes_loop (some src) f 0 filter_count m).2 snk
                (if 0 < filter_count then f (filter_count - 1) else some src),
              by simp [audio_pipeline_set_nodes, h0], Or.inr rfl, ?_⟩
            constructor
            · intro h
              simp [EINVAL] at h
            · intro h
              exfalso
              rcases h with h | h | h | ⟨g, i, hg, hi, hgi⟩
              · cases h
              · cases h
              · cases h
              · cases hg
                have : (set_nodes_loop (some src) f 0 filter_count m).1 = -EINVAL :=
                  hiff.2 ⟨i, Nat.zero_le _, by omega, hgi⟩
                rw [h0] at this
                simp [EINVAL] at this
          · refine ⟨-EINVAL, some { p with source := some src, filters := some f,
                                             filter_count := filter_count, sink := some snk },
              (set_nodes_loop (some src) f 0 filter_count m).2, ?_, Or.inl rfl, ?_⟩
            · simp [audio_pipeline_set_nodes, hE, EINVAL]
            · constructor
              · intro _
                obtain ⟨j, _, hj, hfj⟩ := hiff.1 hE
                exact Or.inr (Or.inr (Or.inr ⟨f, j, rfl, by omega, hfj⟩))
              · intro _
                rfl

/-- C6: `audio_pipeline_set_nodes` returns `-EINVAL` exactly in the listed
cases and `0` otherwise only on the calls whose `filters` points to an array
(or is null with `filter_count = 0`): there the call returns, its code is
`-EINVAL` or `0`, and it is `-EINVAL` exactly when the pipeline, the source or
the sink is null or one of the first `filter_count` filter slots is null.
With the pipeline, the source and the sink non-null, `filters` null and
`filter_count > 0`, the loop reads `filters[0]` through the null pointer:
the call has no result, neither `-EINVAL` nor success. -/
theorem set_nodes_einval_iff_unless_null_array {W : Type} (pl : Option audio_pipeline)
    (m : Mem W) (source : Option Nat) (filters : Option (Nat → Option Nat))
    (filter_count : Nat) (sink : Option Nat) :
    ((filters ≠ none ∨ filter_count = 0) →
      ∃ r pl1 m1, audio_pipeline_set_nodes pl m source filters filter_count sink
          = some (r, pl1, m1) ∧
        (r = -EINVAL ∨ r = 0) ∧
        (r = -EINVAL ↔ (pl = none ∨ source = none ∨ sink = none ∨
          ∃ f i, filters = some f ∧ i < filter_count ∧ f i = none)))
    ∧ (pl ≠ none → source ≠ none → sink ≠ none → filters = none → 0 < filter_count →
        audio_pipeline_set_nodes pl m source filters filter_count sink = none) := by
  refine ⟨set_nodes_code_of_array pl m source filters filter_count sink, ?_⟩
  intro hpl hsrc hsnk hfil hcount
  cases pl with
  | none => exact absurd rfl hpl
  | some p =>
    cases source with
    | none => exact absurd rfl hsrc
    | some src =>
      cases sink with
      | none => exact absurd rfl hsnk
      | some snk =>
        subst hfil
        have hne : filter_count ≠ 0 := by omega
        simp [audio_pipeline_set_nodes, hne]

/-- Witness of C6: over the four-node memory, the array `{ &node1, NULL }`
with `filter_count = 2` is refused and the array `{ &node1, &node2 }` is
accepted, and the call with source node 0, sink node 3, `filters = NULL` and
`filter_count = 1` has no result. -/
theorem set_nodes_einval_iff_unless_null_array_witness :
    (audio_pipeline_set_nodes (some (AUDIO_PIPELINE_DEFINE 4)) four_nodes (some 0)
        (some (fun i => if i = 0 then some 1 else none)) 2 (some 3)).map Prod.fst
      = some (-EINVAL)
    ∧ (∃ r pl1 m1, audio_pipeline_set_nodes (some (AUDIO_PIPELINE_DEFINE 4)) four_nodes
          (some 0) (some two_filters) 2 (some 3) = some (r, pl1, m1) ∧
        (r = -EINVAL ∨ r = 0) ∧
        (r = -EINVAL ↔ ((some (AUDIO_PIPELINE_DEFINE 4) = none) ∨ (some 0 : Option Nat) = none ∨
          (some 3 : Option Nat) = none ∨
          ∃ f i, some two_filters = some f ∧ i < 2 ∧ f i = none)))
    ∧ (audio_pipeline_set_nodes (some (AUDIO_PIPELINE_DEFINE 4)) four_nodes (some 0)
        (some two_filters) 2 (some 3)).map Prod.fst = some 0
    ∧ audio_pipeline_set_nodes (some (AUDIO_PIPELINE_DEFINE 4)) four_nodes (some 0)
        none 1 (some 3) = none :=
  ⟨by decide,
    (set_nodes_einval_iff_unless_null_array (some (AUDIO_PIPELINE_DEFINE 4)) four_nodes
      (some 0) (some two_filters) 2 (some 3)).1 (Or.inl (by simp)),
    by decide,
    (set_nodes_einval_iff_unless_null_array (some (AUDIO_PIPELINE_DEFINE 4)) four_nodes
      (some 0) none 1 (some 3)).2 (by simp) (by simp) (by simp) rfl (by decide)⟩

/-- C7: `audio_pipeline_init` returns `-EINVAL` and leaves the pipeline as it
was when the pipeline is already initialised, its event queue or event buffer
is null, or its queue length is 0; otherwise it returns `0`, sets
`initialized`, clears `thread_started`, `running`, `playing` and
`stop_request`, resets the format to (0, 2, 0, S32_LE), sets up an empty event
queue of capacity `event_queue_len` over the event buffer, and changes no
other field. -/
theorem audio_pipeline_init_spec (p : audio_pipeline) :
    ((p.initialized = true ∨ p.event_queue = none ∨ p.event_buffer = none ∨
        p.event_queue_len = 0) →
      audio_pipeline_init (some p) = (-EINVAL, some p)) ∧
    (¬ (p.initialized = true ∨ p.event_queue = none ∨ p.event_buffer = none ∨
        p.event_queue_len = 0) →
      ∃ b p1 q1, p.event_buffer = some b ∧ audio_pipeline_init (some p) = (0, some p1) ∧
        p1.initialized = true ∧ p1.thread_started = false ∧ p1.running = false ∧
        p1.playing = false ∧ p1.stop_request = false ∧
        p1.format = { sample_rate := 0, channels := 2, valid_bits_per_sample := 0,
                      format := audio_sample_format.AUDIO_SAMPLE_FORMAT_S32_LE } ∧
        p1.event_queue = some q1 ∧ q1.count = 0 ∧ q1.max_msgs = p.event_queue_len ∧
        q1.read_idx = 0 ∧ q1.write_idx = 0 ∧ q1.buffer = b ∧
        p1.source = p.source ∧ p1.sink = p.sink ∧ p1.filters = p.filters ∧
        p1.filter_count = p.filter_count ∧ p1.frame_capacity = p.frame_capacity ∧
        p1.event_buffer = p.event_buffer ∧ p1.event_queue_len = p.event_queue_len) := by
  constructor
  · intro h
    by_cases hi : p.initialized = true
    · simp [audio_pipeline_init, hi]
    · have hk : (k_msgq_init p.event_queue p.event_buffer SIZEOF_EVENT p.event_queue_len)
          = (-EINVAL, p.event_queue) := by
        rcases h with h | h | h | h
        · exact absurd h hi
        · rw [h]; rfl
        · rw [h]; cases p.event_queue <;> rfl
        · rw [h]
          cases p.event_queue with
          | none => rfl
          | some q =>
            cases p.event_buffer with
            | none => rfl
            | some b => simp [k_msgq_init]
      have hi' : p.initialized = false := by simpa using hi
      simp only [audio_pipeline_init, hi', hk]
      simp [EINVAL]
      cases p
      simp_all
  · intro h
    simp only [not_or] at h
    obtain ⟨hi, hq, hb, hl⟩ := h
    cases hq' : p.event_queue with
    | none => exact absurd hq' hq
    | some q =>
      cases hb' : p.event_buffer with
      | none => exact absurd hb' hb
      | some b =>
        refine ⟨b,
          { p with
            event_queue := some { buffer := b, msg_size := SIZEOF_EVENT,
                                  max_msgs := p.event_queue_len,
                                  read_idx := 0, write_idx := 0, count := 0 },
            format := { sample_rate := 0, channels := AUDIO_PIPELINE_CHANNELS,
                        valid_bits_per_sample := 0,
                        format := audio_sample_format.AUDIO_SAMPLE_FORMAT_S32_LE },
            initialized := true, thread_started := false, running := false,
            playing := false, stop_request := false },
          { buffer := b, msg_size := SIZEOF_EVENT, max_msgs := p.event_queue_len,
            read_idx := 0, write_idx := 0, count := 0 }, rfl, ?_⟩
        have hk : (k_msgq_init (some q) (some b) SIZEOF_EVENT p.event_queue_len)
            = (0, some { buffer := b, msg_size := SIZEOF_EVENT,
                         max_msgs := p.event_queue_len,
                         read_idx := 0, write_idx := 0, count := 0 }) := by
          simp [k_msgq_init, hl, SIZEOF_EVENT]
        simp only [audio_pipeline_init, hq', hb', hk]
        simp [hi, AUDIO_PIPELINE_CHANNELS]

/-- Witness of C7: the pipeline `AUDIO_PIPELINE_DEFINE` declares is
initialised with a queue of capacity 8; a second call on the result is
refused and changes nothing. -/
theorem audio_pipeline_init_spec_witness :
    (∃ b p1 q1, (AUDIO_PIPELINE_DEFINE 4).event_buffer = some b ∧
      audio_pipeline_init (some (AUDIO_PIPELINE_DEFINE 4)) = (0, some p1) ∧
      p1.initialized = true ∧ p1.thread_started = false ∧ p1.running = false ∧
      p1.playing = false ∧ p1.stop_request = false ∧
      p1.format = { sample_rate := 0, channels := 2, valid_bits_per_sample := 0,
                    format := audio_sample_format.AUDIO_SAMPLE_FORMAT_S32_LE } ∧
      p1.event_queue = some q1 ∧ q1.count = 0 ∧
      q1.max_msgs = (AUDIO_PIPELINE_DEFINE 4).event_queue_len ∧
      q1.read_idx = 0 ∧ q1.write_idx = 0 ∧ q1.buffer = b ∧
      p1.source = (AUDIO_PIPELINE_DEFINE 4).source ∧
      p1.sink = (AUDIO_PIPELINE_DEFINE 4).sink ∧
      p1.filters = (AUDIO_PIPELINE_DEFINE 4).filters ∧
      p1.filter_count = (AUDIO_PIPELINE_DEFINE 4).filter_count ∧
      p1.frame_capacity = (AUDIO_PIPELINE_DEFINE 4).frame_capacity ∧
      p1.event_buffer = (AUDIO_PIPELINE_DEFINE 4).event_buffer ∧
      p1.event_queue_len = (AUDIO_PIPELINE_DEFINE 4).event_queue_len) ∧
    (AUDIO_PIPELINE_DEFINE 4).event_queue_len = 8 :=
  ⟨(audio_pipeline_init_spec (AUDIO_PIPELINE_DEFINE 4)).2 (by simp [AUDIO_PIPELINE_DEFINE,
      AUDIO_PIPELINE_EVENT_QUEUE_LEN]), rfl⟩

/-! ## Theorems: start and join -/

theorem invoke_open_cases {W : Type} (m : Mem W) (node : Option Nat) :
    (has_open m node = false ∧ invoke_open m node = (0, m)) ∨
    (has_open m node = true ∧ ∃ a ret, node = some a ∧ (invoke_open m node).1 = ret ∧
      (invoke_open m node).2.trace = m.trace ++ [NodeCall.opened a ret] ∧
      (invoke_open m node).2.nodes = m.nodes ∧
      (invoke_open m node).2.threads = m.threads) := by
  cases node with
  | none => exact Or.inl ⟨rfl, rfl⟩
  | some a =>
    cases hops : (m.nodes a).ops with
    | none =>
      left
      simp [has_open, invoke_open, hops]
    | some ops =>
      cases hf : ops.open_fn with
      | none =>
        left
        simp [has_open, invoke_open, hops, hf]
      | some f =>
        right
        refine ⟨by simp [has_open, hops, hf], a, (f a m.world).1, rfl, ?_, ?_, ?_, ?_⟩ <;>
          simp [invoke_open, hops, hf]

theorem has_open_congr {W : Type} (m m1 : Mem W) (h : m1.nodes = m.nodes) :
    has_open m1 = has_open m := by
  funext node
  cases node with
  | none => rfl
  | some a => simp [has_open, h]

theorem open_in_order_calls {W : Type} (l : List (Option Nat)) :
    ∀ (m : Mem W), ∃ (oks : List (Nat × Int)) (bad : Option (Nat × Int))
        (rest : List (Option Nat)),
      (∀ c ∈ oks, 0 ≤ c.2) ∧ (∀ c, bad = some c → c.2 < 0) ∧
      l.filter (has_open m) = (oks ++ bad.toList).map (fun c => some c.1) ++ rest ∧
      (open_in_order l m).2.trace
        = m.trace ++ (oks ++ bad.toList).map (fun c => NodeCall.opened c.1 c.2) ∧
      (∀ c, bad = some c → (open_in_order l m).1 = c.2) ∧
      (bad = none → rest = [] ∧ (open_in_order l m).1 = 0) ∧
      (open_in_order l m).2.nodes = m.nodes ∧
      (open_in_order l m).2.threads = m.threads := by
  induction l with
  | nil =>
    intro m
    exact ⟨[], none, [], by simp, by simp, by simp, by simp [open_in_order],
      by simp, by simp [open_in_order], rfl, rfl⟩
  | cons node l ih =>
    intro m
    rcases invoke_open_cases m node with ⟨hno, heq⟩ | ⟨hyes, a, ret, hnode, hret, htr, hnodes, hth⟩
    · obtain ⟨oks, bad, rest, h1, h2, h3, h4, h5, h6, h7, h8⟩ := ih m
      have hstep : open_in_order (node :: l) m = open_in_order l m := by
        simp [open_in_order, heq]
      refine ⟨oks, bad, rest, h1, h2, ?_, ?_, ?_, ?_, ?_, ?_⟩
      · simp [List.filter, hno, h3]
      · rw [hstep]; exact h4
      · rw [hstep]; exact h5
      · rw [hstep]; exact h6
      · rw [hstep]; exact h7
      · rw [hstep]; exact h8
    · subst hnode
      by_cases hneg : ret < 0
      · have hstep : open_in_order (some a :: l) m = invoke_open m (some a) := by
          simp [open_in_order, hret, hneg]
        refine ⟨[], some (a, ret), l.filter (has_open m), by simp, ?_, ?_, ?_, ?_, by simp,
          ?_, ?_⟩
        · intro c hc
          cases hc
          exact hneg
        · simp [List.filter_cons, hyes]
        · rw [hstep, htr]; simp
        · intro c hc
          cases hc
          rw [hstep]; exact hret
        · rw [hstep]; exact hnodes
        · rw [hstep]; exact hth
      · have hstep : open_in_order (some a :: l) m
            = open_in_order l (invoke_open m (some a)).2 := by
          simp [open_in_order, hret, hneg]
        obtain ⟨oks, bad, rest, h1, h2, h3, h4, h5, h6, h7, h8⟩ :=
          ih (invoke_open m (some a)).2
        rw [has_open_congr _ _ hnodes] at h3
        refine ⟨(a, ret) :: oks, bad, rest, ?_, h2, ?_, ?_, ?_, ?_, ?_, ?_⟩
        · intro c hc
          rcases List.mem_cons.1 hc with rfl | hc
          · exact Int.not_lt.1 hneg
          · exact h1 c hc
        · simp [List.filter_cons, hyes, h3]
        · rw [hstep, h4, htr]; simp
        · rw [hstep]; exact h5
        · rw [hstep]; exact h6
        · rw [hstep, h7, hnodes]
        · rw [hstep, h8, hth]

theorem open_in_order_append {W : Type} (l1 l2 : List (Option Nat)) :
    ∀ (m : Mem W), open_in_order (l1 ++ l2) m =
      if (open_in_order l1 m).1 < 0 then open_in_order l1 m
      else open_in_order l2 (open_in_order l1 m).2 := by
  induction l1 with
  | nil =>
    intro m
    simp [open_in_order]
  | cons node l1 ih =>
    intro m
    by_cases h : (invoke_open m node).1 < 0
    · simp [open_in_order, h]
    · simp [open_in_order, h, ih]

theorem open_filters_loop_eq {W : Type} (f : Nat → Option Nat) (n : Nat) :
    ∀ (i : Nat) (m : Mem W),
      open_filters_loop f i n m = open_in_order ((List.range' i n).map f) m := by
  induction n with
  | zero =>
    intro i m
    rfl
  | succ n ih =>
    intro i m
    by_cases h : (invoke_open m (f i)).1 < 0
    · simp [open_filters_loop, open_in_order, List.range', h]
    · simp [open_filters_loop, open_in_order, List.range', h, ih]

theorem open_in_order_code_nonpos {W : Type} (l : List (Option Nat)) (m : Mem W) :
    ¬ (open_in_order l m).1 < 0 → (open_in_order l m).1 = 0 := by
  intro h
  obtain ⟨oks, bad, rest, _, h2, _, _, h5, h6, _, _⟩ := open_in_order_calls l m
  cases hb : bad with
  | none => exact (h6 hb).2
  | some c =>
    have := h5 c hb
    have := h2 c hb
    omega

theorem audio_pipeline_open_nodes_eq {W : Type} (p : audio_pipeline) (m : Mem W) :
    audio_pipeline_open_nodes p m = open_in_order (chain_top_down p) m := by
  have hchain : chain_top_down p = [p.source] ++ ((match p.filters with
      | none => []
      | some f => (List.range' 0 p.filter_count).map f) ++ [p.sink]) := by
    simp [chain_top_down, List.range_eq_range']
  rw [hchain, open_in_order_append, open_in_order_append]
  have hsingle : ∀ (node : Option Nat) (m0 : Mem W),
      open_in_order [node] m0 = if (invoke_open m0 node).1 < 0 then invoke_open m0 node
        else (0, (invoke_open m0 node).2) := by
    intro node m0
    simp [open_in_order]
  have hfil : (match p.filters with
      | none => ((0 : Int), (invoke_open m p.source).2)
      | some f => open_filters_loop f 0 p.filter_count (invoke_open m p.source).2)
      = open_in_order (match p.filters with
          | none => []
          | some f => (List.range' 0 p.filter_count).map f) (invoke_open m p.source).2 := by
    cases p.filters with
    | none => rfl
    | some f => exact open_filters_loop_eq f p.filter_count 0 _
  simp only [audio_pipeline_open_nodes, hfil, hsingle]
  by_cases h1 : (invoke_open m p.source).1 < 0
  · simp [h1]
  · simp only [h1, if_false]
    split <;> rfl

/-- C8: on an initialised, not yet started pipeline with source and sink set,
the `open` calls `audio_pipeline_start` makes are a leading segment of the
chain nodes that have an `open`, in the order source, filters by ascending
index, sink, and nothing else is called; every call but the last returned a
non-negative code; if the last one returned a negative code, `start` returns
exactly that code, the nodes after it stay unopened, no worker is created and
the pipeline record is unchanged, so `thread_started` and `running` are still
false; if no call returned a negative code, every such node was opened. -/
theorem start_opens_top_down {W : Type} (p : audio_pipeline) (m : Mem W) (create_ret : Int)
    (hinit : p.initialized = true) (hns : p.thread_started = false)
    (hnr : p.running = false) (hsrc : p.source ≠ none) (hsnk : p.sink ≠ none) :
    ∃ (oks : List (Nat × Int)) (bad : Option (Nat × Int)) (rest : List (Option Nat)),
      (∀ c ∈ oks, 0 ≤ c.2) ∧ (∀ c, bad = some c → c.2 < 0) ∧
      (chain_top_down p).filter (has_open m)
        = (oks ++ bad.toList).map (fun c => some c.1) ++ rest ∧
      (audio_pipeline_start (some p) m create_ret).2.2.trace
        = m.trace ++ (oks ++ bad.toList).map (fun c => NodeCall.opened c.1 c.2) ∧
      (∀ c, bad = some c →
        (audio_pipeline_start (some p) m create_ret).1 = c.2 ∧
        (audio_pipeline_start (some p) m create_ret).2.2.threads = m.threads ∧
        ∃ p1, (audio_pipeline_start (some p) m create_ret).2.1 = some p1 ∧ p1 = p ∧
          p1.thread_started = false ∧ p1.running = false) ∧
      (bad = none → rest = []) := by
  obtain ⟨oks, bad, rest, h1, h2, h3, h4, h5, h6, _, h8⟩ :=
    open_in_order_calls (chain_top_down p) m
  have hs : p.source.isNone = false := by
    cases h : p.source with
    | none => exact absurd h hsrc
    | some _ => rfl
  have hk : p.sink.isNone = false := by
    cases h : p.sink with
    | none => exact absurd h hsnk
    | some _ => rfl
  refine ⟨oks, bad, rest, h1, h2, h3, ?_, ?_, fun hb => (h6 hb).1⟩
  · simp only [audio_pipeline_start, hinit, hs, hk, hns, audio_pipeline_open_nodes_eq]
    by_cases hneg : (open_in_order (chain_top_down p) m).1 < 0
    · simp [hneg, h4]
    · by_cases hc : create_ret = 0
      · simp [hneg, hc, h4]
      · simp [hneg, hc, h4]
  · intro c hc
    have hcode := h5 c hc
    have hneg : (open_in_order (chain_top_down p) m).1 < 0 := by
      rw [hcode]; exact h2 c hc
    have hc2 : c.2 < 0 := h2 c hc
    simp only [audio_pipeline_start, hinit, hs, hk, audio_pipeline_open_nodes_eq]
    simp [hcode, hc2, h8, hns, hnr]

/-- Witness of C8: the `open` of the second filter (node 2) returns `-5`; the
source and the first filter were opened before it, the sink is not opened,
`start` returns `-5` and creates no worker. -/
theorem start_opens_top_down_witness :
    (∃ (oks : List (Nat × Int)) (bad : Option (Nat × Int)) (rest : List (Option Nat)),
      (∀ c ∈ oks, 0 ≤ c.2) ∧ (∀ c, bad = some c → c.2 < 0) ∧
      (chain_top_down ((assembled (four_nodes_failing 2 (-5))).1.getD
          (AUDIO_PIPELINE_DEFINE 4))).filter (has_open (assembled (four_nodes_failing 2 (-5))).2)
        = (oks ++ bad.toList).map (fun c => some c.1) ++ rest ∧
      (audio_pipeline_start (some ((assembled (four_nodes_failing 2 (-5))).1.getD
          (AUDIO_PIPELINE_DEFINE 4))) (assembled (four_nodes_failing 2 (-5))).2 0).2.2.trace
        = (assembled (four_nodes_failing 2 (-5))).2.trace
          ++ (oks ++ bad.toList).map (fun c => NodeCall.opened c.1 c.2) ∧
      (∀ c, bad = some c →
        (audio_pipeline_start (some ((assembled (four_nodes_failing 2 (-5))).1.getD
          (AUDIO_PIPELINE_DEFINE 4))) (assembled (four_nodes_failing 2 (-5))).2 0).1 = c.2 ∧
        (audio_pipeline_start (some ((assembled (four_nodes_failing 2 (-5))).1.getD
          (AUDIO_PIPELINE_DEFINE 4))) (assembled (four_nodes_failing 2 (-5))).2 0).2.2.threads
          = (assembled (four_nodes_failing 2 (-5))).2.threads ∧
        ∃ p1, (audio_pipeline_start (some ((assembled (four_nodes_failing 2 (-5))).1.getD
          (AUDIO_PIPELINE_DEFINE 4))) (assembled (four_nodes_failing 2 (-5))).2 0).2.1 = some p1 ∧
          p1 = (assembled (four_nodes_failing 2 (-5))).1.getD (AUDIO_PIPELINE_DEFINE 4) ∧
          p1.thread_started = false ∧ p1.running = false) ∧
      (bad = none → rest = [])) ∧
    (audio_pipeline_start (assembled (four_nodes_failing 2 (-5))).1
        (assembled (four_nodes_failing 2 (-5))).2 0).1 = -5 ∧
    (audio_pipeline_start (assembled (four_nodes_failing 2 (-5))).1
        (assembled (four_nodes_failing 2 (-5))).2 0).2.2.trace
      = [NodeCall.opened 0 0, NodeCall.opened 1 0, NodeCall.opened 2 (-5)] ∧
    (audio_pipeline_start (assembled (four_nodes_failing 2 (-5))).1
        (assembled (four_nodes_failing 2 (-5))).2 0).2.2.threads = 0 :=
  ⟨start_opens_top_down _ _ 0 (by decide) (by decide) (by decide) (by decide) (by decide),
    by decide, by decide, by decide⟩

/-- C9, the code at the failing input: on the started pipeline (source node 0,
filters nodes 1 and 2, sink node 3, worker running) a second
`audio_pipeline_start` returns `0` and creates no second worker, but it calls
`open` on all four nodes again and so changes the world the nodes own; when
the `open` of node 2 returns `-5` the second `start` returns `-5`, not
success. -/
theorem start_on_started_reopens_nodes :
    ((started four_nodes).1.map (fun p => (p.initialized, p.thread_started, p.running)))
      = some (true, true, true) ∧
    (started four_nodes).2.trace
      = [NodeCall.opened 0 0, NodeCall.opened 1 0, NodeCall.opened 2 0,
         NodeCall.opened 3 0] ∧
    (started four_nodes).2.world = 4 ∧ (started four_nodes).2.threads = 1 ∧
    (audio_pipeline_start (started four_nodes).1 (started four_nodes).2 0).1 = 0 ∧
    (audio_pipeline_start (started four_nodes).1 (started four_nodes).2 0).2.2.threads = 1 ∧
    (audio_pipeline_start (started four_nodes).1 (started four_nodes).2 0).2.2.trace
      = (started four_nodes).2.trace ++
        [NodeCall.opened 0 0, NodeCall.opened 1 0, NodeCall.opened 2 0,
         NodeCall.opened 3 0] ∧
    (audio_pipeline_start (started four_nodes).1 (started four_nodes).2 0).2.2.world = 8 ∧
    (audio_pipeline_start (started four_nodes).1
      { (started four_nodes).2 with nodes := (four_nodes_failing 2 (-5)).nodes } 0).1 = -5 := by
  refine ⟨?_, ?_, ?_, ?_, ?_, ?_, ?_, ?_, ?_⟩ <;> decide

/-- C10, the code at the failing input: on the started pipeline with the two
filters node 1 and node 2, `audio_pipeline_join` returns `0` and calls `close`
on the sink (node 3), then on the filters by ascending index (node 1, then
node 2), then on the source (node 0); the filters are not closed in reverse
order. -/
theorem join_closes_filters_ascending :
    (audio_pipeline_join (started four_nodes).1 (started four_nodes).2
        worker_position.waiting).map (fun r => (r.1, r.2.2.trace))
      = some (0, (started four_nodes).2.trace ++
          [NodeCall.closed 3 0, NodeCall.closed 1 0, NodeCall.closed 2 0,
           NodeCall.closed 0 0]) ∧
    (started four_nodes).2.trace ++
          [NodeCall.closed 3 0, NodeCall.closed 1 0, NodeCall.closed 2 0,
           NodeCall.closed 0 0]
      ≠ (started four_nodes).2.trace ++
          [NodeCall.closed 3 0, NodeCall.closed 2 0, NodeCall.closed 1 0,
           NodeCall.closed 0 0] := by
  refine ⟨?_, ?_⟩ <;> decide

/-! ## Theorems: closing the nodes in `join` -/

theorem invoke_close_cases {W : Type} (m : Mem W) (node : Option Nat) :
    (has_close m node = false ∧ invoke_close m node = m) ∨
    (has_close m node = true ∧ ∃ a ret, node = some a ∧
      (invoke_close m node).trace = m.trace ++ [NodeCall.closed a ret] ∧
      (invoke_close m node).nodes = m.nodes ∧
      (invoke_close m node).threads = m.threads) := by
  cases node with
  | none => exact Or.inl ⟨rfl, rfl⟩
  | some a =>
    cases hops : (m.nodes a).ops with
    | none =>
      left
      simp [has_close, invoke_close, hops]
    | some ops =>
      cases hf : ops.close_fn with
      | none =>
        left
        simp [has_close, invoke_close, hops, hf]
      | some f =>
        right
        refine ⟨by simp [has_close, hops, hf], a, (f a m.world).1, rfl, ?_, ?_, ?_⟩ <;>
          simp [invoke_close, hops, hf]

theorem has_close_congr {W : Type} (m m1 : Mem W) (h : m1.nodes = m.nodes) :
    has_close m1 = has_close m := by
  funext node
  cases node with
  | none => rfl
  | some a => simp [has_close, h]

theorem close_in_order_calls {W : Type} (l : List (Option Nat)) :
    ∀ (m : Mem W), ∃ (calls : List (Nat × Int)),
      calls.map (fun c => some c.1) = l.filter (has_close m) ∧
      (close_in_order l m).trace = m.trace ++ calls.map (fun c => NodeCall.closed c.1 c.2) ∧
      (close_in_order l m).nodes = m.nodes ∧
      (close_in_order l m).threads = m.threads := by
  induction l with
  | nil =>
    intro m
    exact ⟨[], by simp, by simp [close_in_order], rfl, rfl⟩
  | cons node l ih =>
    intro m
    rcases invoke_close_cases m node with ⟨hno, heq⟩ | ⟨hyes, a, ret, hnode, htr, hnodes, hth⟩
    · obtain ⟨calls, h1, h2, h3, h4⟩ := ih m
      refine ⟨calls, ?_, ?_, ?_, ?_⟩
      · simp [List.filter_cons, hno, h1]
      · simp only [close_in_order, heq]; exact h2
      · simp only [close_in_order, heq]; exact h3
      · simp only [close_in_order, heq]; exact h4
    · subst hnode
      obtain ⟨calls, h1, h2, h3, h4⟩ := ih (invoke_close m (some a))
      rw [has_close_congr _ _ hnodes] at h1
      refine ⟨(a, ret) :: calls, ?_, ?_, ?_, ?_⟩
      · simp [List.filter_cons, hyes, h1]
      · simp only [close_in_order]
        rw [h2, htr]; simp
      · simp only [close_in_order]
        rw [h3, hnodes]
      · simp only [close_in_order]
        rw [h4, hth]

theorem close_in_order_append {W : Type} (l1 l2 : List (Option Nat)) :
    ∀ (m : Mem W), close_in_order (l1 ++ l2) m = close_in_order l2 (close_in_order l1 m) := by
  induction l1 with
  | nil => intro m; rfl
  | cons node l1 ih =>
    intro m
    simp [close_in_order, ih]

theorem close_filters_loop_eq {W : Type} (f : Nat → Option Nat) (n : Nat) :
    ∀ (i : Nat) (m : Mem W),
      close_filters_loop f i n m = close_in_order ((List.range' i n).map f) m := by
  induction n with
  | zero => intro i m; rfl
  | succ n ih =>
    intro i m
    simp [close_filters_loop, close_in_order, List.range', ih]

theorem audio_pipeline_close_nodes_eq {W : Type} (p : audio_pipeline) (m : Mem W) :
    audio_pipeline_close_nodes p m = close_in_order (chain_close_order p) m := by
  have hchain : chain_close_order p = [p.sink] ++ ((match p.filters with
      | none => []
      | some f => (List.range' 0 p.filter_count).map f) ++ [p.source]) := by
    simp [chain_close_order, List.range_eq_range']
  rw [hchain, close_in_order_append, close_in_order_append]
  simp only [audio_pipeline_close_nodes, close_in_order]
  cases p.filters with
  | none => rfl
  | some f => simp only [close_filters_loop_eq]

theorem k_msgq_put_no_wait_returns {α : Type} (q : Option (k_msgq α)) (d : α) :
    ∃ code q1, k_msgq_put q (some d) K_NO_WAIT [] = some (code, q1) := by
  cases q with
  | none => exact ⟨-EINVAL, none, rfl⟩
  | some q0 =>
    by_cases hfull : q0.count = q0.max_msgs
    · exact ⟨-EAGAIN, some q0, by simp [k_msgq_put, k_msgq_wait_common, hfull, EAGAIN]⟩
    · exact ⟨0, some { q0 with
          buffer := fun i => if i = q0.write_idx then d else q0.buffer i,
          write_idx := ((q0.write_idx + 1) % SIZE_MOD) % q0.max_msgs,
          count := (q0.count + 1) % SIZE_MOD }, by simp [k_msgq_put, hfull]⟩

theorem audio_pipeline_step_error {W : Type} (p : audio_pipeline) (m : Mem W) (s : Nat)
    (ops : audio_node_ops W) (f : Nat → Nat → Nat → W → Int × Nat × W)
    (hs : p.sink = some s) (hops : (m.nodes s).ops = some ops) (hf : ops.process_fn = some f)
    (hneg : (f s p.frame_capacity 0 m.world).1 < 0) :
    ∃ code q1,
      k_msgq_put p.event_queue
        (some { type := audio_pipeline_event_type.AUDIO_PIPELINE_EVENT_ERROR,
                error := int_cast (f s p.frame_capacity 0 m.world).1 }) K_NO_WAIT []
        = some (code, q1) ∧
      audio_pipeline_step p m = some (-1, { p with event_queue := q1 },
        { m with world := (f s p.frame_capacity 0 m.world).2.2,
                 trace := m.trace ++ [NodeCall.processed s (f s p.frame_capacity 0 m.world).1
                   (f s p.frame_capacity 0 m.world).2.1] }) := by
  obtain ⟨code, q1, hput⟩ := k_msgq_put_no_wait_returns p.event_queue
    ({ type := audio_pipeline_event_type.AUDIO_PIPELINE_EVENT_ERROR,
       error := int_cast (f s p.frame_capacity 0 m.world).1 } : audio_pipeline_event)
  refine ⟨code, q1, hput, ?_⟩
  simp only [audio_pipeline_step, hs, hops, hf, audio_pipeline_enqueue_event, hput, hneg,
    if_true]

theorem audio_pipeline_step_eof {W : Type} (p : audio_pipeline) (m : Mem W) (s : Nat)
    (ops : audio_node_ops W) (f : Nat → Nat → Nat → W → Int × Nat × W)
    (hs : p.sink = some s) (hops : (m.nodes s).ops = some ops) (hf : ops.process_fn = some f)
    (hnn : ¬ (f s p.frame_capacity 0 m.world).1 < 0)
    (hz : (f s p.frame_capacity 0 m.world).2.1 = 0) :
    ∃ code q1,
      k_msgq_put p.event_queue
        (some { type := audio_pipeline_event_type.AUDIO_PIPELINE_EVENT_EOF, error := 0 })
        K_NO_WAIT [] = some (code, q1) ∧
      audio_pipeline_step p m = some (1, { p with event_queue := q1 },
        { m with world := (f s p.frame_capacity 0 m.world).2.2,
                 trace := m.trace ++ [NodeCall.processed s (f s p.frame_capacity 0 m.world).1
                   (f s p.frame_capacity 0 m.world).2.1] }) := by
  obtain ⟨code, q1, hput⟩ := k_msgq_put_no_wait_returns p.event_queue
    ({ type := audio_pipeline_event_type.AUDIO_PIPELINE_EVENT_EOF,
       error := 0 } : audio_pipeline_event)
  refine ⟨code, q1, hput, ?_⟩
  simp only [audio_pipeline_step, hs, hops, hf, audio_pipeline_enqueue_event, hput, hnn, hz,
    if_true, if_false]

theorem audio_pipeline_step_data {W : Type} (p : audio_pipeline) (m : Mem W) (s : Nat)
    (ops : audio_node_ops W) (f : Nat → Nat → Nat → W → Int × Nat × W)
    (hs : p.sink = some s) (hops : (m.nodes s).ops = some ops) (hf : ops.process_fn = some f)
    (hnn : ¬ (f s p.frame_capacity 0 m.world).1 < 0)
    (hz : (f s p.frame_capacity 0 m.world).2.1 ≠ 0) :
    audio_pipeline_step p m = some (0, p,
        { m with world := (f s p.frame_capacity 0 m.world).2.2,
                 trace := m.trace ++ [NodeCall.processed s (f s p.frame_capacity 0 m.world).1
                   (f s p.frame_capacity 0 m.world).2.1] }) := by
  simp only [audio_pipeline_step, hs, hops, hf, hnn, hz, if_false]

theorem audio_pipeline_step_frame {W : Type} (p : audio_pipeline) (m : Mem W) (c : Int)
    (p1 : audio_pipeline) (m1 : Mem W) (h : audio_pipeline_step p m = some (c, p1, m1)) :
    (p1.source = p.source ∧ p1.sink = p.sink ∧ p1.filters = p.filters ∧
      p1.filter_count = p.filter_count) ∧
    (p1.initialized = p.initialized ∧ p1.thread_started = p.thread_started ∧
      p1.running = p.running ∧ p1.playing = p.playing ∧
      p1.stop_request = p.stop_request) ∧
    m1.nodes = m.nodes ∧ m1.threads = m.threads := by
  cases hs : p.sink with
  | none => simp [audio_pipeline_step, hs] at h
  | some s =>
    cases hops : (m.nodes s).ops with
    | none => simp [audio_pipeline_step, hs, hops] at h
    | some ops =>
      cases hf : ops.process_fn with
      | none => simp [audio_pipeline_step, hs, hops, hf] at h
      | some f =>
        by_cases hneg : (f s p.frame_capacity 0 m.world).1 < 0
        · obtain ⟨code, q1, _, hstep⟩ := audio_pipeline_step_error p m s ops f hs hops hf hneg
          rw [hstep] at h
          simp only [Option.some.injEq, Prod.mk.injEq] at h
          obtain ⟨_, rfl, rfl⟩ := h
          exact ⟨⟨rfl, hs, rfl, rfl⟩, ⟨rfl, rfl, rfl, rfl, rfl⟩, rfl, rfl⟩
        · by_cases hz : (f s p.frame_capacity 0 m.world).2.1 = 0
          · obtain ⟨code, q1, _, hstep⟩ :=
              audio_pipeline_step_eof p m s ops f hs hops hf hneg hz
            rw [hstep] at h
            simp only [Option.some.injEq, Prod.mk.injEq] at h
            obtain ⟨_, rfl, rfl⟩ := h
            exact ⟨⟨rfl, hs, rfl, rfl⟩, ⟨rfl, rfl, rfl, rfl, rfl⟩, rfl, rfl⟩
          · have hstep := audio_pipeline_step_data p m s ops f hs hops hf hneg hz
            rw [hstep] at h
            simp only [Option.some.injEq, Prod.mk.injEq] at h
            obtain ⟨_, rfl, rfl⟩ := h
            exact ⟨⟨rfl, hs, rfl, rfl⟩, ⟨rfl, rfl, rfl, rfl, rfl⟩, rfl, rfl⟩

theorem audio_pipeline_thread_exit_frame {W : Type} (p : audio_pipeline) (m : Mem W)
    (pos : worker_position) (p2 : audio_pipeline) (m2 : Mem W)
    (h : audio_pipeline_thread_exit p m pos = some (p2, m2)) :
    (p2.source = p.source ∧ p2.sink = p.sink ∧ p2.filters = p.filters ∧
      p2.filter_count = p.filter_count) ∧
    (p2.initialized = p.initialized ∧ p2.thread_started = p.thread_started ∧
      p2.running = false ∧ p2.stop_request = p.stop_request) ∧
    (p.playing = false → p2.playing = false) ∧
    (pos = worker_position.waiting → p2.playing = p.playing ∧ m2 = m) ∧
    m2.nodes = m.nodes ∧ m2.threads = m.threads := by
  cases pos with
  | waiting =>
    simp only [audio_pipeline_thread_exit, Option.some.injEq, Prod.mk.injEq] at h
    obtain ⟨rfl, rfl⟩ := h
    exact ⟨⟨rfl, rfl, rfl, rfl⟩, ⟨rfl, rfl, rfl, rfl⟩, fun h => h, fun _ => ⟨rfl, rfl⟩,
      rfl, rfl⟩
  | in_step =>
    cases hstep : audio_pipeline_step p m with
    | none => simp [audio_pipeline_thread_exit, hstep] at h
    | some r =>
      obtain ⟨c, p1, m1⟩ := r
      obtain ⟨⟨h1, h2, h3, h4⟩, ⟨h5, h6, _, h8, h9⟩, h10, h11⟩ :=
        audio_pipeline_step_frame p m c p1 m1 hstep
      simp only [audio_pipeline_thread_exit, hstep, Option.some.injEq, Prod.mk.injEq] at h
      obtain ⟨rfl, rfl⟩ := h
      refine ⟨⟨h1, h2, h3, h4⟩, ⟨h5, h6, rfl, h9⟩, ?_, ?_, h10, h11⟩
      · intro hp
        show (if c ≠ 0 then false else p1.playing) = false
        rw [h8, hp]
        simp
      · intro hpos
        cases hpos

/-- C11 as stated fails: on the started pipeline whose sink (node 3) has a
`close` that returns `-5`, `audio_pipeline_join` closes all four nodes and
returns `0`, not the first close error `-5`. -/
theorem join_ignores_close_errors_counterexample :
    (audio_pipeline_join (started (four_nodes_close_failing 3 (-5))).1
        (started (four_nodes_close_failing 3 (-5))).2
        worker_position.waiting).map (fun r => (r.1, r.2.2.trace))
      = some (0, [NodeCall.opened 0 0, NodeCall.opened 1 0, NodeCall.opened 2 0,
          NodeCall.opened 3 0, NodeCall.closed 3 (-5), NodeCall.closed 1 0,
          NodeCall.closed 2 0, NodeCall.closed 0 0]) ∧
    (0 : Int) ≠ -5 := by
  refine ⟨?_, ?_⟩ <;> decide

/-- C11 amended: on every started pipeline, once the worker has ended
(`p2`, `m2` being the pipeline and memory it leaves), `audio_pipeline_join`
makes exactly one `close` call for every position of the chain (sink,
filters, source) whose node has a `close`, whatever the earlier calls
returned, makes no other call, clears `thread_started` and returns `0`
whatever the `close` calls returned. -/
theorem join_closes_every_node_returns_zero {W : Type} (p : audio_pipeline) (m : Mem W)
    (pos : worker_position) (hst : p.thread_started = true)
    (p2 : audio_pipeline) (m2 : Mem W)
    (hw : (if p.running then audio_pipeline_thread_exit { p with stop_request := true } m pos
           else some ({ p with stop_request := true }, m)) = some (p2, m2)) :
    ∃ (calls : List (Nat × Int)) (m3 : Mem W),
      audio_pipeline_join (some p) m pos
        = some (0, some { p2 with thread_started := false }, m3) ∧
      calls.map (fun c => some c.1) = (chain_close_order p).filter (has_close m) ∧
      m3.trace = m2.trace ++ calls.map (fun c => NodeCall.closed c.1 c.2) ∧
      m3.threads = m.threads := by
  have hframe : (p2.source = p.source ∧ p2.sink = p.sink ∧ p2.filters = p.filters ∧
      p2.filter_count = p.filter_count) ∧ m2.nodes = m.nodes ∧ m2.threads = m.threads := by
    by_cases hr : p.running = true
    · rw [if_pos hr] at hw
      obtain ⟨h1, _, _, _, h5, h6⟩ := audio_pipeline_thread_exit_frame _ m pos p2 m2 hw
      exact ⟨h1, h5, h6⟩
    · rw [if_neg hr] at hw
      simp only [Option.some.injEq, Prod.mk.injEq] at hw
      obtain ⟨rfl, rfl⟩ := hw
      exact ⟨⟨rfl, rfl, rfl, rfl⟩, rfl, rfl⟩
  obtain ⟨⟨h1, h2, h3, h4⟩, h5, h6⟩ := hframe
  have hchain : chain_close_order p2 = chain_close_order p := by
    simp only [chain_close_order, h1, h2, h3, h4]
  obtain ⟨calls, hc1, hc2, _, hc4⟩ := close_in_order_calls (chain_close_order p2) m2
  refine ⟨calls, audio_pipeline_close_nodes p2 m2, ?_, ?_, ?_, ?_⟩
  · have hw1 := hw
    simp only [hst] at hw1
    simp only [audio_pipeline_join, hst, hw1]
    rfl
  · rw [hc1, hchain, has_close_congr _ _ h5]
  · rw [audio_pipeline_close_nodes_eq]
    exact hc2
  · rw [audio_pipeline_close_nodes_eq, hc4, h6]

/-- Witness of the amended C11: the started pipeline whose sink returns `-5`
from `close`; all four nodes are closed and `join` returns `0`. -/
theorem join_closes_every_node_returns_zero_witness :
    (∃ (calls : List (Nat × Int)) (m3 : Mem Nat),
      audio_pipeline_join
          (some ((started (four_nodes_close_failing 3 (-5))).1.getD (AUDIO_PIPELINE_DEFINE 4)))
          (started (four_nodes_close_failing 3 (-5))).2 worker_position.waiting
        = some (0, some { ({ ((started (four_nodes_close_failing 3 (-5))).1.getD
                      (AUDIO_PIPELINE_DEFINE 4)) with
                    stop_request := true, running := false } : audio_pipeline) with
                  thread_started := false }, m3) ∧
      calls.map (fun c => some c.1)
        = (chain_close_order ((started (four_nodes_close_failing 3 (-5))).1.getD
              (AUDIO_PIPELINE_DEFINE 4))).filter
            (has_close (started (four_nodes_close_failing 3 (-5))).2) ∧
      m3.trace = (started (four_nodes_close_failing 3 (-5))).2.trace
        ++ calls.map (fun c => NodeCall.closed c.1 c.2) ∧
      m3.threads = (started (four_nodes_close_failing 3 (-5))).2.threads) ∧
    (chain_close_order ((started (four_nodes_close_failing 3 (-5))).1.getD
        (AUDIO_PIPELINE_DEFINE 4))).filter
        (has_close (started (four_nodes_close_failing 3 (-5))).2)
      = [some 3, some 1, some 2, some 0] :=
  ⟨join_closes_every_node_returns_zero
      ((started (four_nodes_close_failing 3 (-5))).1.getD (AUDIO_PIPELINE_DEFINE 4))
      (started (four_nodes_close_failing 3 (-5))).2
      worker_position.waiting (by decide) _ _ rfl, by decide⟩

/-! ## Theorems: the worker's pull -/

theorem k_msgq_put_appends {α : Type} (N : Nat) (hN : N < 2 ^ 64) (q : k_msgq α) (l : List α)
    (d : α) (h : queue_holds N q l) (hroom : l.length < N) :
    ∃ q1, k_msgq_put (some q) (some d) K_NO_WAIT [] = some (0, some q1) ∧
      queue_holds N q1 (l ++ [d]) := by
  obtain ⟨q1, hcall, hholds⟩ := queue_call_put_refines N hN q l d h
  have hne : l.length ≠ N := by omega
  simp only [fifo_call, hne, if_false] at hcall hholds
  refine ⟨q1, ?_, hholds⟩
  obtain ⟨code, qo, hput⟩ := k_msgq_put_no_wait_returns (some q) d
  rw [hput]
  simp only [queue_call, hput] at hcall
  cases qo with
  | none => simp at hcall
  | some q2 =>
    simp only [Option.some.injEq, Prod.mk.injEq] at hcall
    obtain ⟨⟨rfl, _⟩, rfl⟩ := hcall
    rfl

/-- C12 as stated fails for a return value outside the range of `int`: when
the sink's `process` returns `-4294967301` on the playing pipeline, the worker
clears `playing` and the event the controller then gets is
`{ERROR, -5}`; the error field is not the value returned. -/
theorem worker_error_code_truncated_counterexample :
    ((played (four_nodes_pulling (-4294967301) 0)).1.map
        (fun p => (p.playing, p.stop_request))) = some (true, false) ∧
    (audio_pipeline_thread_iteration
        ((played (four_nodes_pulling (-4294967301) 0)).1.getD (AUDIO_PIPELINE_DEFINE 4))
        (played (four_nodes_pulling (-4294967301) 0)).2).map
      (fun r => (r.1, r.2.1.playing, r.2.2.trace.getLast?))
      = some (worker_outcome.pulled (-1), false,
          some (NodeCall.processed 3 (-4294967301) 0)) ∧
    event_after_pass (audio_pipeline_thread_iteration
        ((played (four_nodes_pulling (-4294967301) 0)).1.getD (AUDIO_PIPELINE_DEFINE 4))
        (played (four_nodes_pulling (-4294967301) 0)).2)
      = some (0, some ⟨audio_pipeline_event_type.AUDIO_PIPELINE_EVENT_ERROR, -5⟩) ∧
    (-5 : Int) ≠ -4294967301 := by
  refine ⟨?_, ?_, ?_, ?_⟩ <;> decide

theorem audio_pipeline_thread_iteration_of_step {W : Type} (p : audio_pipeline) (m : Mem W)
    (c : Int) (p1 : audio_pipeline) (m1 : Mem W)
    (hplay : p.playing = true) (hstop : p.stop_request = false)
    (hstep : audio_pipeline_step p m = some (c, p1, m1)) :
    audio_pipeline_thread_iteration p m
      = some (worker_outcome.pulled c,
          { p1 with playing := if c ≠ 0 then false else p1.playing }, m1) := by
  simp [audio_pipeline_thread_iteration, hstop, hplay, hstep]

theorem int_cast_of_int_range (e : Int) (hlo : -2 ^ 31 ≤ e) (hhi : e < 2 ^ 31) :
    int_cast e = e := by
  unfold int_cast
  omega

/-- C12 amended: whenever the sink's `process` returns a negative code `e`
during a worker pull, the worker makes exactly one no-wait put, of the event
`{ERROR, (int)e}`, and no other put, so no EOF event; `(int)e` is `e` itself
whenever `e` is in the range of `int`; the pull's outcome is `-1` and the
worker clears `playing`.  On a queue that holds `l` and has room the queue
holds `l` followed by that event afterwards. -/
theorem worker_pull_error_publishes_error {W : Type} (p : audio_pipeline) (m : Mem W)
    (s : Nat) (ops : audio_node_ops W) (f : Nat → Nat → Nat → W → Int × Nat × W)
    (hs : p.sink = some s) (hops : (m.nodes s).ops = some ops) (hf : ops.process_fn = some f)
    (hplay : p.playing = true) (hstop : p.stop_request = false)
    (hneg : (f s p.frame_capacity 0 m.world).1 < 0) :
    ∃ code q1,
      k_msgq_put p.event_queue
        (some { type := audio_pipeline_event_type.AUDIO_PIPELINE_EVENT_ERROR,
                error := int_cast (f s p.frame_capacity 0 m.world).1 }) K_NO_WAIT []
        = some (code, q1) ∧
      audio_pipeline_thread_iteration p m
        = some (worker_outcome.pulled (-1), { p with event_queue := q1, playing := false },
            { m with world := (f s p.frame_capacity 0 m.world).2.2,
                     trace := m.trace ++ [NodeCall.processed s
                       (f s p.frame_capacity 0 m.world).1
                       (f s p.frame_capacity 0 m.world).2.1] }) ∧
      (-2 ^ 31 ≤ (f s p.frame_capacity 0 m.world).1 →
        int_cast (f s p.frame_capacity 0 m.world).1 = (f s p.frame_capacity 0 m.world).1) ∧
      (∀ (N : Nat) (q : k_msgq audio_pipeline_event) (l : List audio_pipeline_event),
        p.event_queue = some q → queue_holds N q l → l.length < N → N < 2 ^ 64 →
        code = 0 ∧ ∃ q2, q1 = some q2 ∧
          queue_holds N q2 (l ++ [⟨audio_pipeline_event_type.AUDIO_PIPELINE_EVENT_ERROR,
            int_cast (f s p.frame_capacity 0 m.world).1⟩])) := by
  obtain ⟨code, q1, hput, hstep⟩ := audio_pipeline_step_error p m s ops f hs hops hf hneg
  refine ⟨code, q1, hput, ?_, ?_, ?_⟩
  · simp [audio_pipeline_thread_iteration, hstop, hplay, hstep]
  · intro hlo
    exact int_cast_of_int_range _ hlo (by omega)
  · intro N q l hq hholds hroom hN
    obtain ⟨q2, hput2, hholds2⟩ := k_msgq_put_appends N hN q l
      ({ type := audio_pipeline_event_type.AUDIO_PIPELINE_EVENT_ERROR,
         error := int_cast (f s p.frame_capacity 0 m.world).1 } : audio_pipeline_event)
      hholds hroom
    rw [hq, hput2] at hput
    simp only [Option.some.injEq, Prod.mk.injEq] at hput
    obtain ⟨rfl, rfl⟩ := hput
    exact ⟨rfl, q2, rfl, hholds2⟩

/-- Witness of the amended C12: the sink's `process` returns `-5` on the
playing pipeline; the controller then gets the event `{ERROR, -5}`. -/
theorem worker_pull_error_publishes_error_witness :
    (∃ code q1,
      k_msgq_put ((played (four_nodes_pulling (-5) 0)).1.getD (AUDIO_PIPELINE_DEFINE 4)).event_queue
        (some { type := audio_pipeline_event_type.AUDIO_PIPELINE_EVENT_ERROR,
                error := int_cast (-5) }) K_NO_WAIT [] = some (code, q1) ∧
      audio_pipeline_thread_iteration
          ((played (four_nodes_pulling (-5) 0)).1.getD (AUDIO_PIPELINE_DEFINE 4))
          (played (four_nodes_pulling (-5) 0)).2
        = some (worker_outcome.pulled (-1),
            { ((played (four_nodes_pulling (-5) 0)).1.getD (AUDIO_PIPELINE_DEFINE 4)) with
              event_queue := q1, playing := false },
            { (played (four_nodes_pulling (-5) 0)).2 with
              world := (played (four_nodes_pulling (-5) 0)).2.world + 1,
              trace := (played (four_nodes_pulling (-5) 0)).2.trace
                ++ [NodeCall.processed 3 (-5) 0] }) ∧
      (-2 ^ 31 ≤ (-5 : Int) → int_cast (-5) = -5) ∧
      (∀ (N : Nat) (q : k_msgq audio_pipeline_event) (l : List audio_pipeline_event),
        ((played (four_nodes_pulling (-5) 0)).1.getD (AUDIO_PIPELINE_DEFINE 4)).event_queue
          = some q → queue_holds N q l → l.length < N → N < 2 ^ 64 →
        code = 0 ∧ ∃ q2, q1 = some q2 ∧
          queue_holds N q2 (l ++ [⟨audio_pipeline_event_type.AUDIO_PIPELINE_EVENT_ERROR,
            int_cast (-5)⟩]))) ∧
    event_after_pass (audio_pipeline_thread_iteration
        ((played (four_nodes_pulling (-5) 0)).1.getD (AUDIO_PIPELINE_DEFINE 4))
        (played (four_nodes_pulling (-5) 0)).2)
      = some (0, some ⟨audio_pipeline_event_type.AUDIO_PIPELINE_EVENT_ERROR, -5⟩) :=
  ⟨worker_pull_error_publishes_error
      ((played (four_nodes_pulling (-5) 0)).1.getD (AUDIO_PIPELINE_DEFINE 4))
      (played (four_nodes_pulling (-5) 0)).2 3 (pulling_ops (-5) 0)
      (fun _ _ _ w => (-5, 0, w + 1)) rfl rfl rfl rfl rfl (by decide), by decide⟩

/-- C13: whenever the sink's `process` returns a non-negative result with
`*out_size == 0` during a worker pull, the worker makes exactly one no-wait
put, of the event `{EOF, 0}` (on a queue with room the queue holds that event
after the ones it held), and clears `playing`; whenever the result is
non-negative and `*out_size != 0`, the pipeline record, and so the event queue
and `playing`, is left as it was. -/
theorem worker_pull_eof_or_data {W : Type} (p : audio_pipeline) (m : Mem W)
    (s : Nat) (ops : audio_node_ops W) (f : Nat → Nat → Nat → W → Int × Nat × W)
    (hs : p.sink = some s) (hops : (m.nodes s).ops = some ops) (hf : ops.process_fn = some f)
    (hplay : p.playing = true) (hstop : p.stop_request = false)
    (hnn : 0 ≤ (f s p.frame_capacity 0 m.world).1) :
    ((f s p.frame_capacity 0 m.world).2.1 = 0 →
      ∃ code q1,
        k_msgq_put p.event_queue
          (some { type := audio_pipeline_event_type.AUDIO_PIPELINE_EVENT_EOF, error := 0 })
          K_NO_WAIT [] = some (code, q1) ∧
        audio_pipeline_thread_iteration p m
          = some (worker_outcome.pulled 1, { p with event_queue := q1, playing := false },
              { m with world := (f s p.frame_capacity 0 m.world).2.2,
                       trace := m.trace ++ [NodeCall.processed s
                         (f s p.frame_capacity 0 m.world).1
                         (f s p.frame_capacity 0 m.world).2.1] }) ∧
        (∀ (N : Nat) (q : k_msgq audio_pipeline_event) (l : List audio_pipeline_event),
          p.event_queue = some q → queue_holds N q l → l.length < N → N < 2 ^ 64 →
          code = 0 ∧ ∃ q2, q1 = some q2 ∧
            queue_holds N q2 (l ++ [⟨audio_pipeline_event_type.AUDIO_PIPELINE_EVENT_EOF, 0⟩]))) ∧
    ((f s p.frame_capacity 0 m.world).2.1 ≠ 0 →
      audio_pipeline_thread_iteration p m
        = some (worker_outcome.pulled 0, p,
            { m with world := (f s p.frame_capacity 0 m.world).2.2,
                     trace := m.trace ++ [NodeCall.processed s
                       (f s p.frame_capacity 0 m.world).1
                       (f s p.frame_capacity 0 m.world).2.1] })) := by
  have hnn' : ¬ (f s p.frame_capacity 0 m.world).1 < 0 := by omega
  constructor
  · intro hz
    obtain ⟨code, q1, hput, hstep⟩ := audio_pipeline_step_eof p m s ops f hs hops hf hnn' hz
    refine ⟨code, q1, hput, ?_, ?_⟩
    · simp [audio_pipeline_thread_iteration, hstop, hplay, hstep]
    · intro N q l hq hholds hroom hN
      obtain ⟨q2, hput2, hholds2⟩ := k_msgq_put_appends N hN q l
        (⟨audio_pipeline_event_type.AUDIO_PIPELINE_EVENT_EOF, 0⟩ : audio_pipeline_event)
        hholds hroom
      rw [hq, hput2] at hput
      simp only [Option.some.injEq, Prod.mk.injEq] at hput
      obtain ⟨rfl, rfl⟩ := hput
      exact ⟨rfl, q2, rfl, hholds2⟩
  · intro hz
    have hstep := audio_pipeline_step_data p m s ops f hs hops hf hnn' hz
    rw [audio_pipeline_thread_iteration_of_step p m _ _ _ hplay hstop hstep]
    cases p
    simp

/-- Witness of C13: a pull that reports 0 samples leaves `{EOF, 0}` for the
controller and clears `playing`; a pull that reports 4 samples leaves no
event and keeps `playing`. -/
theorem worker_pull_eof_or_data_witness :
    (audio_pipeline_thread_iteration
        ((played (four_nodes_pulling 4 4)).1.getD (AUDIO_PIPELINE_DEFINE 4))
        (played (four_nodes_pulling 4 4)).2
      = some (worker_outcome.pulled 0,
          (played (four_nodes_pulling 4 4)).1.getD (AUDIO_PIPELINE_DEFINE 4),
          { (played (four_nodes_pulling 4 4)).2 with
            world := (played (four_nodes_pulling 4 4)).2.world + 1,
            trace := (played (four_nodes_pulling 4 4)).2.trace
              ++ [NodeCall.processed 3 4 4] })) ∧
    ((played (four_nodes_pulling 4 4)).1.getD (AUDIO_PIPELINE_DEFINE 4)).playing = true ∧
    event_after_pass (audio_pipeline_thread_iteration
        ((played (four_nodes_pulling 4 4)).1.getD (AUDIO_PIPELINE_DEFINE 4))
        (played (four_nodes_pulling 4 4)).2)
      = some (-EAGAIN, some ⟨audio_pipeline_event_type.AUDIO_PIPELINE_EVENT_RECONFIG, 0⟩) ∧
    (audio_pipeline_thread_iteration
        ((played (four_nodes_pulling 0 0)).1.getD (AUDIO_PIPELINE_DEFINE 4))
        (played (four_nodes_pulling 0 0)).2).map (fun r => (r.1, r.2.1.playing))
      = some (worker_outcome.pulled 1, false) ∧
    event_after_pass (audio_pipeline_thread_iteration
        ((played (four_nodes_pulling 0 0)).1.getD (AUDIO_PIPELINE_DEFINE 4))
        (played (four_nodes_pulling 0 0)).2)
      = some (0, some ⟨audio_pipeline_event_type.AUDIO_PIPELINE_EVENT_EOF, 0⟩) :=
  ⟨(worker_pull_eof_or_data
      ((played (four_nodes_pulling 4 4)).1.getD (AUDIO_PIPELINE_DEFINE 4))
      (played (four_nodes_pulling 4 4)).2 3 (pulling_ops 4 4)
      (fun _ _ _ w => (4, 4, w + 1)) rfl rfl rfl rfl rfl (by decide)).2 (by decide),
    by decide, by decide, by decide, by decide⟩

/-- C15: if the event queue is full when a worker pull ends in an error or in
EOF, the pass returns (the worker does not block), the event queue, contents
and count, is as before, the pull's outcome is `-1` or `1`, and `playing` is
cleared; with any other event queue in its place the outcome and the flags
are the same. -/
theorem worker_pull_drops_event_on_full_queue {W : Type} (p : audio_pipeline) (m : Mem W)
    (s : Nat) (ops : audio_node_ops W) (f : Nat → Nat → Nat → W → Int × Nat × W)
    (q : k_msgq audio_pipeline_event)
    (hs : p.sink = some s) (hops : (m.nodes s).ops = some ops) (hf : ops.process_fn = some f)
    (hplay : p.playing = true) (hstop : p.stop_request = false)
    (hq : p.event_queue = some q) (hfull : q.count = q.max_msgs)
    (hend : (f s p.frame_capacity 0 m.world).1 < 0 ∨ (f s p.frame_capacity 0 m.world).2.1 = 0) :
    audio_pipeline_thread_iteration p m
      = some (worker_outcome.pulled (if (f s p.frame_capacity 0 m.world).1 < 0 then -1 else 1),
          { p with playing := false },
          { m with world := (f s p.frame_capacity 0 m.world).2.2,
                   trace := m.trace ++ [NodeCall.processed s
                     (f s p.frame_capacity 0 m.world).1
                     (f s p.frame_capacity 0 m.world).2.1] }) ∧
    ({ p with playing := false } : audio_pipeline).event_queue = some q ∧
    (∀ (q2 : Option (k_msgq audio_pipeline_event)), ∃ q3,
      audio_pipeline_thread_iteration { p with event_queue := q2 } m
        = some (worker_outcome.pulled (if (f s p.frame_capacity 0 m.world).1 < 0 then -1 else 1),
            { p with event_queue := q3, playing := false },
            { m with world := (f s p.frame_capacity 0 m.world).2.2,
                     trace := m.trace ++ [NodeCall.processed s
                       (f s p.frame_capacity 0 m.world).1
                       (f s p.frame_capacity 0 m.world).2.1] })) := by
  have hdrop : ∀ (d : audio_pipeline_event),
      k_msgq_put (some q) (some d) K_NO_WAIT [] = some (-EAGAIN, some q) := by
    intro d
    simp [k_msgq_put, k_msgq_wait_common, hfull, EAGAIN]
  have hsame : ({ p with event_queue := some q } : audio_pipeline) = p := by
    cases p
    simp_all
  refine ⟨?_, hq, ?_⟩
  · by_cases hneg : (f s p.frame_capacity 0 m.world).1 < 0
    · obtain ⟨code, q1, hput, hstep⟩ := audio_pipeline_step_error p m s ops f hs hops hf hneg
      rw [hq, hdrop] at hput
      simp only [Option.some.injEq, Prod.mk.injEq] at hput
      obtain ⟨_, rfl⟩ := hput
      rw [hsame] at hstep
      simp [audio_pipeline_thread_iteration, hstop, hplay, hstep, hneg]
    · have hz : (f s p.frame_capacity 0 m.world).2.1 = 0 := by
        rcases hend with h | h
        · exact absurd h hneg
        · exact h
      obtain ⟨code, q1, hput, hstep⟩ := audio_pipeline_step_eof p m s ops f hs hops hf hneg hz
      rw [hq, hdrop] at hput
      simp only [Option.some.injEq, Prod.mk.injEq] at hput
      obtain ⟨_, rfl⟩ := hput
      rw [hsame] at hstep
      simp [audio_pipeline_thread_iteration, hstop, hplay, hstep, hneg]
  · intro q2
    by_cases hneg : (f s p.frame_capacity 0 m.world).1 < 0
    · obtain ⟨code, q1, _, hstep⟩ := audio_pipeline_step_error
        { p with event_queue := q2 } m s ops f hs hops hf hneg
      refine ⟨q1, ?_⟩
      rw [audio_pipeline_thread_iteration_of_step { p with event_queue := q2 } m _ _ _
        hplay hstop hstep, if_pos hneg]
      rfl
    · have hz : (f s p.frame_capacity 0 m.world).2.1 = 0 := by
        rcases hend with h | h
        · exact absurd h hneg
        · exact h
      obtain ⟨code, q1, _, hstep⟩ := audio_pipeline_step_eof
        { p with event_queue := q2 } m s ops f hs hops hf hneg hz
      refine ⟨q1, ?_⟩
      rw [audio_pipeline_thread_iteration_of_step { p with event_queue := q2 } m _ _ _
        hplay hstop hstep, if_neg hneg]
      rfl

/-- Witness of C15: the sink's `process` returns `-5` while the event queue
holds 8 of 8 events; the pass returns with outcome `-1`, `playing` is cleared
and the queue still holds 8 events. -/
theorem worker_pull_drops_event_on_full_queue_witness :
    audio_pipeline_thread_iteration (played_full (four_nodes_pulling (-5) 0))
        (played (four_nodes_pulling (-5) 0)).2
      = some (worker_outcome.pulled (if (-5 : Int) < 0 then -1 else 1),
          { (played_full (four_nodes_pulling (-5) 0)) with playing := false },
          { (played (four_nodes_pulling (-5) 0)).2 with
            world := (played (four_nodes_pulling (-5) 0)).2.world + 1,
            trace := (played (four_nodes_pulling (-5) 0)).2.trace
              ++ [NodeCall.processed 3 (-5) 0] }) ∧
    (audio_pipeline_thread_iteration (played_full (four_nodes_pulling (-5) 0))
        (played (four_nodes_pulling (-5) 0)).2).map
      (fun r => (r.1, r.2.1.playing, r.2.1.event_queue.map (fun q => (q.count, q.write_idx))))
      = some (worker_outcome.pulled (-1), false, some (8, 0)) :=
  ⟨(worker_pull_drops_event_on_full_queue (played_full (four_nodes_pulling (-5) 0))
      (played (four_nodes_pulling (-5) 0)).2 3 (pulling_ops (-5) 0)
      (fun _ _ _ w => (-5, 0, w + 1)) full_event_queue rfl rfl rfl rfl rfl rfl rfl
      (Or.inl (by decide))).1, by decide⟩

theorem audio_pipeline_stop_started (p : audio_pipeline) (h : p.thread_started = true) :
    audio_pipeline_stop (some p) = (0, some { p with playing := false }) := by
  simp [audio_pipeline_stop, h]

theorem audio_pipeline_play_started (p : audio_pipeline) (h : p.thread_started = true) :
    audio_pipeline_play (some p) = (0, some { p with playing := true }) := by
  simp [audio_pipeline_play, h]

theorem audio_pipeline_stop_not_started (p : audio_pipeline) (h : p.thread_started = false) :
    audio_pipeline_stop (some p) = (-EINVAL, some p) := by
  simp [audio_pipeline_stop, h]

theorem run_quiet_keeps_idle {W : Type} (acts : List quiet_action) :
    ∀ (p : audio_pipeline) (m : Mem W), p.playing = false → p.stop_request = false →
      ∃ p2, run_quiet acts p m = some (p2, m) ∧ p2.playing = false ∧
        p2.stop_request = false ∧ p2.event_queue = p.event_queue := by
  induction acts with
  | nil =>
    intro p m hp hs
    exact ⟨p, rfl, hp, hs, rfl⟩
  | cons a acts ih =>
    intro p m hp hs
    cases a with
    | worker =>
      have hit : audio_pipeline_thread_iteration p m = some (worker_outcome.idle, p, m) := by
        simp [audio_pipeline_thread_iteration, hp, hs]
      obtain ⟨p2, h1, h2, h3, h4⟩ := ih p m hp hs
      exact ⟨p2, by simp only [run_quiet, hit]; exact h1, h2, h3, h4⟩
    | stop =>
      by_cases hst : p.thread_started = true
      · obtain ⟨p2, h1, h2, h3, h4⟩ := ih { p with playing := false } m rfl hs
        refine ⟨p2, ?_, h2, h3, h4⟩
        simp only [run_quiet]
        rw [audio_pipeline_stop_started p hst]
        exact h1
      · obtain ⟨p2, h1, h2, h3, h4⟩ := ih p m hp hs
        refine ⟨p2, ?_, h2, h3, h4⟩
        have hst' : p.thread_started = false := by simpa using hst
        simp only [run_quiet]
        rw [audio_pipeline_stop_not_started p hst']
        exact h1

/-- C14: with the worker's passes through its loop as steps, a pass whose pull
reports 0 samples makes one no-wait put of `{EOF, 0}` and leaves `playing`
false; afterwards every sequence of worker passes and
`audio_pipeline_stop` calls, with no `audio_pipeline_play` among them, makes
no `process` call (trace and world stay as they are) and leaves the event
queue as that one put left it. -/
theorem worker_quiet_after_eof {W : Type} (p : audio_pipeline) (m : Mem W)
    (s : Nat) (ops : audio_node_ops W) (f : Nat → Nat → Nat → W → Int × Nat × W)
    (hs : p.sink = some s) (hops : (m.nodes s).ops = some ops) (hf : ops.process_fn = some f)
    (hplay : p.playing = true) (hstop : p.stop_request = false)
    (hnn : 0 ≤ (f s p.frame_capacity 0 m.world).1)
    (hz : (f s p.frame_capacity 0 m.world).2.1 = 0) :
    ∃ code p1 m1,
      audio_pipeline_thread_iteration p m = some (worker_outcome.pulled 1, p1, m1) ∧
      m1.trace = m.trace ++ [NodeCall.processed s (f s p.frame_capacity 0 m.world).1 0] ∧
      k_msgq_put p.event_queue
          (some { type := audio_pipeline_event_type.AUDIO_PIPELINE_EVENT_EOF, error := 0 })
          K_NO_WAIT [] = some (code, p1.event_queue) ∧
      p1.playing = false ∧
      ∀ (acts : List quiet_action), ∃ p2,
        run_quiet acts p1 m1 = some (p2, m1) ∧ p2.playing = false ∧
        p2.event_queue = p1.event_queue := by
  have hnn' : ¬ (f s p.frame_capacity 0 m.world).1 < 0 := by omega
  obtain ⟨code, q1, hput, hstep⟩ := audio_pipeline_step_eof p m s ops f hs hops hf hnn' hz
  refine ⟨code, { p with event_queue := q1, playing := false },
    { m with world := (f s p.frame_capacity 0 m.world).2.2,
             trace := m.trace ++ [NodeCall.processed s (f s p.frame_capacity 0 m.world).1
               (f s p.frame_capacity 0 m.world).2.1] }, ?_, ?_, hput, rfl, ?_⟩
  · rw [audio_pipeline_thread_iteration_of_step p m _ _ _ hplay hstop hstep]
    rfl
  · simp [hz]
  · intro acts
    obtain ⟨p2, h1, h2, _, h4⟩ := run_quiet_keeps_idle acts
      { p with event_queue := q1, playing := false }
      { m with world := (f s p.frame_capacity 0 m.world).2.2,
               trace := m.trace ++ [NodeCall.processed s (f s p.frame_capacity 0 m.world).1
                 (f s p.frame_capacity 0 m.world).2.1] } rfl hstop
    exact ⟨p2, h1, h2, h4⟩

/-- Witness of C14: on the playing pipeline whose sink reports 0 samples, the
pass that pulls leaves one event in the queue; three further worker passes
and a `stop` make no further `process` call and leave the queue at one event;
after `audio_pipeline_play` the next pass pulls again. -/
theorem worker_quiet_after_eof_witness :
    (∃ code p1 m1,
      audio_pipeline_thread_iteration
          ((played (four_nodes_pulling 0 0)).1.getD (AUDIO_PIPELINE_DEFINE 4))
          (played (four_nodes_pulling 0 0)).2 = some (worker_outcome.pulled 1, p1, m1) ∧
      m1.trace = (played (four_nodes_pulling 0 0)).2.trace ++ [NodeCall.processed 3 0 0] ∧
      k_msgq_put ((played (four_nodes_pulling 0 0)).1.getD (AUDIO_PIPELINE_DEFINE 4)).event_queue
          (some { type := audio_pipeline_event_type.AUDIO_PIPELINE_EVENT_EOF, error := 0 })
          K_NO_WAIT [] = some (code, p1.event_queue) ∧
      p1.playing = false ∧
      ∀ (acts : List quiet_action), ∃ p2,
        run_quiet acts p1 m1 = some (p2, m1) ∧ p2.playing = false ∧
        p2.event_queue = p1.event_queue) ∧
    ((audio_pipeline_thread_iteration
          ((played (four_nodes_pulling 0 0)).1.getD (AUDIO_PIPELINE_DEFINE 4))
          (played (four_nodes_pulling 0 0)).2).bind
        (fun r => run_quiet [quiet_action.worker, quiet_action.stop, quiet_action.worker,
          quiet_action.worker] r.2.1 r.2.2)).map
      (fun r => (r.1.playing, r.2.trace, r.1.event_queue.map (fun q => q.count)))
      = some (false, [NodeCall.opened 0 0, NodeCall.opened 1 0, NodeCall.opened 2 0,
          NodeCall.opened 3 0, NodeCall.processed 3 0 0], some 1) ∧
    ((audio_pipeline_thread_iteration
          ((played (four_nodes_pulling 0 0)).1.getD (AUDIO_PIPELINE_DEFINE 4))
          (played (four_nodes_pulling 0 0)).2).bind
        (fun r => audio_pipeline_thread_iteration
          ((audio_pipeline_play (some r.2.1)).2.getD r.2.1) r.2.2)).map
      (fun r => (r.1, r.2.2.trace.length, r.2.1.event_queue.map (fun q => q.count)))
      = some (worker_outcome.pulled 1, 6, some 2) :=
  ⟨worker_quiet_after_eof
      ((played (four_nodes_pulling 0 0)).1.getD (AUDIO_PIPELINE_DEFINE 4))
      (played (four_nodes_pulling 0 0)).2 3 (pulling_ops 0 0)
      (fun _ _ _ w => (0, 0, w + 1)) rfl rfl rfl rfl rfl (by decide) rfl,
    by decide, by decide⟩

/-! ## Theorems: restart and play/stop sequences -/

/-- C19 as stated fails for a pipeline joined while playing: on the playing
pipeline (worker waiting at the loop head) `audio_pipeline_join` followed by
`audio_pipeline_start` succeeds and starts a second worker with
`stop_request` clear, but `playing` is still true, and the first pass of the
new worker pulls a frame although `audio_pipeline_play` was not called
again. -/
theorem join_start_keeps_playing_counterexample :
    ((played (four_nodes_pulling 4 4)).1.map (fun p => (p.thread_started, p.playing)))
      = some (true, true) ∧
    (restarted (four_nodes_pulling 4 4)).map (fun r => (r.1, r.2.1, r.2.2.2.threads))
      = some (0, 0, 2) ∧
    (restarted (four_nodes_pulling 4 4)).map (fun r => r.2.2.1.map
        (fun p => (p.thread_started, p.running, p.stop_request, p.playing)))
      = some (some (true, true, false, true)) ∧
    ((restarted (four_nodes_pulling 4 4)).bind
        (fun r => audio_pipeline_thread_iteration
          (r.2.2.1.getD (AUDIO_PIPELINE_DEFINE 4)) r.2.2.2)).map
      (fun r => (r.1, r.2.2.trace.getLast?))
      = some (worker_outcome.pulled 0, some (NodeCall.processed 3 4 4)) := by
  refine ⟨?_, ?_, ?_, ?_⟩ <;> decide

theorem audio_pipeline_join_started {W : Type} (p : audio_pipeline) (m : Mem W)
    (pos : worker_position) (hst : p.thread_started = true) (r : Int)
    (pl2 : Option audio_pipeline) (m3 : Mem W)
    (hjoin : audio_pipeline_join (some p) m pos = some (r, pl2, m3)) :
    ∃ p2 m2,
      (if p.running then audio_pipeline_thread_exit { p with stop_request := true } m pos
       else some ({ p with stop_request := true }, m)) = some (p2, m2) ∧
      r = 0 ∧ pl2 = some { p2 with thread_started := false } ∧
      m3 = audio_pipeline_close_nodes p2 m2 := by
  cases hw : (if p.running then audio_pipeline_thread_exit { p with stop_request := true } m pos
       else some ({ p with stop_request := true }, m)) with
  | none =>
    have hw1 := hw
    simp only [hst] at hw1
    simp [audio_pipeline_join, hst, hw1] at hjoin
  | some res =>
    obtain ⟨p2, m2⟩ := res
    have hw1 := hw
    simp only [hst] at hw1
    simp only [audio_pipeline_join, hst, hw1] at hjoin
    simp at hjoin
    obtain ⟨rfl, rfl, rfl⟩ := hjoin
    exact ⟨p2, m2, rfl, rfl, rfl, rfl⟩

/-- C19 amended: after `audio_pipeline_join` followed by
`audio_pipeline_start` on a started pipeline, if the nodes open again and
`pthread_create` succeeds, both calls return `0`, exactly one new worker is
created, `thread_started` and `running` are set and `stop_request` is clear.
If the pipeline was not playing when joined, `playing` is false and a pass of
the new worker pulls no frame; if it was playing and the worker was waiting at
the loop head, `playing` is what it was. -/
theorem join_then_start_restarts {W : Type} (p : audio_pipeline) (m : Mem W)
    (pos : worker_position) (hinit : p.initialized = true) (hst : p.thread_started = true)
    (hsrc : p.source ≠ none) (hsnk : p.sink ≠ none)
    (r : Int) (p2 : audio_pipeline) (m2 : Mem W)
    (hjoin : audio_pipeline_join (some p) m pos = some (r, some p2, m2))
    (hopen : 0 ≤ (audio_pipeline_open_nodes p2 m2).1) :
    r = 0 ∧ ∃ p3 m3,
      audio_pipeline_start (some p2) m2 0 = (0, some p3, m3) ∧
      m3.threads = m.threads + 1 ∧
      p3.thread_started = true ∧ p3.running = true ∧ p3.stop_request = false ∧
      (p.playing = false →
        p3.playing = false ∧
        audio_pipeline_thread_iteration p3 m3 = some (worker_outcome.idle, p3, m3)) ∧
      (pos = worker_position.waiting → p3.playing = p.playing) := by
  obtain ⟨pw, mw, hw, hr, hp2, hm2⟩ := audio_pipeline_join_started p m pos hst r _ m2 hjoin
  have hp2' : p2 = { pw with thread_started := false } := Option.some.inj hp2
  have hframe : (pw.source = p.source ∧ pw.sink = p.sink) ∧ pw.initialized = true ∧
      (p.playing = false → pw.playing = false) ∧
      (pos = worker_position.waiting → pw.playing = p.playing) ∧
      mw.threads = m.threads := by
    by_cases hrun : p.running = true
    · rw [if_pos hrun] at hw
      obtain ⟨⟨h1, h2, _, _⟩, ⟨h3, _, _, _⟩, h4, h5, _, h6⟩ :=
        audio_pipeline_thread_exit_frame _ m pos pw mw hw
      exact ⟨⟨h1, h2⟩, by rw [h3]; exact hinit, h4, fun hpos => (h5 hpos).1, h6⟩
    · rw [if_neg hrun] at hw
      simp only [Option.some.injEq, Prod.mk.injEq] at hw
      obtain ⟨rfl, rfl⟩ := hw
      exact ⟨⟨rfl, rfl⟩, hinit, fun h => h, fun _ => rfl, rfl⟩
  obtain ⟨⟨hs1, hs2⟩, hi, hpl, hplw, hth⟩ := hframe
  have hthreads2 : m2.threads = m.threads := by
    rw [hm2, audio_pipeline_close_nodes_eq]
    obtain ⟨_, _, _, _, h4⟩ := close_in_order_calls (chain_close_order pw) mw
    rw [h4, hth]
  have hopen0 : ¬ (audio_pipeline_open_nodes p2 m2).1 < 0 := by omega
  have hopenth : (audio_pipeline_open_nodes p2 m2).2.threads = m2.threads := by
    rw [audio_pipeline_open_nodes_eq]
    obtain ⟨_, _, _, _, _, _, _, _, _, _, h8⟩ := open_in_order_calls (chain_top_down p2) m2
    exact h8
  have hsn : p2.source.isNone = false := by
    rw [hp2']
    show pw.source.isNone = false
    rw [hs1]
    cases h : p.source with
    | none => exact absurd h hsrc
    | some _ => rfl
  have hkn : p2.sink.isNone = false := by
    rw [hp2']
    show pw.sink.isNone = false
    rw [hs2]
    cases h : p.sink with
    | none => exact absurd h hsnk
    | some _ => rfl
  have hi2 : p2.initialized = true := by rw [hp2']; exact hi
  have hts2 : p2.thread_started = false := by rw [hp2']
  have hplay2 : p2.playing = pw.playing := by rw [hp2']
  refine ⟨hr, { p2 with stop_request := false, running := true, thread_started := true },
    { (audio_pipeline_open_nodes p2 m2).2 with
      threads := (audio_pipeline_open_nodes p2 m2).2.threads + 1 }, ?_, ?_, rfl, rfl, rfl, ?_, ?_⟩
  · simp [audio_pipeline_start, hi2, hsn, hkn, hopen0, hts2]
  · show (audio_pipeline_open_nodes p2 m2).2.threads + 1 = m.threads + 1
    rw [hopenth, hthreads2]
  · intro hidle
    have hp3 : p2.playing = false := by rw [hplay2]; exact hpl hidle
    refine ⟨hp3, ?_⟩
    simp [audio_pipeline_thread_iteration, hp3]
  · intro hpos
    show p2.playing = p.playing
    rw [hplay2]
    exact hplw hpos

/-- Witness of the amended C19: the started pipeline that was never played is
joined and started again; one worker more, `stop_request` clear, `playing`
false, and the new worker's first pass is idle. -/
theorem join_then_start_restarts_witness :
    (0 : Int) = 0 ∧ ∃ p3 m3,
      audio_pipeline_start (some ({ ((started four_nodes).1.getD (AUDIO_PIPELINE_DEFINE 4)) with
            stop_request := true, running := false, thread_started := false }))
          (audio_pipeline_close_nodes ((started four_nodes).1.getD (AUDIO_PIPELINE_DEFINE 4))
            (started four_nodes).2) 0 = (0, some p3, m3) ∧
      m3.threads = (started four_nodes).2.threads + 1 ∧
      p3.thread_started = true ∧ p3.running = true ∧ p3.stop_request = false ∧
      (((started four_nodes).1.getD (AUDIO_PIPELINE_DEFINE 4)).playing = false →
        p3.playing = false ∧
        audio_pipeline_thread_iteration p3 m3 = some (worker_outcome.idle, p3, m3)) ∧
      (worker_position.waiting = worker_position.waiting →
        p3.playing = ((started four_nodes).1.getD (AUDIO_PIPELINE_DEFINE 4)).playing) :=
  join_then_start_restarts ((started four_nodes).1.getD (AUDIO_PIPELINE_DEFINE 4))
    (started four_nodes).2 worker_position.waiting (by decide) (by decide) (by decide)
    (by decide) 0 _ _ rfl (by decide)

theorem playing_after_cons (c : play_stop) (rest : List play_stop) (before : Bool) :
    playing_after (c :: rest) before = playing_after rest (decide (c = play_stop.play)) := by
  cases rest with
  | nil => rfl
  | cons d rest =>
    simp only [playing_after, List.getLast?_cons_cons]
    cases h : (d :: rest).getLast? with
    | none => simp at h
    | some x => rfl

theorem run_play_stop_started (calls : List play_stop) :
    ∀ (p : audio_pipeline), p.thread_started = true →
      (run_play_stop calls (some p)).1 = calls.map (fun _ => (0 : Int)) ∧
      (run_play_stop calls (some p)).2
        = some { p with playing := playing_after calls p.playing } := by
  induction calls with
  | nil =>
    intro p _
    exact ⟨rfl, rfl⟩
  | cons c rest ih =>
    intro p hst
    cases c with
    | play =>
      obtain ⟨h1, h2⟩ := ih { p with playing := true } hst
      simp only [run_play_stop, audio_pipeline_play_started p hst]
      refine ⟨by rw [h1]; rfl, ?_⟩
      rw [h2, playing_after_cons]
      rfl
    | stop =>
      obtain ⟨h1, h2⟩ := ih { p with playing := false } hst
      simp only [run_play_stop, audio_pipeline_stop_started p hst]
      refine ⟨by rw [h1]; rfl, ?_⟩
      rw [h2, playing_after_cons]
      rfl

/-- C20: on a started pipeline every finite sequence of
`audio_pipeline_play` and `audio_pipeline_stop` calls returns `0` on each call
and leaves the pipeline record as it was except for `playing`, which is true
exactly when the last call was `play` (and untouched by the empty sequence);
so `thread_started` and `stop_request` are unchanged, and a call made twice
leaves what the call made once leaves.  Neither call reaches
`pthread_create`: the embedding of both has no access to the memory that
counts the workers. -/
theorem play_stop_sequence (p : audio_pipeline) (hst : p.thread_started = true)
    (calls : List play_stop) :
    (run_play_stop calls (some p)).1 = calls.map (fun _ => (0 : Int)) ∧
    (run_play_stop calls (some p)).2
      = some { p with playing := playing_after calls p.playing } ∧
    (∀ c rest, calls = rest ++ [c] →
      playing_after calls p.playing = decide (c = play_stop.play)) ∧
    (∃ p1, (run_play_stop calls (some p)).2 = some p1 ∧
      p1.thread_started = p.thread_started ∧ p1.stop_request = p.stop_request ∧
      p1.running = p.running) ∧
    (∀ c, (run_play_stop [c, c] (some p)).2 = (run_play_stop [c] (some p)).2) := by
  obtain ⟨h1, h2⟩ := run_play_stop_started calls p hst
  refine ⟨h1, h2, ?_, ⟨_, h2, rfl, rfl, rfl⟩, ?_⟩
  · intro c rest hc
    subst hc
    simp [playing_after]
  · intro c
    rw [(run_play_stop_started [c, c] p hst).2, (run_play_stop_started [c] p hst).2]
    rfl

/-- Witness of C20: play, play, stop, play, stop, stop on the started
pipeline. -/
theorem play_stop_sequence_witness :
    (run_play_stop [play_stop.play, play_stop.play, play_stop.stop, play_stop.play,
        play_stop.stop, play_stop.stop] (started four_nodes).1).1 = [0, 0, 0, 0, 0, 0] ∧
    ((run_play_stop [play_stop.play, play_stop.play, play_stop.stop, play_stop.play,
        play_stop.stop, play_stop.stop] (started four_nodes).1).2.map
      (fun p => (p.playing, p.thread_started, p.stop_request))) = some (false, true, false) ∧
    ((run_play_stop [play_stop.stop, play_stop.play] (started four_nodes).1).2.map
      (fun p => (p.playing, p.thread_started, p.stop_request))) = some (true, true, false) ∧
    (run_play_stop [play_stop.play, play_stop.stop]
        (some ((started four_nodes).1.getD (AUDIO_PIPELINE_DEFINE 4)))).1
      = [play_stop.play, play_stop.stop].map (fun _ => (0 : Int)) :=
  ⟨by decide, by decide, by decide,
    (play_stop_sequence ((started four_nodes).1.getD (AUDIO_PIPELINE_DEFINE 4)) (by decide)
      [play_stop.play, play_stop.stop]).1⟩

/-! ## Theorems: the gain filter -/

theorem q15_floor_eq (s g : Int) : q15_floor s g = (s * g) / 32768 := by
  unfold q15_floor
  have h := Rat.floor_intCast_div_natCast (s * g) 32768
  simpa using h

theorem gain_scale_eq (g s : Int) (hs1 : -2 ^ 31 ≤ s) (hs2 : s < 2 ^ 31)
    (hg1 : -2 ^ 31 ≤ g) (hg2 : g < 2 ^ 31) :
    Subsys.gain_scale g s = int_cast (q15_floor s g) := by
  have hp1 : s * g ≤ 2 ^ 62 := by nlinarith
  have hp2 : -2 ^ 62 < s * g := by nlinarith
  have h64s : int64_cast s = s := by
    unfold int64_cast
    omega
  have h64p : int64_cast (s * g) = s * g := by
    unfold int64_cast
    omega
  unfold Subsys.gain_scale
  rw [h64s, h64p, q15_floor_eq]
  congr 1
  refine Eq.trans (Int.shiftRight_eq_div_pow (s * g) 15) ?_
  norm_num

theorem gain_filter_loop_spec (g : Int) (n : Nat) :
    ∀ (i : Nat) (data : Nat → Int) (k : Nat),
      Subsys.gain_filter_loop g i n data k
        = if i ≤ k ∧ k < i + n then Subsys.gain_scale g (data k) else data k := by
  induction n with
  | zero =>
    intro i data k
    have : ¬ (i ≤ k ∧ k < i + 0) := by omega
    rw [if_neg this]
    rfl
  | succ n ih =>
    intro i data k
    simp only [Subsys.gain_filter_loop]
    rw [ih]
    by_cases hki : k = i
    · subst hki
      have h1 : ¬ (k + 1 ≤ k ∧ k < k + 1 + n) := by omega
      have h2 : k ≤ k ∧ k < k + (n + 1) := by omega
      simp [h1, h2]
    · by_cases hin : i + 1 ≤ k ∧ k < i + 1 + n
      · have h2 : i ≤ k ∧ k < i + (n + 1) := by omega
        have hik : ¬ i = k := fun h => hki h.symm
        simp [hin, h2, hki]
      · have h2 : ¬ (i ≤ k ∧ k < i + (n + 1)) := by omega
        simp [hin, h2, hki]

theorem gain_filter_process_eq {W : Type} (g : Int) (up : Subsys.audio_node W)
    (ops : Subsys.audio_node_ops W)
    (f : Subsys.audio_buffer_view → Nat → W → Int × Subsys.audio_buffer_view × Nat × W)
    (b : Subsys.audio_buffer_view) (o : Nat) (w : W)
    (hops : up.ops = some ops) (hf : ops.process_fn = some f)
    (hret : 0 ≤ (f b o w).1) (hn : (f b o w).2.2.1 ≠ 0) :
    Subsys.gain_filter_process (some ⟨g⟩) (some up) (some b) (some o) w
      = (0, some { (f b o w).2.1 with
            data := Subsys.gain_filter_loop g 0 (f b o w).2.2.1 (f b o w).2.1.data },
          some (f b o w).2.2.1, (f b o w).2.2.2) := by
  have hret' : ¬ (f b o w).1 < 0 := by omega
  simp [Subsys.gain_filter_process, Subsys.audio_node_process, hops, hf, hret', hn]

theorem gain_filter_loop_values (g : Int) (n : Nat) (data : Nat → Int)
    (hg1 : -2 ^ 31 ≤ g) (hg2 : g < 2 ^ 31)
    (hsamp : ∀ i, i < n → -2 ^ 31 ≤ data i ∧ data i < 2 ^ 31) :
    (∀ i, i < n → Subsys.gain_filter_loop g 0 n data i = int_cast (q15_floor (data i) g)) ∧
    (∀ i, i < n → -2 ^ 31 ≤ q15_floor (data i) g → q15_floor (data i) g < 2 ^ 31 →
      Subsys.gain_filter_loop g 0 n data i = q15_floor (data i) g) ∧
    (∀ i, n ≤ i → Subsys.gain_filter_loop g 0 n data i = data i) := by
  have hval : ∀ i, i < n →
      Subsys.gain_filter_loop g 0 n data i = int_cast (q15_floor (data i) g) := by
    intro i hi
    rw [gain_filter_loop_spec, if_pos (by omega)]
    exact gain_scale_eq g (data i) (hsamp i hi).1 (hsamp i hi).2 hg1 hg2
  refine ⟨hval, ?_, ?_⟩
  · intro i hi h1 h2
    rw [hval i hi]
    exact int_cast_of_int_range _ h1 h2
  · intro i hi
    rw [gain_filter_loop_spec, if_neg (by omega)]

/-- C17 as stated fails at `s = INT32_MIN` with the Q15 gain `-32768`: the
filter returns `0` and leaves the sample `-2147483648`, while the floor of
`(s * g) / 32768` is `2147483648`. -/
theorem gain_filter_wraps_counterexample :
    ((Subsys.gain_filter_process (some ⟨-32768⟩)
        (some (Subsys.fixed_source (fun _ => -2147483648) 1))
        (some Subsys.empty_view) (some 0) ()).1,
      (Subsys.gain_filter_process (some ⟨-32768⟩)
        (some (Subsys.fixed_source (fun _ => -2147483648) 1))
        (some Subsys.empty_view) (some 0) ()).2.1.map (fun b => b.data 0))
      = (0, some (-2147483648)) ∧
    q15_floor (-2147483648) (-32768) = 2147483648 ∧
    (-2147483648 : Int) ≠ 2147483648 := by
  refine ⟨by decide, ?_, by decide⟩
  rw [q15_floor_eq]
  decide

/-- C17 amended: when the upstream pull returns a non-negative value and
reports `n != 0` samples, `gain_filter_process` returns `0` and replaces each
of the first `n` samples `s` by the conversion to `int32_t` of the floor of
`(s * g) / 32768`, which is that floor itself whenever it is in the range of
`int32_t`, and leaves the samples at index `>= n`, the size reported and the
rest of the view unchanged. -/
theorem gain_filter_process_scales {W : Type} (g : Int) (up : Subsys.audio_node W)
    (ops : Subsys.audio_node_ops W)
    (f : Subsys.audio_buffer_view → Nat → W → Int × Subsys.audio_buffer_view × Nat × W)
    (b : Subsys.audio_buffer_view) (o : Nat) (w : W)
    (hops : up.ops = some ops) (hf : ops.process_fn = some f)
    (hret : 0 ≤ (f b o w).1) (hn : (f b o w).2.2.1 ≠ 0)
    (hg1 : -2 ^ 31 ≤ g) (hg2 : g < 2 ^ 31)
    (hsamp : ∀ i, i < (f b o w).2.2.1 →
      -2 ^ 31 ≤ (f b o w).2.1.data i ∧ (f b o w).2.1.data i < 2 ^ 31) :
    ∃ d : Nat → Int,
      Subsys.gain_filter_process (some ⟨g⟩) (some up) (some b) (some o) w
        = (0, some { (f b o w).2.1 with data := d }, some (f b o w).2.2.1, (f b o w).2.2.2) ∧
      (∀ i, i < (f b o w).2.2.1 → d i = int_cast (q15_floor ((f b o w).2.1.data i) g)) ∧
      (∀ i, i < (f b o w).2.2.1 → -2 ^ 31 ≤ q15_floor ((f b o w).2.1.data i) g →
        q15_floor ((f b o w).2.1.data i) g < 2 ^ 31 →
        d i = q15_floor ((f b o w).2.1.data i) g) ∧
      (∀ i, (f b o w).2.2.1 ≤ i → d i = (f b o w).2.1.data i) := by
  obtain ⟨h1, h2, h3⟩ := gain_filter_loop_values g (f b o w).2.2.1 (f b o w).2.1.data
    hg1 hg2 hsamp
  exact ⟨_, gain_filter_process_eq g up ops f b o w hops hf hret hn, h1, h2, h3⟩

/-- Witness of the amended C17: the gain `16384` (one half) over the samples
`INT32_MIN, 5` with a third sample `7` beyond the reported size. -/
theorem gain_filter_process_scales_witness :
    ∃ d : Nat → Int,
      Subsys.gain_filter_process (some ⟨16384⟩) (some (Subsys.fixed_source three_samples 2))
          (some Subsys.empty_view) (some 0) ()
        = (0, some { data := d, capacity := 4, size := 0 }, some 2, ()) ∧
      d 0 = -1073741824 ∧ d 1 = 2 ∧ d 2 = 7 := by
  obtain ⟨d, h1, h2, _, h4⟩ := gain_filter_process_scales 16384
    (Subsys.fixed_source three_samples 2)
    { open_fn := none,
      process_fn := some (fun b _ w => (0, { b with data := three_samples }, 2, w)),
      close_fn := none }
    (fun b _ w => (0, { b with data := three_samples }, 2, w))
    Subsys.empty_view 0 () rfl rfl (by decide) (by decide) (by decide) (by decide)
    (by
      intro i hi
      have hi' : i < 2 := hi
      interval_cases i <;> simp [three_samples])
  refine ⟨d, h1, ?_, ?_, ?_⟩
  · rw [h2 0 (by decide)]
    show int_cast (q15_floor (-2147483648) 16384) = -1073741824
    rw [q15_floor_eq]
    decide
  · rw [h2 1 (by decide)]
    show int_cast (q15_floor 5 16384) = 2
    rw [q15_floor_eq]
    decide
  · rw [h4 2 (by decide)]
    rfl

/-- C18 as stated fails at the boundary `g = 0`: a node configured with gain
`0` is opened with gain `32768` and hands the sample `5` down as `5`, while
the floor of `(5 * 0) / 32768` is `0`. -/
theorem gain_zero_is_unity_counterexample :
    Subsys.gain_filter_open (some ⟨0⟩) = (0, some ⟨32768⟩) ∧
    (Subsys.gain_output 0 (fun _ => 5) 1).map (fun r => (r.1, r.2 0)) = some (0, 5) ∧
    q15_floor 5 0 = 0 ∧ (5 : Int) ≠ 0 := by
  refine ⟨by decide, by decide, ?_, by decide⟩
  rw [q15_floor_eq]
  decide

/-- C18 amended: `gain_filter_open` on a node configured with the gain `g`
returns `0` and leaves the gain `g` if `g != 0` and `32768` if `g = 0`; a
pull that follows, the upstream reporting `n != 0` samples, replaces each of
the first `n` samples `s` by the conversion to `int32_t` of the floor of
`(s * g') / 32768` for that gain `g'`: for `g != 0` this is the floor of
`(s * g) / 32768` whenever the floor is in the range of `int32_t`, and a node
configured with `g = 0` hands every sample `s` down unchanged. -/
theorem gain_filter_open_then_process {W : Type} (g : Int) (up : Subsys.audio_node W)
    (ops : Subsys.audio_node_ops W)
    (f : Subsys.audio_buffer_view → Nat → W → Int × Subsys.audio_buffer_view × Nat × W)
    (b : Subsys.audio_buffer_view) (o : Nat) (w : W)
    (hops : up.ops = some ops) (hf : ops.process_fn = some f)
    (hret : 0 ≤ (f b o w).1) (hn : (f b o w).2.2.1 ≠ 0)
    (hg1 : -2 ^ 31 ≤ g) (hg2 : g < 2 ^ 31)
    (hsamp : ∀ i, i < (f b o w).2.2.1 →
      -2 ^ 31 ≤ (f b o w).2.1.data i ∧ (f b o w).2.1.data i < 2 ^ 31) :
    Subsys.gain_filter_open (some ⟨g⟩) = (0, some ⟨if g = 0 then 32768 else g⟩) ∧
    ∃ d : Nat → Int,
      Subsys.gain_filter_process (Subsys.gain_filter_open (some ⟨g⟩)).2 (some up) (some b)
          (some o) w
        = (0, some { (f b o w).2.1 with data := d }, some (f b o w).2.2.1, (f b o w).2.2.2) ∧
      (∀ i, i < (f b o w).2.2.1 →
        d i = int_cast (q15_floor ((f b o w).2.1.data i) (if g = 0 then 32768 else g))) ∧
      (g ≠ 0 → ∀ i, i < (f b o w).2.2.1 → -2 ^ 31 ≤ q15_floor ((f b o w).2.1.data i) g →
        q15_floor ((f b o w).2.1.data i) g < 2 ^ 31 →
        d i = q15_floor ((f b o w).2.1.data i) g) ∧
      (g = 0 → ∀ i, i < (f b o w).2.2.1 → d i = (f b o w).2.1.data i) ∧
      (∀ i, (f b o w).2.2.1 ≤ i → d i = (f b o w).2.1.data i) := by
  have hopen : Subsys.gain_filter_open (some ⟨g⟩) = (0, some ⟨if g = 0 then 32768 else g⟩) := by
    by_cases hg : g = 0
    · simp [Subsys.gain_filter_open, hg]
    · simp [Subsys.gain_filter_open, hg]
  have hge1 : -2 ^ 31 ≤ (if g = 0 then (32768 : Int) else g) := by
    split
    · norm_num
    · exact hg1
  have hge2 : (if g = 0 then (32768 : Int) else g) < 2 ^ 31 := by
    split
    · norm_num
    · exact hg2
  obtain ⟨h1, h2, h3⟩ := gain_filter_loop_values (if g = 0 then 32768 else g)
    (f b o w).2.2.1 (f b o w).2.1.data hge1 hge2 hsamp
  refine ⟨hopen, _, ?_, h1, ?_, ?_, h3⟩
  · rw [hopen]
    exact gain_filter_process_eq _ up ops f b o w hops hf hret hn
  · intro hg i hi hlo hhi
    have := h2 i hi
    simp only [if_neg hg] at this ⊢
    exact this hlo hhi
  · intro hg i hi
    have hq : q15_floor ((f b o w).2.1.data i) 32768 = (f b o w).2.1.data i := by
      rw [q15_floor_eq]
      omega
    have := h2 i hi
    simp only [if_pos hg] at this ⊢
    rw [hq] at this
    exact this (hsamp i hi).1 (hsamp i hi).2

/-- Witness of the amended C18: a node configured with gain `0` hands
`INT32_MIN` and `5` down unchanged. -/
theorem gain_filter_open_then_process_witness :
    Subsys.gain_filter_open (some ⟨0⟩) = (0, some ⟨if (0 : Int) = 0 then 32768 else 0⟩) ∧
    ∃ d : Nat → Int,
      Subsys.gain_filter_process (Subsys.gain_filter_open (some ⟨0⟩)).2
          (some (Subsys.fixed_source three_samples 2)) (some Subsys.empty_view) (some 0) ()
        = (0, some { data := d, capacity := 4, size := 0 }, some 2, ()) ∧
      d 0 = -2147483648 ∧ d 1 = 5 ∧ d 2 = 7 := by
  obtain ⟨h0, d, h1, _, _, h3, h4⟩ := gain_filter_open_then_process 0
    (Subsys.fixed_source three_samples 2)
    { open_fn := none,
      process_fn := some (fun b _ w => (0, { b with data := three_samples }, 2, w)),
      close_fn := none }
    (fun b _ w => (0, { b with data := three_samples }, 2, w))
    Subsys.empty_view 0 () rfl rfl (by decide) (by decide) (by decide) (by decide)
    (by
      intro i hi
      have hi' : i < 2 := hi
      interval_cases i <;> simp [three_samples])
  exact ⟨h0, d, h1, h3 rfl 0 (by decide), h3 rfl 1 (by decide), h4 2 (by decide)⟩

/-! ## Theorems: the round trip of the test pipeline -/

theorem sink_pull_at_end (up snk c o : Nat) (w : test_world)
    (hoff : w.gen.samples ≤ w.gen.offset) (hff : w.sink.fail_on_first = false) :
    sink_process (generator_process up) snk c o w = (0, 0, w) := by
  have h : w.gen.offset ≥ w.gen.samples := hoff
  simp [sink_process, generator_process, hff, h]

theorem sink_pull_data (up snk c o : Nat) (w : test_world)
    (hoff : w.gen.offset < w.gen.samples) (hff : w.sink.fail_on_first = false)
    (hc : 1 ≤ c) (hwr : w.sink.written = w.gen.offset)
    (hcap : w.gen.samples ≤ w.sink.capacity) (hL : w.gen.samples < 2 ^ 62) :
    ∃ (n : Nat) (w1 : test_world),
      n = (if w.gen.samples - w.gen.offset > c then c else w.gen.samples - w.gen.offset) ∧
      sink_process (generator_process up) snk c o w = ((n : Int), n, w1) ∧
      n ≠ 0 ∧
      w1.gen.samples = w.gen.samples ∧ w1.gen.data = w.gen.data ∧
      w1.gen.offset = w.gen.offset + n ∧
      w1.sink.written = w.gen.offset + n ∧ w1.sink.capacity = w.sink.capacity ∧
      w1.sink.fail_on_first = false ∧
      (∀ i, w1.sink.dest i = if w.gen.offset ≤ i ∧ i < w.gen.offset + n
        then w.gen.data i else w.sink.dest i) := by
  have hge : ¬ w.gen.offset ≥ w.gen.samples := by omega
  have hn : ∃ n, n = (if w.gen.samples - w.gen.offset > c then c
      else w.gen.samples - w.gen.offset) := ⟨_, rfl⟩
  obtain ⟨n, hndef⟩ := hn
  have hn1 : 1 ≤ n := by
    rw [hndef]; split <;> omega
  have hn2 : w.gen.offset + n ≤ w.gen.samples := by
    rw [hndef]; split <;> omega
  have hcast : ssize_cast n = (n : Int) := by
    unfold ssize_cast int64_cast
    omega
  have hmod : (w.gen.offset + n) % SIZE_MOD = w.gen.offset + n := by
    apply Nat.mod_eq_of_lt
    simp only [SIZE_MOD]
    omega
  have hgen : generator_process up c o w = ((n : Int), n,
      { w with
        frame := fun i => if i < n then w.gen.data (w.gen.offset + i) else w.frame i,
        gen := { w.gen with offset := w.gen.offset + n } }) := by
    simp only [generator_process, if_neg hge, ← hndef, hcast, hmod]
  have hnneg : ¬ ((n : Int) < 0) := by omega
  have hn0 : n ≠ 0 := by omega
  have hfit : ¬ ((w.sink.written + n) % SIZE_MOD > w.sink.capacity) := by
    rw [hwr, hmod]; omega
  refine ⟨n, { w with
      frame := fun i => if i < n then w.gen.data (w.gen.offset + i) else w.frame i,
      gen := { w.gen with offset := w.gen.offset + n },
      sink := { w.sink with
        dest := fun i =>
          if w.sink.written ≤ i ∧ i < w.sink.written + n
          then (fun j => if j < n then w.gen.data (w.gen.offset + j) else w.frame j)
            (i - w.sink.written)
          else w.sink.dest i,
        written := (w.sink.written + n) % SIZE_MOD } }, hndef, ?_, hn0, rfl, rfl, rfl, ?_, rfl,
      hff, ?_⟩
  · simp only [sink_process, hff, hgen, hnneg, hn0, hfit, Bool.false_and, if_false]
    rfl
  · show (w.sink.written + n) % SIZE_MOD = w.gen.offset + n
    rw [hwr, hmod]
  · intro i
    show (if w.sink.written ≤ i ∧ i < w.sink.written + n
          then (if i - w.sink.written < n then w.gen.data (w.gen.offset + (i - w.sink.written))
            else w.frame (i - w.sink.written))
          else w.sink.dest i) = _
    rw [hwr]
    by_cases hi : w.gen.offset ≤ i ∧ i < w.gen.offset + n
    · have h1 : i - w.gen.offset < n := by omega
      have h2 : w.gen.offset + (i - w.gen.offset) = i := by omega
      rw [if_pos hi, if_pos hi, if_pos h1, h2]
    · rw [if_neg hi, if_neg hi]

theorem ceil_div_zero (c : Nat) (hc : 1 ≤ c) : ceil_div 0 c = 0 := by
  unfold ceil_div
  apply Nat.div_eq_of_lt
  omega

theorem ceil_div_step (r c : Nat) (hc : 1 ≤ c) (hr : 1 ≤ r) :
    ceil_div r c = ceil_div (r - (if r > c then c else r)) c + 1 := by
  unfold ceil_div
  by_cases h : r > c
  · rw [if_pos h]
    have h1 : r + c - 1 = (r - c + c - 1) + c := by omega
    rw [h1, Nat.add_div_right _ (by omega)]
  · rw [if_neg h]
    have h1 : r + c - 1 = (r - 1) + c := by omega
    have h2 : (r - 1) / c = 0 := Nat.div_eq_of_lt (by omega)
    have h3 : (r - r + c - 1) / c = 0 := Nat.div_eq_of_lt (by omega)
    rw [h1, Nat.add_div_right _ (by omega), h2, h3]

theorem pull_until_end_round_trip (data : Nat → Int) (L K c : Nat) (hc : 1 ≤ c)
    (hL : L < 2 ^ 62) (hK : L ≤ K) (snk up : Nat) (ops : audio_node_ops test_world)
    (hf : ops.process_fn = some (sink_process (generator_process up))) (fuel : Nat) :
    ∀ (p : audio_pipeline) (m : Mem test_world),
      p.sink = some snk → p.frame_capacity = c → (m.nodes snk).ops = some ops →
      m.world.gen.samples = L → m.world.gen.data = data → m.world.gen.offset ≤ L →
      m.world.sink.written = m.world.gen.offset → m.world.sink.capacity = K →
      m.world.sink.fail_on_first = false →
      (∀ i, i < m.world.gen.offset → m.world.sink.dest i = data i) →
      ceil_div (L - m.world.gen.offset) c + 1 ≤ fuel →
      ∃ p1 m1,
        pull_until_end fuel p m
          = some (ceil_div (L - m.world.gen.offset) c + 1, 1, p1, m1) ∧
        m1.world.sink.written = L ∧ (∀ i, i < L → m1.world.sink.dest i = data i) ∧
        m1.world.gen.offset = L := by
  induction fuel with
  | zero =>
    intro p m _ _ _ _ _ _ _ _ _ _ hfuel
    omega
  | succ fuel ih =>
    intro p m hsink hcap hops hs hd hoff hwr hk hff hdest hfuel
    by_cases hend : m.world.gen.offset = L
    · -- the generator is exhausted: this pull reports end of stream
      have hval : sink_process (generator_process up) snk p.frame_capacity 0 m.world
          = (0, 0, m.world) :=
        sink_pull_at_end up snk _ 0 m.world (by omega) hff
      have hnn : ¬ (sink_process (generator_process up) snk p.frame_capacity 0 m.world).1 < 0 := by
        rw [hval]
        simp
      have hz : (sink_process (generator_process up) snk p.frame_capacity 0 m.world).2.1 = 0 := by
        rw [hval]
      obtain ⟨code, q1, _, hstep⟩ := audio_pipeline_step_eof p m snk ops _ hsink hops hf hnn hz
      refine ⟨{ p with event_queue := q1 },
        { m with world := (sink_process (generator_process up) snk p.frame_capacity 0 m.world).2.2,
                 trace := m.trace ++ [NodeCall.processed snk
                   (sink_process (generator_process up) snk p.frame_capacity 0 m.world).1
                   (sink_process (generator_process up) snk p.frame_capacity 0 m.world).2.1] },
        ?_, ?_, ?_, ?_⟩
      · simp only [pull_until_end, hstep]
        rw [hend, Nat.sub_self, ceil_div_zero c hc]
        rfl
      · show (sink_process (generator_process up) snk p.frame_capacity 0 m.world).2.2.sink.written
          = L
        rw [hval]
        show m.world.sink.written = L
        rw [hwr, hend]
      · intro i hi
        show (sink_process (generator_process up) snk p.frame_capacity 0 m.world).2.2.sink.dest i
          = data i
        rw [hval]
        exact hdest i (by omega)
      · show (sink_process (generator_process up) snk p.frame_capacity 0 m.world).2.2.gen.offset
          = L
        rw [hval]
        exact hend
    · -- a data pull, then the remaining pulls by induction
      have hlt : m.world.gen.offset < m.world.gen.samples := by omega
      obtain ⟨n, w1, hndef, hval, hn0, hs1, hd1, ho1, hw1, hk1, hff1, hdest1⟩ :=
        sink_pull_data up snk p.frame_capacity 0 m.world hlt hff (by omega) hwr (by omega)
          (by omega)
      rw [hs, hcap] at hndef
      have hnle : m.world.gen.offset + n ≤ L := by
        rw [hndef]; split <;> omega
      have hnn : ¬ (sink_process (generator_process up) snk p.frame_capacity 0 m.world).1 < 0 := by
        rw [hval]
        show ¬ ((n : Int) < 0)
        omega
      have hz : (sink_process (generator_process up) snk p.frame_capacity 0 m.world).2.1 ≠ 0 := by
        rw [hval]
        exact hn0
      have hstep := audio_pipeline_step_data p m snk ops _ hsink hops hf hnn hz
      have hw1eq : (sink_process (generator_process up) snk p.frame_capacity 0 m.world).2.2
          = w1 := by rw [hval]
      rw [hw1eq] at hstep
      have hceil : ceil_div (L - m.world.gen.offset) c
          = ceil_div (L - (m.world.gen.offset + n)) c + 1 := by
        rw [ceil_div_step (L - m.world.gen.offset) c hc (by omega), ← hndef]
        congr 2
        omega
      obtain ⟨p1, m1, hrec, hwr', hdest', hoff'⟩ := ih p
        { m with world := w1,
                 trace := m.trace ++ [NodeCall.processed snk
                   (sink_process (generator_process up) snk p.frame_capacity 0 m.world).1
                   (sink_process (generator_process up) snk p.frame_capacity 0 m.world).2.1] }
        hsink hcap hops (by rw [hs1, hs]) (by rw [hd1, hd]) (by rw [ho1]; exact hnle)
        (by rw [hw1, ho1]) (by rw [hk1, hk]) hff1
        (by
          intro i hi
          show w1.sink.dest i = data i
          rw [hdest1 i]
          have hi1 : i < w1.gen.offset := hi
          have hi' : i < m.world.gen.offset + n := by
            rw [ho1] at hi1
            exact hi1
          by_cases hin : m.world.gen.offset ≤ i ∧ i < m.world.gen.offset + n
          · rw [if_pos hin, hd]
          · rw [if_neg hin]
            exact hdest i (by omega))
        (by
          show ceil_div (L - w1.gen.offset) c + 1 ≤ fuel
          rw [ho1]
          omega)
      refine ⟨p1, m1, ?_, hwr', hdest', hoff'⟩
      simp only [pull_until_end, hstep]
      rw [hrec]
      show some (ceil_div (L - w1.gen.offset) c + 1 + 1, (1 : Int), p1, m1) = _
      rw [ho1, hceil]

/-- C16: for every sample sequence `data 0 .. data (L-1)` held by the
generator source, every frame capacity `c >= 1` and every capturing sink of
capacity `K >= L`, pulling through the sink with `audio_pipeline_step` from
the opened state ends, with any fuel of at least `ceil(L/c) + 1`, after
exactly `ceil(L/c) + 1` pulls, the last one with the EOF outcome `1` and all
earlier ones with outcome `0`; the sink has then written `L` samples and its
output equals the input sample for sample. -/
theorem round_trip_without_filters (data : Nat → Int) (L K c : Nat) (hc : 1 ≤ c)
    (hL : L < 2 ^ 62) (hK : L ≤ K) (p : audio_pipeline) (m : Mem test_world) (snk up : Nat)
    (ops : audio_node_ops test_world) (w0 : test_world)
    (hsink : p.sink = some snk) (hcap : p.frame_capacity = c)
    (hops : (m.nodes snk).ops = some ops)
    (hf : ops.process_fn = some (sink_process (generator_process up)))
    (hw : m.world = (sink_open snk (generator_open up w0).2).2)
    (hs : w0.gen.samples = L) (hd : w0.gen.data = data) (hk : w0.sink.capacity = K)
    (hff : w0.sink.fail_on_first = false) (fuel : Nat) (hfuel : ceil_div L c + 1 ≤ fuel) :
    ∃ p1 m1,
      pull_until_end fuel p m = some (ceil_div L c + 1, 1, p1, m1) ∧
      m1.world.sink.written = L ∧ (∀ i, i < L → m1.world.sink.dest i = data i) ∧
      m1.world.gen.offset = L := by
  have hoff0 : m.world.gen.offset = 0 := by rw [hw]; rfl
  obtain ⟨p1, m1, h1, h2, h3, h4⟩ := pull_until_end_round_trip data L K c hc hL hK snk up ops
    hf fuel p m hsink hcap hops (by rw [hw]; exact hs) (by rw [hw]; exact hd)
    (by rw [hoff0]; omega) (by rw [hw]; rfl) (by rw [hw]; exact hk) (by rw [hw]; exact hff)
    (by
      intro i hi
      rw [hoff0] at hi
      omega)
    (by rw [hoff0]; exact hfuel)
  rw [hoff0] at h1
  exact ⟨p1, m1, h1, h2, h3, h4⟩

/-- Witness of C16: the eight samples `1 .. 8` of `test_sink_reports_eof`
pulled with frame capacity 3: three data pulls and the EOF pull, and the
sink's output is `1 .. 8`. -/
theorem round_trip_without_filters_witness :
    (∃ p1 m1,
      pull_until_end 10 (test_pipeline 3) (test_mem eight_samples 8 8)
        = some (ceil_div 8 3 + 1, 1, p1, m1) ∧
      m1.world.sink.written = 8 ∧ (∀ i, i < 8 → m1.world.sink.dest i = eight_samples i) ∧
      m1.world.gen.offset = 8) ∧
    (pull_until_end 10 (test_pipeline 3) (test_mem eight_samples 8 8)).map
      (fun r => (r.1, r.2.1, r.2.2.2.world.sink.written,
        (List.range 8).map r.2.2.2.world.sink.dest,
        r.2.2.2.trace))
      = some (4, 1, 8, [1, 2, 3, 4, 5, 6, 7, 8],
          [NodeCall.processed 1 3 3, NodeCall.processed 1 3 3, NodeCall.processed 1 2 2,
           NodeCall.processed 1 0 0]) :=
  ⟨round_trip_without_filters eight_samples 8 8 3 (by decide) (by norm_num) (by decide)
      (test_pipeline 3) (test_mem eight_samples 8 8) 1 0 (sink_ops 0)
      { frame := fun _ => 0,
        gen := { data := eight_samples, samples := 8, offset := 0 },
        sink := { dest := fun _ => 0, capacity := 8, written := 0, fail_on_first := false } }
      rfl rfl rfl rfl rfl rfl rfl rfl rfl 10 (by decide), by decide⟩

/-! ## Theorems: calls on a pipeline that is not started -/

/-- C21: on a pipeline whose `thread_started` is false, `audio_pipeline_play`,
`audio_pipeline_stop` and `audio_pipeline_join` each return `-EINVAL` and
leave the pipeline record unchanged; `join` also leaves the memory unchanged,
node records, world and call trace included, so no node operation is
invoked (play and stop have no access to the nodes at all). -/
theorem not_started_calls_return_einval {W : Type} (p : audio_pipeline) (m : Mem W)
    (pos : worker_position) (h : p.thread_started = false) :
    audio_pipeline_play (some p) = (-EINVAL, some p)
    ∧ audio_pipeline_stop (some p) = (-EINVAL, some p)
    ∧ audio_pipeline_join (some p) m pos = some (-EINVAL, some p, m) := by
  refine ⟨?_, ?_, ?_⟩
  · simp [audio_pipeline_play, h]
  · simp [audio_pipeline_stop, h]
  · simp [audio_pipeline_join, h]

/-- Witness for C21: the record `AUDIO_PIPELINE_DEFINE` declares, over the
four-node memory, with the worker oracle in either position. -/
theorem not_started_calls_return_einval_witness :
    (AUDIO_PIPELINE_DEFINE 4).thread_started = false
    ∧ audio_pipeline_play (some (AUDIO_PIPELINE_DEFINE 4))
        = (-EINVAL, some (AUDIO_PIPELINE_DEFINE 4))
    ∧ audio_pipeline_stop (some (AUDIO_PIPELINE_DEFINE 4))
        = (-EINVAL, some (AUDIO_PIPELINE_DEFINE 4))
    ∧ audio_pipeline_join (some (AUDIO_PIPELINE_DEFINE 4)) four_nodes worker_position.in_step
        = some (-EINVAL, some (AUDIO_PIPELINE_DEFINE 4), four_nodes) :=
  ⟨rfl, not_started_calls_return_einval (AUDIO_PIPELINE_DEFINE 4) four_nodes
    worker_position.in_step rfl⟩

/-! ## Theorems: the subsystem's node calls and configuration check -/

/-- C22: `audio_node_open` and `audio_node_close` return `0` and leave the
world unchanged when the node, its operation table or the operation is
absent, and return what the operation returns when it is present;
`audio_node_process` returns `-ENOSYS` and leaves the buffer view, the output
size and the world unchanged when the node, its operation table or its
`process` is absent. -/
theorem audio_node_calls_with_absent_operations {W : Type} (w : W) (role : audio_node_role)
    (o c f : Option (W → Int × W))
    (pr : Option (Subsys.audio_buffer_view → Nat → W → Int × Subsys.audio_buffer_view × Nat × W))
    (g : W → Int × W) (buf : Option Subsys.audio_buffer_view) (out_size : Option Nat) :
    Subsys.audio_node_open (none : Option (Subsys.audio_node W)) w = (0, w)
    ∧ Subsys.audio_node_open (some { role := role, ops := none }) w = (0, w)
    ∧ Subsys.audio_node_open
        (some { role := role, ops := some { open_fn := none, process_fn := pr, close_fn := c } })
        w = (0, w)
    ∧ Subsys.audio_node_open
        (some { role := role, ops := some { open_fn := some g, process_fn := pr, close_fn := c } })
        w = g w
    ∧ Subsys.audio_node_close (none : Option (Subsys.audio_node W)) w = (0, w)
    ∧ Subsys.audio_node_close (some { role := role, ops := none }) w = (0, w)
    ∧ Subsys.audio_node_close
        (some { role := role, ops := some { open_fn := o, process_fn := pr, close_fn := none } })
        w = (0, w)
    ∧ Subsys.audio_node_close
        (some { role := role, ops := some { open_fn := o, process_fn := pr, close_fn := some g } })
        w = g w
    ∧ Subsys.audio_node_process (none : Option (Subsys.audio_node W)) buf out_size w
        = (-ENOSYS, buf, out_size, w)
    ∧ Subsys.audio_node_process (some { role := role, ops := none }) buf out_size w
        = (-ENOSYS, buf, out_size, w)
    ∧ Subsys.audio_node_process
        (some { role := role, ops := some { open_fn := o, process_fn := none, close_fn := f } })
        buf out_size w = (-ENOSYS, buf, out_size, w) :=
  ⟨rfl, rfl, rfl, rfl, rfl, rfl, rfl, rfl, rfl, rfl, rfl⟩

/-- C23: `audio_pipeline_config_is_valid` returns true exactly when the
configuration pointer is non-null, `1 ≤ frame_samples ≤
AUDIO_PIPELINE_MAX_FRAME_SAMPLES`, `sample_rate_hz ≠ 0` and `channels ≠ 0`;
the all-zero configuration is rejected whatever the maximum is. -/
theorem audio_pipeline_config_is_valid_iff {W : Type} (max_frame_samples : Nat)
    (config : Option (Subsys.audio_pipeline_config W)) (fmt : audio_sample_format) :
    (Subsys.audio_pipeline_config_is_valid max_frame_samples config = true ↔
      ∃ cfg, config = some cfg ∧ 1 ≤ cfg.frame_samples
        ∧ cfg.frame_samples ≤ max_frame_samples
        ∧ cfg.stream.sample_rate_hz ≠ 0 ∧ cfg.stream.channels ≠ 0)
    ∧ Subsys.audio_pipeline_config_is_valid max_frame_samples
        (some ({ stream := { sample_rate_hz := 0, channels := 0, valid_bits_per_sample := 0,
                             format := fmt },
                 frame_samples := 0, event_cb := none } : Subsys.audio_pipeline_config W))
        = false := by
  refine ⟨?_, ?_⟩
  · cases config with
    | none => simp [Subsys.audio_pipeline_config_is_valid]
    | some cfg =>
      simp only [Subsys.audio_pipeline_config_is_valid, Option.some.injEq, exists_eq_left']
      constructor
      · intro h
        split at h
        · exact absurd h (by simp)
        · split at h
          · exact absurd h (by simp)
          · rename_i h1 h2
            refine ⟨?_, ?_, ?_, ?_⟩ <;> omega
      · rintro ⟨h1, h2, h3, h4⟩
        rw [if_neg (by omega), if_neg (by omega)]
  · simp [Subsys.audio_pipeline_config_is_valid]

/-! ## Theorems: a sink without a `process` operation -/

/-- C24: for a sink whose operation table is absent or lacks `process`, the
kernel-subsystem engine's `audio_pipeline_process_frame` returns `-ENOSYS`
with the frame buffer and the world unchanged, and `pipeline_thread` ends
after that one pull with `running` cleared and one event of type error and
code `-ENOSYS` handed to the callback.  The host engine's
`audio_pipeline_step` has no such check: with the sink's `process` absent it
calls through the null pointer, so the step, and with it the worker's pass,
has no result and no event is published. -/
theorem missing_process_subsystem_reports_host_calls_null {W V : Type}
    (max_frame_samples fuel : Nat) (pl : Subsys.audio_pipeline V) (snk : Subsys.audio_node V)
    (frame_buf : Nat → Int) (w : V) (p : audio_pipeline) (m : Mem W) (s : Nat)
    (ops : audio_node_ops W)
    (hsink : pl.sink = some snk)
    (hno : snk.ops = none ∨ ∃ o, snk.ops = some o ∧ o.process_fn = none)
    (hrun : pl.running = true)
    (hs : p.sink = some s) (hops : (m.nodes s).ops = some ops) (hpr : ops.process_fn = none) :
    Subsys.audio_pipeline_process_frame max_frame_samples (some pl) frame_buf w
        = (-ENOSYS, frame_buf, w)
    ∧ Subsys.pipeline_thread max_frame_samples (fuel + 1) (some pl) frame_buf w
        = some (some { pl with running := false }, frame_buf,
            Subsys.audio_pipeline_publish_event (some pl)
              audio_pipeline_event_type.AUDIO_PIPELINE_EVENT_ERROR (-ENOSYS) w, 1)
    ∧ (∀ cfg cb, pl.config = some cfg → cfg.event_cb = some cb →
        Subsys.audio_pipeline_publish_event (some pl)
            audio_pipeline_event_type.AUDIO_PIPELINE_EVENT_ERROR (-ENOSYS) w
          = cb { type := audio_pipeline_event_type.AUDIO_PIPELINE_EVENT_ERROR,
                 err := -ENOSYS } w)
    ∧ audio_pipeline_step p m = none
    ∧ (p.stop_request = false → p.playing = true →
        audio_pipeline_thread_iteration p m = none) := by
  have hframe : Subsys.audio_pipeline_process_frame max_frame_samples (some pl) frame_buf w
      = (-ENOSYS, frame_buf, w) := by
    rcases hno with h | ⟨o, h, ho⟩
    · simp [Subsys.audio_pipeline_process_frame, hsink, h]
    · simp [Subsys.audio_pipeline_process_frame, hsink, h, ho]
  have hstep : audio_pipeline_step p m = none := by
    simp [audio_pipeline_step, hs, hops, hpr]
  refine ⟨hframe, ?_, ?_, hstep, ?_⟩
  · have hne : (-ENOSYS : Int) ≠ -EPIPE := by decide
    have hneg : (-ENOSYS : Int) < 0 := by decide
    simp only [Subsys.pipeline_thread, hsink, Subsys.pipeline_thread_loop, hrun, if_true,
      hframe, if_neg hne, if_pos hneg]
    cases fuel <;> simp [Subsys.pipeline_thread_loop]
  · intro cfg cb hcfg hcb
    simp [Subsys.audio_pipeline_publish_event, hcfg, hcb]
  · intro hstop hplay
    simp [audio_pipeline_thread_iteration, hstop, hplay, hstep]

/-- Witness for C24: the subsystem pipeline `sink_without_process`, whose
callback logs the event, and the playing host pipeline over `four_nodes`,
whose sink (node 3) has `open` and `close` but no `process`. -/
theorem missing_process_subsystem_reports_host_calls_null_witness :
    Subsys.audio_pipeline_process_frame 4 (some Subsys.sink_without_process) (fun _ => 0) []
        = (-ENOSYS, fun _ => 0, [])
    ∧ Subsys.pipeline_thread 4 (0 + 1) (some Subsys.sink_without_process) (fun _ => 0) []
        = some (some { Subsys.sink_without_process with running := false }, fun _ => 0,
            Subsys.audio_pipeline_publish_event (some Subsys.sink_without_process)
              audio_pipeline_event_type.AUDIO_PIPELINE_EVENT_ERROR (-ENOSYS) [], 1)
    ∧ (∀ cfg cb, Subsys.sink_without_process.config = some cfg → cfg.event_cb = some cb →
        Subsys.audio_pipeline_publish_event (some Subsys.sink_without_process)
            audio_pipeline_event_type.AUDIO_PIPELINE_EVENT_ERROR (-ENOSYS) []
          = cb { type := audio_pipeline_event_type.AUDIO_PIPELINE_EVENT_ERROR,
                 err := -ENOSYS } [])
    ∧ audio_pipeline_step (played_pipeline four_nodes) (played four_nodes).2 = none
    ∧ ((played_pipeline four_nodes).stop_request = false →
        (played_pipeline four_nodes).playing = true →
        audio_pipeline_thread_iteration (played_pipeline four_nodes) (played four_nodes).2
          = none) :=
  missing_process_subsystem_reports_host_calls_null 4 0 Subsys.sink_without_process
    { role := audio_node_role.AUDIO_NODE_ROLE_SINK,
      ops := some { open_fn := some (fun w => (0, w)), process_fn := none,
                    close_fn := some (fun w => (0, w)) } }
    (fun _ => 0) [] (played_pipeline four_nodes) (played four_nodes).2 3 (counting_ops 0 0)
    rfl (Or.inr ⟨_, rfl, rfl⟩) rfl (by decide) rfl rfl

/-! ## Theorems: the chain of a started pipeline -/

/-- C25 as stated fails for `audio_pipeline_set_nodes`, which has no check of
`thread_started`: on the started four-node pipeline (filters node 1 and
node 2, the sink's upstream node 2) the call
`audio_pipeline_set_nodes(&pl, &node0, NULL, 0, &node3)` returns `0`, stores
`filter_count = 0` and rewires the sink's upstream to node 0, and the pipeline
is still started. -/
theorem set_nodes_on_started_rewires_counterexample :
    (started four_nodes).1.map (fun q => (q.thread_started, q.filter_count)) = some (true, 2)
    ∧ ((started four_nodes).2.nodes 3).upstream = some 2
    ∧ (audio_pipeline_set_nodes (started four_nodes).1 (started four_nodes).2
          (some 0) none 0 (some 3)).map
        (fun r => (r.1, r.2.1.map (fun q => (q.thread_started, q.filter_count)),
          (r.2.2.nodes 3).upstream))
        = some (0, some (true, 0), some 0) := by
  decide

/-- C25, amended: `audio_pipeline_set_format`, `audio_pipeline_start`,
`audio_pipeline_play`, `audio_pipeline_stop` and `audio_pipeline_get_event`
leave the pipeline's `source`, `sink`, `filters` and `filter_count` as they
are, in every state and so in every started one, and `start` leaves every
node record, upstream links included, as it is; the other four calls do not
touch the node memory at all.  For `get_event` the statement is about the
call that returns (a null event queue is dereferenced).  -/
theorem chain_fields_kept_by_controller_calls {W : Type} (p : audio_pipeline) (m : Mem W)
    (fmt : Option audio_format) (create_ret : Int) (evt : Option audio_pipeline_event)
    (timeout : Int) (waits : List (Wakeup audio_pipeline_event)) :
    (audio_pipeline_set_format (some p) fmt).2.map chain_fields = some (chain_fields p)
    ∧ (audio_pipeline_play (some p)).2.map chain_fields = some (chain_fields p)
    ∧ (audio_pipeline_stop (some p)).2.map chain_fields = some (chain_fields p)
    ∧ (audio_pipeline_start (some p) m create_ret).2.1.map chain_fields
        = some (chain_fields p)
    ∧ (audio_pipeline_start (some p) m create_ret).2.2.nodes = m.nodes
    ∧ (∀ r, audio_pipeline_get_event (some p) evt timeout waits = some r →
        r.2.1.map chain_fields = some (chain_fields p)) := by
  have hnodes : (audio_pipeline_open_nodes p m).2.nodes = m.nodes := by
    rw [audio_pipeline_open_nodes_eq]
    obtain ⟨_, _, _, _, _, _, _, _, _, h7, _⟩ := open_in_order_calls (chain_top_down p) m
    exact h7
  refine ⟨?_, ?_, ?_, ?_, ?_, ?_⟩
  · cases fmt <;> simp [audio_pipeline_set_format, chain_fields]
  · cases h : p.thread_started <;> simp [audio_pipeline_play, h, chain_fields]
  · cases h : p.thread_started <;> simp [audio_pipeline_stop, h, chain_fields]
  · simp only [audio_pipeline_start]
    split
    · rfl
    · split
      · rfl
      · split
        · rfl
        · split
          · rfl
          · split
            · simp [chain_fields]
            · simp [chain_fields]
  · simp only [audio_pipeline_start]
    split
    · rfl
    · split
      · rfl
      · split
        · exact hnodes
        · split
          · exact hnodes
          · split
            · exact hnodes
            · exact hnodes
  · intro r hr
    cases evt with
    | none =>
      simp only [audio_pipeline_get_event, Option.some.injEq] at hr
      subst hr
      rfl
    | some e =>
      simp only [audio_pipeline_get_event] at hr
      cases hg : k_msgq_get p.event_queue (some e) timeout waits with
      | none => simp [hg] at hr
      | some v =>
        obtain ⟨ret, q, e1⟩ := v
        simp only [hg, Option.some.injEq] at hr
        subst hr
        simp [chain_fields]

/-! ## Theorems: a failing `open` in `start`, a failing `set_nodes` -/

/-- C26 as stated fails: `audio_pipeline_start` has no roll-back.  On the
assembled four-node pipeline whose node 2 fails to open with `-5`, `start`
returns `-5` and creates no worker, the calls made are exactly the three
`open` calls, and nodes 0 and 1, whose `open` returned `0`, are not closed. -/
theorem start_failure_leaves_nodes_open_counterexample :
    (audio_pipeline_start (assembled (four_nodes_failing 2 (-5))).1
        (assembled (four_nodes_failing 2 (-5))).2 0).1 = -5
    ∧ (audio_pipeline_start (assembled (four_nodes_failing 2 (-5))).1
        (assembled (four_nodes_failing 2 (-5))).2 0).2.2.trace
        = [NodeCall.opened 0 0, NodeCall.opened 1 0, NodeCall.opened 2 (-5)]
    ∧ (audio_pipeline_start (assembled (four_nodes_failing 2 (-5))).1
        (assembled (four_nodes_failing 2 (-5))).2 0).2.2.threads = 0 := by
  decide

/-- C26, amended: when a node's `open` fails during `audio_pipeline_start` on
an initialised pipeline with source and sink set, `start` returns that
negative code, the pipeline record is unchanged and no worker is created, so
no partially started pipeline exists; the calls made are the successful
`open` calls followed by the failing one and nothing else: no `close` is
called, and the nodes opened before the failure stay open. -/
theorem start_open_failure_closes_nothing {W : Type} (p : audio_pipeline) (m : Mem W)
    (create_ret : Int) (hinit : p.initialized = true) (hsrc : p.source ≠ none)
    (hsnk : p.sink ≠ none) (hfail : (audio_pipeline_open_nodes p m).1 < 0) :
    audio_pipeline_start (some p) m create_ret
        = ((audio_pipeline_open_nodes p m).1, some p, (audio_pipeline_open_nodes p m).2)
    ∧ (audio_pipeline_start (some p) m create_ret).2.2.threads = m.threads
    ∧ (∃ (oks : List (Nat × Int)) (bad : Nat × Int),
        (∀ c ∈ oks, 0 ≤ c.2) ∧ bad.2 < 0
        ∧ (audio_pipeline_start (some p) m create_ret).1 = bad.2
        ∧ (audio_pipeline_start (some p) m create_ret).2.2.trace
            = m.trace ++ oks.map (fun c => NodeCall.opened c.1 c.2)
                ++ [NodeCall.opened bad.1 bad.2])
    ∧ (∀ a r, NodeCall.closed a r ∈ (audio_pipeline_start (some p) m create_ret).2.2.trace →
        NodeCall.closed a r ∈ m.trace) := by
  have hstart : audio_pipeline_start (some p) m create_ret
      = ((audio_pipeline_open_nodes p m).1, some p, (audio_pipeline_open_nodes p m).2) := by
    have h1 : p.source.isNone = false := by
      cases h : p.source with
      | none => exact absurd h hsrc
      | some a => rfl
    have h2 : p.sink.isNone = false := by
      cases h : p.sink with
      | none => exact absurd h hsnk
      | some a => rfl
    simp [audio_pipeline_start, hinit, h1, h2, hfail]
  obtain ⟨oks, bad, rest, hoks, hbad, _, htrace, hcode, hnone, _, hthreads⟩ :=
    open_in_order_calls (chain_top_down p) m
  rw [← audio_pipeline_open_nodes_eq] at htrace hcode hnone hthreads
  cases hb : bad with
  | none =>
    have h0 := (hnone hb).2
    rw [h0] at hfail
    exact absurd hfail (by decide)
  | some b =>
    subst hb
    have htr : (audio_pipeline_open_nodes p m).2.trace
        = m.trace ++ oks.map (fun c => NodeCall.opened c.1 c.2)
            ++ [NodeCall.opened b.1 b.2] := by
      rw [htrace]
      simp
    refine ⟨hstart, ?_, ⟨oks, b, hoks, hbad b rfl, ?_, ?_⟩, ?_⟩
    · rw [hstart]
      exact hthreads
    · rw [hstart]
      exact hcode b rfl
    · rw [hstart]
      exact htr
    · intro a r hmem
      rw [hstart] at hmem
      simp only [htr, List.mem_append, List.mem_map, List.mem_singleton] at hmem
      rcases hmem with (hmem | ⟨c, _, hc⟩) | hc
      · exact hmem
      · cases hc
      · cases hc

/-- Witness for C26: the assembled four-node pipeline whose node 2 fails to
open with `-5`. -/
theorem start_open_failure_closes_nothing_witness :
    (audio_pipeline_open_nodes (assembled_pipeline (four_nodes_failing 2 (-5)))
        (assembled (four_nodes_failing 2 (-5))).2).1 < 0
    ∧ (audio_pipeline_start (some (assembled_pipeline (four_nodes_failing 2 (-5))))
          (assembled (four_nodes_failing 2 (-5))).2 0).2.2.threads
        = (assembled (four_nodes_failing 2 (-5))).2.threads
    ∧ (∀ a r, NodeCall.closed a r ∈
          (audio_pipeline_start (some (assembled_pipeline (four_nodes_failing 2 (-5))))
            (assembled (four_nodes_failing 2 (-5))).2 0).2.2.trace →
        NodeCall.closed a r ∈ (assembled (four_nodes_failing 2 (-5))).2.trace) :=
  have h := start_open_failure_closes_nothing (assembled_pipeline (four_nodes_failing 2 (-5)))
    (assembled (four_nodes_failing 2 (-5))).2 0 (by decide) (by decide) (by decide)
    (by decide)
  ⟨by decide, h.2.1, h.2.2.2⟩

theorem set_nodes_loop_first_null {W : Type} (source : Option Nat) (f : Nat → Option Nat)
    (k : Nat) :
    ∀ (i n : Nat) (m : Mem W), k < n → f (i + k) = none →
      (∀ j, i ≤ j → j < i + k → f j ≠ none) →
      set_nodes_loop source f i n m = (-EINVAL, (set_nodes_loop source f i k m).2) := by
  induction k with
  | zero =>
    intro i n m hn hnull _
    cases n with
    | zero => omega
    | succ n =>
      have hfi : f i = none := by simpa using hnull
      simp [set_nodes_loop, hfi]
  | succ k ih =>
    intro i n m hn hnull hbefore
    cases n with
    | zero => omega
    | succ n =>
      cases hfi : f i with
      | none => exact absurd hfi (hbefore i (Nat.le_refl _) (by omega))
      | some node =>
        simp only [set_nodes_loop, hfi]
        apply ih (i + 1) n _ (by omega)
        · rw [← hnull]
          congr 1
          omega
        · intro j hj1 hj2
          exact hbefore j (by omega) (by omega)

/-- C27 as stated fails for a null filter slot: on the initialised record
`AUDIO_PIPELINE_DEFINE` declares, over the four-node memory, the call
`audio_pipeline_set_nodes(&pl, &node0, { &node1, NULL }, 2, &node3)` returns
`-EINVAL`, yet `source`, `sink` and `filter_count` have been stored and the
upstream of node 1 has been set to node 0. -/
theorem set_nodes_null_slot_not_atomic_counterexample :
    (audio_pipeline_init (some (AUDIO_PIPELINE_DEFINE 4))).2.map
        (fun q => (q.source, q.sink, q.filter_count)) = some (none, none, 0)
    ∧ (four_nodes.nodes 1).upstream = none
    ∧ (audio_pipeline_set_nodes (audio_pipeline_init (some (AUDIO_PIPELINE_DEFINE 4))).2
          four_nodes (some 0) (some one_filter_then_null) 2 (some 3)).map
        (fun r => (r.1, r.2.1.map (fun q => (q.source, q.sink, q.filter_count)),
          (r.2.2.nodes 1).upstream))
        = some (-EINVAL, some (some 0, some 3, 2), some 0) := by
  decide

theorem set_nodes_loop_last_write {W : Type} (source : Option Nat) (f : Nat → Option Nat)
    (k : Nat) :
    ∀ (i : Nat) (m : Mem W),
      (∀ j, i ≤ j → j < i + k → f j ≠ none) →
      (∀ j a, i ≤ j → j < i + k → f j = some a →
        (∀ j2, j < j2 → j2 < i + k → f j2 ≠ some a) →
        ((set_nodes_loop source f i k m).2.nodes a).upstream
          = if j = 0 then source else f (j - 1)) ∧
      (∀ a, (∀ j, i ≤ j → j < i + k → f j ≠ some a) →
        (set_nodes_loop source f i k m).2.nodes a = m.nodes a) ∧
      (∀ a, ((set_nodes_loop source f i k m).2.nodes a).role = (m.nodes a).role ∧
        ((set_nodes_loop source f i k m).2.nodes a).ops = (m.nodes a).ops) ∧
      (set_nodes_loop source f i k m).2.world = m.world ∧
      (set_nodes_loop source f i k m).2.trace = m.trace ∧
      (set_nodes_loop source f i k m).2.threads = m.threads := by
  induction k with
  | zero =>
    intro i m _
    refine ⟨?_, ?_, ?_, rfl, rfl, rfl⟩
    · intro j a h1 h2
      omega
    · intro a _
      rfl
    · intro a
      exact ⟨rfl, rfl⟩
  | succ k ih =>
    intro i m hnn
    cases hfi : f i with
    | none => exact absurd hfi (hnn i (Nat.le_refl _) (by omega))
    | some node =>
      simp only [set_nodes_loop, hfi]
      obtain ⟨hw, htr, hth, hup, hother⟩ :=
        set_upstream_frame m node (if i = 0 then source else f (i - 1))
      obtain ⟨h1, h2, h3, h4, h5, h6⟩ :=
        ih (i + 1) (set_upstream m node (if i = 0 then source else f (i - 1)))
          (fun j hj1 hj2 => hnn j (by omega) (by omega))
      refine ⟨?_, ?_, ?_, by rw [h4, hw], by rw [h5, htr], by rw [h6, hth]⟩
      · intro j a hj1 hj2 hja hlast
        by_cases hji : j = i
        · subst hji
          have ha : a = node := by
            rw [hfi] at hja
            exact (Option.some.inj hja).symm
          subst ha
          rw [h2 a (fun j2 hj21 hj22 => hlast j2 (by omega) (by omega)), hup]
        · exact h1 j a (by omega) (by omega) hja
            (fun j2 hj21 hj22 => hlast j2 hj21 (by omega))
      · intro a ha
        rw [h2 a (fun j hj1 hj2 => ha j (by omega) (by omega))]
        apply hother
        intro h
        subst h
        exact ha i (Nat.le_refl _) (by omega) hfi
      · intro a
        obtain ⟨hr, ho⟩ := h3 a
        rw [hr, ho]
        by_cases han : a = node
        · subst han
          simp [set_upstream]
        · rw [hother a han]
          exact ⟨rfl, rfl⟩

/-- C27, amended: with a null pipeline, source or sink, whatever `filters`
and `filter_count` are, `audio_pipeline_set_nodes` returns `-EINVAL` and
changes neither the pipeline record nor the memory.  With pipeline, source
and sink non-null and the first null filter slot at index `k < filter_count`,
it returns `-EINVAL` after it has stored `source`, `filters`, `filter_count`
and `sink` in the pipeline record and written `filters[j]->upstream` for
`j = 0 .. k-1` in ascending order: a node that occurs among those slots has
the predecessor of its last occurrence as upstream (the source for slot 0,
`filters[j-1]` for slot `j`), a node that does not occur among them keeps its
record, and roles, operation tables, world, call trace and worker count are
unchanged. -/
theorem set_nodes_einval_effects {W : Type} (p : audio_pipeline) (m : Mem W)
    (pl : Option audio_pipeline) (source sink : Option Nat)
    (filters : Option (Nat → Option Nat)) (src snk n : Nat) (f : Nat → Option Nat) :
    audio_pipeline_set_nodes none m source filters n sink = some (-EINVAL, none, m)
    ∧ audio_pipeline_set_nodes pl m none filters n sink = some (-EINVAL, pl, m)
    ∧ audio_pipeline_set_nodes pl m source filters n none = some (-EINVAL, pl, m)
    ∧ (∀ k, k < n → f k = none → (∀ j, j < k → f j ≠ none) →
        ∃ m1, audio_pipeline_set_nodes (some p) m (some src) (some f) n (some snk)
            = some (-EINVAL,
                some { p with source := some src, filters := some f, filter_count := n,
                              sink := some snk },
                m1)
          ∧ (∀ j a, j < k → f j = some a → (∀ j2, j < j2 → j2 < k → f j2 ≠ some a) →
              (m1.nodes a).upstream = if j = 0 then some src else f (j - 1))
          ∧ (∀ a, (∀ j, j < k → f j ≠ some a) → m1.nodes a = m.nodes a)
          ∧ (∀ a, (m1.nodes a).role = (m.nodes a).role ∧ (m1.nodes a).ops = (m.nodes a).ops)
          ∧ m1.world = m.world ∧ m1.trace = m.trace ∧ m1.threads = m.threads) := by
  refine ⟨rfl, ?_, ?_, ?_⟩
  · cases pl <;> rfl
  · cases pl <;> cases source <;> rfl
  · intro k hk hnull hbefore
    have hloop : set_nodes_loop (some src) f 0 n m
        = (-EINVAL, (set_nodes_loop (some src) f 0 k m).2) :=
      set_nodes_loop_first_null (some src) f k 0 n m hk (by simpa using hnull)
        (fun j _ hj => hbefore j (by omega))
    obtain ⟨hup, hother, hrec, hw, htr, hth⟩ := set_nodes_loop_last_write (some src) f k 0 m
      (fun j _ hj => hbefore j (by omega))
    have hneg : (-EINVAL : Int) < 0 := by decide
    refine ⟨(set_nodes_loop (some src) f 0 k m).2, ?_, ?_, ?_, hrec, hw, htr, hth⟩
    · simp [audio_pipeline_set_nodes, hloop, hneg]
    · intro j a hj hja hlast
      exact hup j a (Nat.zero_le _) (by omega) hja (fun j2 h1 h2 => hlast j2 h1 (by omega))
    · intro a ha
      exact hother a (fun j _ hj => ha j (by omega))

/-- Witness for C27: the filter array `{ &node1, &node1, NULL }` with
`filter_count = 3`, the first null slot at index 2: the call returns
`-EINVAL` and node 1, whose last occurrence is slot 1, has `filters[0]`, that
is node 1 itself, as upstream. -/
theorem set_nodes_einval_effects_witness :
    (∃ m1, audio_pipeline_set_nodes (some (AUDIO_PIPELINE_DEFINE 4)) four_nodes (some 0)
          (some duplicate_filter_then_null) 3 (some 3)
        = some (-EINVAL,
            some { AUDIO_PIPELINE_DEFINE 4 with source := some 0,
                                                filters := some duplicate_filter_then_null,
                                                filter_count := 3, sink := some 3 },
            m1)
      ∧ (∀ j a, j < 2 → duplicate_filter_then_null j = some a →
          (∀ j2, j < j2 → j2 < 2 → duplicate_filter_then_null j2 ≠ some a) →
          (m1.nodes a).upstream = if j = 0 then some 0 else duplicate_filter_then_null (j - 1))
      ∧ (∀ a, (∀ j, j < 2 → duplicate_filter_then_null j ≠ some a) →
          m1.nodes a = four_nodes.nodes a)
      ∧ (∀ a, (m1.nodes a).role = (four_nodes.nodes a).role
          ∧ (m1.nodes a).ops = (four_nodes.nodes a).ops)
      ∧ m1.world = four_nodes.world ∧ m1.trace = four_nodes.trace
      ∧ m1.threads = four_nodes.threads)
    ∧ (audio_pipeline_set_nodes (some (AUDIO_PIPELINE_DEFINE 4)) four_nodes (some 0)
          (some duplicate_filter_then_null) 3 (some 3)).map
        (fun r => (r.1, (r.2.2.nodes 1).upstream, (r.2.2.nodes 3).upstream))
        = some (-EINVAL, some 1, none) :=
  ⟨(set_nodes_einval_effects (AUDIO_PIPELINE_DEFINE 4) four_nodes none none none none 0 3 3
      duplicate_filter_then_null).2.2.2 2 (by decide) (by decide)
      (by intro j hj; simp [duplicate_filter_then_null, hj]),
    by decide⟩

end AudioPipeline
